import Mathlib

/-!
# Finite-element 1-d QP formulation (`fem_1d_expanded_qp_problem.cc`)

A shallow embedding of `Fem1dExpandedQpProblem` : the kernel, offset and affine
constraint builders and the decoding part of `Optimize`.

* `c_float` (a C `double`) is embedded as `ℚ` : arithmetic is taken as exact.
* `size_t` values are naturals reduced modulo `2 ^ 64`; `int` values are
  integers reduced to the two's complement range of 32 bits; the index type of
  the dense matrix is the signed 64 bit range.
* A dense `MatrixXd` is its two dimensions and its coefficient function;
  coefficient access outside the dimensions is a fault.
* `std::vector<c_float>` is a `List`; `at` outside the size is a fault.
* `DenseToCSCMatrix` and `OptimizeWithOsqp` are defined outside this translation unit and
  are parameters of the functions that call them.

The theorems about `CalcualteAffineConstraint` and `Optimize` take `6 n < 2 ^ 31` for the
number `n` of samples : the `int` locals of the builder count rows up to `6 n`, and a dense
`6 n × 3 n` matrix of doubles (`144 n²` bytes) is addressable with 64 bits exactly in that
range.
-/

namespace apollo
namespace planning

/-! ## Scalars, faults and machine integers -/

/-- A `c_float` of the solver interface (a `double`), with exact arithmetic. -/
abbrev c_float := ℚ

/-- The ways in which a run of the embedded code stops without a result. -/
inductive Fault where
  /-- an index or size assertion of the dense matrix library -/
  | eigen_assert
  /-- `std::vector::at` outside the size of the sequence -/
  | out_of_range
  /-- unchecked access outside a sequence (`operator[]`, `back()`, raw array) -/
  | undefined_behavior
  /-- a failed `CHECK_EQ` -/
  | check_failed
  /-- the loop model ran out of fuel (never the case for the fuel passed below) -/
  | out_of_fuel
deriving DecidableEq

/-- Conversion of an integer value to `size_t` (64 bit, unsigned). -/
def to_size_t (x : Int) : Nat := (x % 2 ^ 64).toNat

/-- Conversion of an integer value to `int` (32 bit, two's complement). -/
def to_int (x : Int) : Int := (x + 2 ^ 31) % 2 ^ 32 - 2 ^ 31

/-- Conversion of an integer value to the signed 64 bit index type of the dense matrix. -/
def to_Index (x : Int) : Int := (x + 2 ^ 63) % 2 ^ 64 - 2 ^ 63

/-- Addition of two `size_t` values. -/
def size_add (a b : Nat) : Nat := (a + b) % 2 ^ 64

/-- Multiplication of two `size_t` values. -/
def size_mul (a b : Nat) : Nat := (a * b) % 2 ^ 64

/-- Subtraction of two `size_t` values (both below `2 ^ 64`), wrapping around. -/
def size_sub (a b : Nat) : Nat := (a + (2 ^ 64 - b % 2 ^ 64)) % 2 ^ 64

/-! ## Dense matrices, sequences and loops -/

/-- A dense matrix of `c_float` : the dimensions and the coefficients. -/
structure MatrixXd where
  rows : Nat
  cols : Nat
  coeff : Nat → Nat → c_float

/-- `MatrixXd::Zero(rows, cols)` : the dimensions must not be negative. -/
def MatrixXd.Zero (rows cols : Int) : Except Fault MatrixXd :=
  if 0 ≤ rows ∧ 0 ≤ cols then
    .ok { rows := rows.toNat, cols := cols.toNat, coeff := fun _ _ => 0 }
  else .error .eigen_assert

/-- Assignment `m(row, col) = v` : the indices must lie inside the dimensions. -/
def MatrixXd.assign (m : MatrixXd) (row col : Int) (v : c_float) : Except Fault MatrixXd :=
  if 0 ≤ row ∧ row < m.rows ∧ 0 ≤ col ∧ col < m.cols then
    .ok { m with coeff := fun r c => if r = row.toNat ∧ c = col.toNat then v else m.coeff r c }
  else .error .eigen_assert

/-- `v->resize(k)` : the first `k` entries are kept, new entries are zero. -/
def resize (v : List c_float) (k : Nat) : List c_float :=
  v.take k ++ List.replicate (k - v.length) 0

/-- Assignment `v->at(i) = x`. -/
def assign_at (v : List c_float) (i : Nat) (x : c_float) : Except Fault (List c_float) :=
  if i < v.length then .ok (v.set i x) else .error .out_of_range

/-- Read of the raw array `x[i]`. -/
def read_array (x : List c_float) (i : Nat) : Except Fault c_float :=
  match x[i]? with
  | some v => .ok v
  | none => .error .undefined_behavior

/-- Assignment `v.back() = x`. -/
def assign_back (v : List c_float) (x : c_float) : Except Fault (List c_float) :=
  if v.length = 0 then .error .undefined_behavior else .ok (v.set (v.length - 1) x)

/-- A counting loop `for (size_t i = start; cond(i); ++i) body`, started with `fuel` trips
allowed. -/
def forLoop {σ : Type} (cond : Nat → Bool) (body : Nat → σ → Except Fault σ) :
    Nat → Nat → σ → Except Fault σ
  | 0, _, _ => .error .out_of_fuel
  | fuel + 1, i, s =>
    if cond i then (body i s).bind (forLoop cond body fuel (size_add i 1)) else .ok s

/-! ## The problem -/

/-- The smoothing weights (`weight_`). -/
structure Weight where
  x_w : c_float
  x_mid_line_w : c_float
  x_derivative_w : c_float
  x_second_order_derivative_w : c_float

/-- The members of `Fem1dExpandedQpProblem` that the translation unit reads and writes. -/
structure Fem1dExpandedQpProblem where
  num_var_ : Nat
  x_init_ : Fin 3 → c_float
  x_bounds_ : List (c_float × c_float)
  weight_ : Weight
  delta_s_ : c_float
  max_x_third_order_derivative_ : c_float
  x_ : List c_float
  x_derivative_ : List c_float
  x_second_order_derivative_ : List c_float

/-- The three sequences `DenseToCSCMatrix` fills (values, row indices, column pointers). -/
structure CSCMatrix where
  data : List c_float
  indices : List Int
  indptr : List Int

/-- What a call of `OptimizeWithOsqp` leaves behind : the value it returns and the array
`work->solution->x`. -/
structure OsqpOutcome where
  returned : Bool
  solution_x : List c_float

/-! ## `CalcualteKernel` -/

/-- The body of the loop of `CalcualteKernel` (lines 91-99). -/
def CalcualteKernel.body (p : Fem1dExpandedQpProblem) (i : Nat) (kernel : MatrixXd) :
    Except Fault MatrixXd :=
  if i < p.num_var_ then
    kernel.assign (to_Index i) (to_Index i) (2 * p.weight_.x_w + 2 * p.weight_.x_mid_line_w)
  else if i < size_mul 2 p.num_var_ then
    kernel.assign (to_Index i) (to_Index i) (2 * p.weight_.x_derivative_w)
  else
    kernel.assign (to_Index i) (to_Index i) (2 * p.weight_.x_second_order_derivative_w)

/-- The dense `kernel` of `CalcualteKernel` as it is handed to `DenseToCSCMatrix`
(lines 87-99). -/
def CalcualteKernel.kernel (p : Fem1dExpandedQpProblem) : Except Fault MatrixXd :=
  let kNumParam := size_mul 3 p.x_bounds_.length
  (MatrixXd.Zero (to_Index kNumParam) (to_Index kNumParam)).bind fun kernel =>
  forLoop (fun i => decide (i < kNumParam)) (CalcualteKernel.body p) (kNumParam + 1) 0 kernel

/-- `CalcualteKernel(P_data, P_indices, P_indptr)` (lines 84-101); the conversion
`DenseToCSCMatrix` is a parameter. -/
def CalcualteKernel (DenseToCSCMatrix : MatrixXd → CSCMatrix) (p : Fem1dExpandedQpProblem) :
    Except Fault CSCMatrix :=
  (CalcualteKernel.kernel p).bind fun kernel => .ok (DenseToCSCMatrix kernel)

/-! ## `CalcualteOffset` -/

/-- The body of the loop of `CalcualteOffset` (lines 107-114). -/
def CalcualteOffset.body (p : Fem1dExpandedQpProblem) (i : Nat) (q : List c_float) :
    Except Fault (List c_float) :=
  if i < p.x_bounds_.length then
    match p.x_bounds_[i]? with
    | some b => assign_at q i (-2 * p.weight_.x_mid_line_w * (b.1 + b.2))
    | none => .error .undefined_behavior
  else assign_at q i 0

/-- `CalcualteOffset(q)` : the sequence `*q` after the call (lines 103-115). -/
def CalcualteOffset (p : Fem1dExpandedQpProblem) (q : List c_float) :
    Except Fault (List c_float) :=
  let kNumParam := size_mul 3 p.x_bounds_.length
  forLoop (fun i => decide (i < kNumParam)) (CalcualteOffset.body p) (kNumParam + 1) 0
    (resize q kNumParam)

/-! ## `CalcualteAffineConstraint` -/

/-- The local state of `CalcualteAffineConstraint` that its loops change. -/
structure AffineState where
  affine_constraint : MatrixXd
  lower_bounds : List c_float
  upper_bounds : List c_float
  constraint_index : Int

/-- Lines 133-142 : one row `d_i+1'' - d_i''`. -/
def CalcualteAffineConstraint.jerk_body (p : Fem1dExpandedQpProblem) (pprime_offset : Int)
    (i : Nat) (s : AffineState) : Except Fault AffineState :=
  let row : Int := s.constraint_index
  let col : Int := to_int (size_add (to_size_t pprime_offset) i)
  (s.affine_constraint.assign row col (-1)).bind fun m =>
  (m.assign row (to_int (col + 1)) 1).bind fun m =>
  (assign_at s.lower_bounds (to_size_t s.constraint_index)
    (-p.max_x_third_order_derivative_ * p.delta_s_)).bind fun lo =>
  (assign_at s.upper_bounds (to_size_t s.constraint_index)
    (p.max_x_third_order_derivative_ * p.delta_s_)).bind fun up =>
  .ok { affine_constraint := m, lower_bounds := lo, upper_bounds := up,
        constraint_index := to_int (s.constraint_index + 1) }

/-- Lines 147-156 : one row `d_i+1' - d_i' - 0.5 * ds * (d_i'' + d_i+1'')`. -/
def CalcualteAffineConstraint.derivative_body (p : Fem1dExpandedQpProblem)
    (prime_offset pprime_offset : Int) (i : Nat) (s : AffineState) : Except Fault AffineState :=
  let ci : Int := s.constraint_index
  (s.affine_constraint.assign ci (to_Index (size_add (to_size_t prime_offset) i)) (-1)).bind
    fun m =>
  (m.assign ci (to_Index (size_add (size_add (to_size_t prime_offset) i) 1)) 1).bind fun m =>
  (m.assign ci (to_Index (size_add (to_size_t pprime_offset) i))
    (-(1 / 2) * p.delta_s_)).bind fun m =>
  (m.assign ci (to_Index (size_add (size_add (to_size_t pprime_offset) i) 1))
    (-(1 / 2) * p.delta_s_)).bind fun m =>
  (assign_at s.lower_bounds (to_size_t ci) 0).bind fun lo =>
  (assign_at s.upper_bounds (to_size_t ci) 0).bind fun up =>
  .ok { affine_constraint := m, lower_bounds := lo, upper_bounds := up,
        constraint_index := to_int (ci + 1) }

/-- Lines 161-173 : one row
`d_i+1 - d_i - d_i' * ds - 1/3 * d_i'' * ds^2 - 1/6 * d_i+1'' * ds^2`. -/
def CalcualteAffineConstraint.position_body (p : Fem1dExpandedQpProblem)
    (prime_offset pprime_offset : Int) (i : Nat) (s : AffineState) : Except Fault AffineState :=
  let ci : Int := s.constraint_index
  (s.affine_constraint.assign ci (to_Index i) (-1)).bind fun m =>
  (m.assign ci (to_Index (size_add i 1)) 1).bind fun m =>
  (m.assign ci (to_Index (size_add (to_size_t prime_offset) i)) (-p.delta_s_)).bind fun m =>
  (m.assign ci (to_Index (size_add (to_size_t pprime_offset) i))
    (-p.delta_s_ * p.delta_s_ / 3)).bind fun m =>
  (m.assign ci (to_Index (size_add (size_add (to_size_t pprime_offset) i) 1))
    (-p.delta_s_ * p.delta_s_ / 6)).bind fun m =>
  (assign_at s.lower_bounds (to_size_t ci) 0).bind fun lo =>
  (assign_at s.upper_bounds (to_size_t ci) 0).bind fun up =>
  .ok { affine_constraint := m, lower_bounds := lo, upper_bounds := up,
        constraint_index := to_int (ci + 1) }

/-- Lines 176-179, 181-184 and 186-189 : one row that pins the variable of column `col`
to `x_init_[k]`. -/
def CalcualteAffineConstraint.init_row (p : Fem1dExpandedQpProblem) (col : Int) (k : Fin 3)
    (s : AffineState) : Except Fault AffineState :=
  let ci : Int := s.constraint_index
  (s.affine_constraint.assign ci col 1).bind fun m =>
  (assign_at s.lower_bounds (to_size_t ci) (p.x_init_ k)).bind fun lo =>
  (assign_at s.upper_bounds (to_size_t ci) (p.x_init_ k)).bind fun up =>
  .ok { affine_constraint := m, lower_bounds := lo, upper_bounds := up,
        constraint_index := to_int (ci + 1) }

/-- The constant `LARGE_VALUE` of line 191. -/
def LARGE_VALUE : c_float := 2

/-- Lines 193-201 : one value-range row. -/
def CalcualteAffineConstraint.range_body (p : Fem1dExpandedQpProblem) (i : Nat)
    (s : AffineState) : Except Fault AffineState :=
  let ci : Int := s.constraint_index
  (s.affine_constraint.assign ci (to_Index i) 1).bind fun m =>
  (if i < p.num_var_ then
    match p.x_bounds_[i]? with
    | some b =>
      (assign_at s.lower_bounds (to_size_t ci) b.1).bind fun lo =>
      (assign_at s.upper_bounds (to_size_t ci) b.2).bind fun up => .ok (lo, up)
    | none => .error .undefined_behavior
  else
    (assign_at s.lower_bounds (to_size_t ci) (-LARGE_VALUE)).bind fun lo =>
    (assign_at s.upper_bounds (to_size_t ci) LARGE_VALUE).bind fun up => .ok (lo, up)).bind
    fun b =>
  .ok { affine_constraint := m, lower_bounds := b.1, upper_bounds := b.2,
        constraint_index := to_int (ci + 1) }

/-- The dense `affine_constraint` and the two bound sequences of
`CalcualteAffineConstraint` as they stand after the `CHECK_EQ` of line 204; the arguments
`lower_bounds` and `upper_bounds` are the sequences the caller passes in. -/
def CalcualteAffineConstraint.dense (p : Fem1dExpandedQpProblem)
    (lower_bounds upper_bounds : List c_float) :
    Except Fault (MatrixXd × List c_float × List c_float) :=
  let kNumParam := size_mul 3 p.x_bounds_.length
  let kNumConstraint := size_add (size_add kNumParam (size_mul 3 (size_sub p.num_var_ 1))) 3
  (MatrixXd.Zero (to_Index kNumConstraint) (to_Index kNumParam)).bind fun affine_constraint =>
  let prime_offset : Int := to_int p.num_var_
  let pprime_offset : Int := to_int (size_mul 2 p.num_var_)
  let s : AffineState :=
    { affine_constraint := affine_constraint,
      lower_bounds := resize lower_bounds kNumConstraint,
      upper_bounds := resize upper_bounds kNumConstraint,
      constraint_index := 0 }
  (forLoop (fun i => decide (size_add i 1 < p.num_var_))
    (CalcualteAffineConstraint.jerk_body p pprime_offset) (p.num_var_ + 1) 0 s).bind fun s =>
  (forLoop (fun i => decide (size_add i 1 < p.num_var_))
    (CalcualteAffineConstraint.derivative_body p prime_offset pprime_offset)
    (p.num_var_ + 1) 0 s).bind fun s =>
  (forLoop (fun i => decide (size_add i 1 < p.num_var_))
    (CalcualteAffineConstraint.position_body p prime_offset pprime_offset)
    (p.num_var_ + 1) 0 s).bind fun s =>
  (CalcualteAffineConstraint.init_row p 0 0 s).bind fun s =>
  (CalcualteAffineConstraint.init_row p prime_offset 1 s).bind fun s =>
  (CalcualteAffineConstraint.init_row p pprime_offset 2 s).bind fun s =>
  (forLoop (fun i => decide (i < kNumParam))
    (CalcualteAffineConstraint.range_body p) (kNumParam + 1) 0 s).bind fun s =>
  if to_size_t s.constraint_index = kNumConstraint then
    .ok (s.affine_constraint, s.lower_bounds, s.upper_bounds)
  else .error .check_failed

/-- `CalcualteAffineConstraint(A_data, A_indices, A_indptr, lower_bounds, upper_bounds)`
(lines 117-207); the conversion `DenseToCSCMatrix` is a parameter. -/
def CalcualteAffineConstraint (DenseToCSCMatrix : MatrixXd → CSCMatrix)
    (p : Fem1dExpandedQpProblem) (lower_bounds upper_bounds : List c_float) :
    Except Fault (CSCMatrix × List c_float × List c_float) :=
  (CalcualteAffineConstraint.dense p lower_bounds upper_bounds).bind fun r =>
  .ok (DenseToCSCMatrix r.1, r.2.1, r.2.2)

/-! ## `Optimize` -/

/-- Lines 67-69 : one trip of the loop that extracts the primal results. -/
def Optimize.body (solution_x : List c_float) (i : Nat) (s : Fem1dExpandedQpProblem) :
    Except Fault Fem1dExpandedQpProblem :=
  (read_array solution_x i).bind fun v0 =>
  (assign_at s.x_ i v0).bind fun x =>
  (read_array solution_x (size_add i s.num_var_)).bind fun v1 =>
  (assign_at s.x_derivative_ i v1).bind fun xd =>
  (read_array solution_x (size_add i (size_mul 2 s.num_var_))).bind fun v2 =>
  (assign_at s.x_second_order_derivative_ i v2).bind fun xdd =>
  .ok { s with x_ := x, x_derivative_ := xd, x_second_order_derivative_ := xdd }

/-- `Optimize()` (lines 30-82) : the value returned and the object after the call. The
conversion `DenseToCSCMatrix` and the solver call `OptimizeWithOsqp` (kernel dimension,
number of constraints, `P`, `A`, lower bounds, upper bounds, `q`) are parameters; the
value `OptimizeWithOsqp` returns is not read. -/
def Optimize (DenseToCSCMatrix : MatrixXd → CSCMatrix)
    (OptimizeWithOsqp : Nat → Nat → CSCMatrix → CSCMatrix → List c_float → List c_float →
      List c_float → OsqpOutcome)
    (p : Fem1dExpandedQpProblem) : Except Fault (Bool × Fem1dExpandedQpProblem) :=
  (CalcualteKernel DenseToCSCMatrix p).bind fun P =>
  (CalcualteAffineConstraint DenseToCSCMatrix p [] []).bind fun r =>
  (CalcualteOffset p []).bind fun q =>
  let s : Fem1dExpandedQpProblem :=
    { p with x_ := resize p.x_ p.num_var_,
             x_derivative_ := resize p.x_derivative_ p.num_var_,
             x_second_order_derivative_ := resize p.x_second_order_derivative_ p.num_var_ }
  let kNumVariable := size_mul 3 s.num_var_
  let work := OptimizeWithOsqp kNumVariable r.2.1.length P r.1 r.2.1 r.2.2 q
  let s : Fem1dExpandedQpProblem :=
    { s with x_ := resize s.x_ s.num_var_,
             x_derivative_ := resize s.x_derivative_ s.num_var_,
             x_second_order_derivative_ := resize s.x_second_order_derivative_ s.num_var_ }
  (forLoop (fun i => decide (i < s.x_bounds_.length)) (Optimize.body work.solution_x)
    (s.x_bounds_.length + 1) 0 s).bind fun s =>
  (assign_back s.x_derivative_ 0).bind fun xd =>
  (assign_back s.x_second_order_derivative_ 0).bind fun xdd =>
  .ok (true, { s with x_derivative_ := xd, x_second_order_derivative_ := xdd })

/-! ## Collaborators and inputs of the examples -/

/-- Modelled from the spec: `DenseToCSCMatrix` (declared in `matrix_operations.h`) : the
non-zero values in column-major order, their row indices, and the column pointers, one more
than there are columns. -/
def dense_to_csc (m : MatrixXd) : CSCMatrix :=
  let column := fun c =>
    ((List.range m.rows).map fun r => (r, m.coeff r c)).filter fun e => decide (e.2 ≠ 0)
  { data := (List.range m.cols).flatMap fun c => (column c).map fun e => e.2,
    indices := (List.range m.cols).flatMap fun c => (column c).map fun e => (e.1 : Int),
    indptr := (List.range (m.cols + 1)).map fun c =>
      (((List.range c).map fun c' => (column c').length).sum : Int) }

/-- A solver call that reports failure and leaves a zero vector behind. -/
def failing_osqp (kernel_dim _num_affine_constraint : Nat) (_P _A : CSCMatrix)
    (_lower _upper _q : List c_float) : OsqpOutcome :=
  { returned := false, solution_x := List.replicate kernel_dim 0 }

/-- A solver call that reports success and leaves the vector `s` behind. -/
def constant_osqp (s : List c_float) (_kernel_dim _num_affine_constraint : Nat)
    (_P _A : CSCMatrix) (_lower _upper _q : List c_float) : OsqpOutcome :=
  { returned := true, solution_x := s }

/-- A problem with a single sample, bound `(-1, 1)` and initial value `5`. -/
def single_sample_problem : Fem1dExpandedQpProblem :=
  { num_var_ := 1, x_init_ := ![5, 0, 0], x_bounds_ := [(-1, 1)],
    weight_ := { x_w := 1, x_mid_line_w := 1, x_derivative_w := 1,
                 x_second_order_derivative_w := 1 },
    delta_s_ := 1, max_x_third_order_derivative_ := 10,
    x_ := [], x_derivative_ := [], x_second_order_derivative_ := [] }

/-- The end-to-end scenario : three samples, bounds `(-1, 1)`, spacing `1`, initial
triple `(0, 0, 0)`, all weights `1`, jerk bound `10`. -/
def scenario_problem : Fem1dExpandedQpProblem :=
  { num_var_ := 3, x_init_ := ![0, 0, 0], x_bounds_ := [(-1, 1), (-1, 1), (-1, 1)],
    weight_ := { x_w := 1, x_mid_line_w := 1, x_derivative_w := 1,
                 x_second_order_derivative_w := 1 },
    delta_s_ := 1, max_x_third_order_derivative_ := 10,
    x_ := [], x_derivative_ := [], x_second_order_derivative_ := [] }

/-- The end-to-end scenario with the jerk bound `J`. -/
def scenario_with_jerk_bound (J : c_float) : Fem1dExpandedQpProblem :=
  { scenario_problem with max_x_third_order_derivative_ := J }

/-- A problem without samples. -/
def empty_problem : Fem1dExpandedQpProblem :=
  { num_var_ := 0, x_init_ := ![0, 0, 0], x_bounds_ := [],
    weight_ := { x_w := 1, x_mid_line_w := 1, x_derivative_w := 1,
                 x_second_order_derivative_w := 1 },
    delta_s_ := 1, max_x_third_order_derivative_ := 10,
    x_ := [], x_derivative_ := [], x_second_order_derivative_ := [] }

/-! ## The quadratic program : `lower ≤ A · x ≤ upper` and the objective -/

/-- Entry `r` of the product `A · x`. -/
def row_value (A : MatrixXd) (x : List c_float) (r : Nat) : c_float :=
  ∑ c in Finset.range A.cols, A.coeff r c * x.getD c 0

/-- Row `r` of `lower ≤ A · x ≤ upper`. -/
def RowHolds (A : MatrixXd) (lower upper x : List c_float) (r : Nat) : Prop :=
  lower.getD r 0 ≤ row_value A x r ∧ row_value A x r ≤ upper.getD r 0

/-- The vector `x` is feasible : `lower ≤ A · x ≤ upper` holds in every row. -/
def Feasible (A : MatrixXd) (lower upper x : List c_float) : Prop :=
  x.length = A.cols ∧ ∀ r, r < A.rows → RowHolds A lower upper x r

/-- A row given by its non-zero columns. -/
def sparse_row : List (Nat × c_float) → Nat → c_float
  | [], _ => 0
  | e :: es, c => if c = e.1 then e.2 else sparse_row es c

/-- The objective `(1/2) xᵀ P x + qᵀ x` of the quadratic program. -/
def objective (P : MatrixXd) (q x : List c_float) : c_float :=
  1 / 2 * (∑ i in Finset.range P.rows, ∑ j in Finset.range P.cols,
      x.getD i 0 * P.coeff i j * x.getD j 0)
    + ∑ i in Finset.range q.length, q.getD i 0 * x.getD i 0

/-! ## Closed forms and loop invariants -/

/-- The matrix after the assignment `m(r, c) = v`, for indices inside the dimensions. -/
def MatrixXd.put (m : MatrixXd) (r c : Nat) (v : c_float) : MatrixXd :=
  { m with coeff := fun r' c' => if r' = r ∧ c' = c then v else m.coeff r' c' }

/-- The coefficient of column `c` in row `r` of the constraint matrix, by row group. -/
def row_coeff (p : Fem1dExpandedQpProblem) (r c : Nat) : c_float :=
  if r < p.num_var_ - 1 then
    if c = 2 * p.num_var_ + r then -1
    else if c = 2 * p.num_var_ + r + 1 then 1 else 0
  else if r < 2 * (p.num_var_ - 1) then
    if c = p.num_var_ + (r - (p.num_var_ - 1)) then -1
    else if c = p.num_var_ + (r - (p.num_var_ - 1)) + 1 then 1
    else if c = 2 * p.num_var_ + (r - (p.num_var_ - 1)) then -(1 / 2) * p.delta_s_
    else if c = 2 * p.num_var_ + (r - (p.num_var_ - 1)) + 1 then -(1 / 2) * p.delta_s_
    else 0
  else if r < 3 * (p.num_var_ - 1) then
    if c = r - 2 * (p.num_var_ - 1) then -1
    else if c = r - 2 * (p.num_var_ - 1) + 1 then 1
    else if c = p.num_var_ + (r - 2 * (p.num_var_ - 1)) then -p.delta_s_
    else if c = 2 * p.num_var_ + (r - 2 * (p.num_var_ - 1)) then
      -p.delta_s_ * p.delta_s_ / 3
    else if c = 2 * p.num_var_ + (r - 2 * (p.num_var_ - 1)) + 1 then
      -p.delta_s_ * p.delta_s_ / 6
    else 0
  else if r = 3 * (p.num_var_ - 1) then (if c = 0 then 1 else 0)
  else if r = 3 * (p.num_var_ - 1) + 1 then (if c = p.num_var_ then 1 else 0)
  else if r = 3 * (p.num_var_ - 1) + 2 then (if c = 2 * p.num_var_ then 1 else 0)
  else if c = r - (3 * (p.num_var_ - 1) + 3) then 1 else 0

/-- The lower bound of row `r`, by row group. -/
def row_lower (p : Fem1dExpandedQpProblem) (r : Nat) : c_float :=
  if r < p.num_var_ - 1 then -p.max_x_third_order_derivative_ * p.delta_s_
  else if r < 3 * (p.num_var_ - 1) then 0
  else if r = 3 * (p.num_var_ - 1) then p.x_init_ 0
  else if r = 3 * (p.num_var_ - 1) + 1 then p.x_init_ 1
  else if r = 3 * (p.num_var_ - 1) + 2 then p.x_init_ 2
  else if r - (3 * (p.num_var_ - 1) + 3) < p.num_var_ then
    (p.x_bounds_.getD (r - (3 * (p.num_var_ - 1) + 3)) (0, 0)).1
  else -LARGE_VALUE

/-- The upper bound of row `r`, by row group. -/
def row_upper (p : Fem1dExpandedQpProblem) (r : Nat) : c_float :=
  if r < p.num_var_ - 1 then p.max_x_third_order_derivative_ * p.delta_s_
  else if r < 3 * (p.num_var_ - 1) then 0
  else if r = 3 * (p.num_var_ - 1) then p.x_init_ 0
  else if r = 3 * (p.num_var_ - 1) + 1 then p.x_init_ 1
  else if r = 3 * (p.num_var_ - 1) + 2 then p.x_init_ 2
  else if r - (3 * (p.num_var_ - 1) + 3) < p.num_var_ then
    (p.x_bounds_.getD (r - (3 * (p.num_var_ - 1) + 3)) (0, 0)).2
  else LARGE_VALUE

/-- The state after the row at `constraint_index` was given the coefficients `g` and the
bounds `lo` and `up`, and `constraint_index` was incremented. -/
def emit (g : Nat → c_float) (lo up : c_float) (s : AffineState) : AffineState :=
  { affine_constraint :=
      { s.affine_constraint with
        coeff := fun r c =>
          if r = s.constraint_index.toNat then g c else s.affine_constraint.coeff r c },
    lower_bounds := s.lower_bounds.set s.constraint_index.toNat lo,
    upper_bounds := s.upper_bounds.set s.constraint_index.toNat up,
    constraint_index := s.constraint_index + 1 }

/-- The invariant of `CalcualteAffineConstraint` when `k` rows have been written : the
rows below `k` have their final content and the rows from `k` on are still zero. -/
structure Built (p : Fem1dExpandedQpProblem) (k : Nat) (s : AffineState) : Prop where
  index : s.constraint_index = (k : Int)
  rows : s.affine_constraint.rows = 6 * p.num_var_
  cols : s.affine_constraint.cols = 3 * p.num_var_
  lower_length : s.lower_bounds.length = 6 * p.num_var_
  upper_length : s.upper_bounds.length = 6 * p.num_var_
  done : ∀ r c, r < k → s.affine_constraint.coeff r c = row_coeff p r c
  todo : ∀ r c, k ≤ r → s.affine_constraint.coeff r c = 0
  lower_done : ∀ r, r < k → s.lower_bounds[r]? = some (row_lower p r)
  upper_done : ∀ r, r < k → s.upper_bounds[r]? = some (row_upper p r)

/-- The triple `(A, lower, upper)` agrees with the closed form on all `6 n` rows. -/
structure ClosedForm (p : Fem1dExpandedQpProblem) (A : MatrixXd) (lower upper : List c_float) :
    Prop where
  rows : A.rows = 6 * p.num_var_
  cols : A.cols = 3 * p.num_var_
  lower_length : lower.length = 6 * p.num_var_
  upper_length : upper.length = 6 * p.num_var_
  coeff : ∀ r c, r < 6 * p.num_var_ → A.coeff r c = row_coeff p r c
  lower_eq : ∀ r, r < 6 * p.num_var_ → lower[r]? = some (row_lower p r)
  upper_eq : ∀ r, r < 6 * p.num_var_ → upper[r]? = some (row_upper p r)

/-- The diagonal entry `i` of the kernel, by block. -/
def kernel_diagonal (p : Fem1dExpandedQpProblem) (i : Nat) : c_float :=
  if i < p.num_var_ then 2 * p.weight_.x_w + 2 * p.weight_.x_mid_line_w
  else if i < 2 * p.num_var_ then 2 * p.weight_.x_derivative_w
  else 2 * p.weight_.x_second_order_derivative_w

/-- The invariant of the loop of `CalcualteKernel` before trip `i`. -/
structure KernelBuilt (p : Fem1dExpandedQpProblem) (i : Nat) (m : MatrixXd) : Prop where
  rows : m.rows = 3 * p.num_var_
  cols : m.cols = 3 * p.num_var_
  coeff : ∀ r c, m.coeff r c = if r = c ∧ r < i then kernel_diagonal p r else 0

/-- Entry `i` of the offset vector. -/
def offset_entry (p : Fem1dExpandedQpProblem) (i : Nat) : c_float :=
  if i < p.x_bounds_.length then
    -2 * p.weight_.x_mid_line_w *
      ((p.x_bounds_.getD i (0, 0)).1 + (p.x_bounds_.getD i (0, 0)).2)
  else 0

/-- The invariant of the loop of `CalcualteOffset` before trip `i`. -/
structure OffsetBuilt (p : Fem1dExpandedQpProblem) (i : Nat) (q : List c_float) : Prop where
  length : q.length = 3 * p.x_bounds_.length
  done : ∀ j, j < i → q[j]? = some (offset_entry p j)

/-- The invariant of the extraction loop of `Optimize` before trip `i`. -/
structure Decoded (n : Nat) (sol : List c_float) (i : Nat) (s : Fem1dExpandedQpProblem) :
    Prop where
  num_var : s.num_var_ = n
  x_length : s.x_.length = n
  x_derivative_length : s.x_derivative_.length = n
  x_second_order_derivative_length : s.x_second_order_derivative_.length = n
  x_done : ∀ j, j < i → s.x_[j]? = sol[j]?
  x_derivative_done : ∀ j, j < i → s.x_derivative_[j]? = sol[n + j]?
  x_second_order_derivative_done :
    ∀ j, j < i → s.x_second_order_derivative_[j]? = sol[2 * n + j]?

/-! ## Steps and traces of the constraint builder -/

/-- The values of `obs` on the states in which the trips of the loop `forLoop cond body`
start, in the order of the trips. -/
def forLoop_trace {σ α : Type} (cond : Nat → Bool) (body : Nat → σ → Except Fault σ)
    (obs : σ → α) : Nat → Nat → σ → List α
  | 0, _, _ => []
  | fuel + 1, i, s =>
    if cond i then
      obs s :: (match body i s with
        | .ok s' => forLoop_trace cond body obs fuel (size_add i 1) s'
        | .error _ => [])
    else []

/-- The matrices `m` and `m'` have the same dimensions and differ in row `k` at most. -/
def SameOffRow (k : Nat) (m m' : MatrixXd) : Prop :=
  m'.rows = m.rows ∧ m'.cols = m.cols ∧ ∀ r c, r ≠ k → m'.coeff r c = m.coeff r c

/-- The step from `s` to `s'` wrote inside the matrix and inside the bound sequences, in
row `constraint_index` of `s` only, and incremented `constraint_index`. -/
structure WritesOwnRow (s s' : AffineState) : Prop where
  row_nonneg : 0 ≤ s.constraint_index
  row_lt : s.constraint_index < (s.affine_constraint.rows : Int)
  lower_lt : to_size_t s.constraint_index < s.lower_bounds.length
  upper_lt : to_size_t s.constraint_index < s.upper_bounds.length
  matrix : SameOffRow s.constraint_index.toNat s.affine_constraint s'.affine_constraint
  lower_length : s'.lower_bounds.length = s.lower_bounds.length
  upper_length : s'.upper_bounds.length = s.upper_bounds.length
  index : s'.constraint_index = to_int (s.constraint_index + 1)
  other_lower : ∀ j, j ≠ to_size_t s.constraint_index → s'.lower_bounds[j]? = s.lower_bounds[j]?
  other_upper : ∀ j, j ≠ to_size_t s.constraint_index → s'.upper_bounds[j]? = s.upper_bounds[j]?

/-! ## Machine integers in range -/

theorem to_size_t_natCast (k : Nat) (h : k < 2 ^ 64) : to_size_t (k : Int) = k := by
  unfold to_size_t
  omega

theorem to_int_natCast (k : Nat) (h : k < 2 ^ 31) : to_int (k : Int) = k := by
  unfold to_int
  omega

theorem to_Index_natCast (k : Nat) (h : k < 2 ^ 63) : to_Index (k : Int) = k := by
  unfold to_Index
  omega

theorem size_add_eq (a b : Nat) (h : a + b < 2 ^ 64) : size_add a b = a + b := by
  unfold size_add
  omega

theorem size_mul_eq (a b : Nat) (h : a * b < 2 ^ 64) : size_mul a b = a * b :=
  Nat.mod_eq_of_lt h

theorem size_sub_eq (a b : Nat) (hb : b ≤ a) (ha : a < 2 ^ 64) : size_sub a b = a - b := by
  unfold size_sub
  have : b % 2 ^ 64 = b := Nat.mod_eq_of_lt (by omega)
  rw [this]
  omega

/-! ## Assignments inside the dimensions and loops -/

@[simp] theorem MatrixXd.put_rows (m : MatrixXd) (r c : Nat) (v : c_float) :
    (m.put r c v).rows = m.rows := rfl

@[simp] theorem MatrixXd.put_cols (m : MatrixXd) (r c : Nat) (v : c_float) :
    (m.put r c v).cols = m.cols := rfl

theorem MatrixXd.assign_natCast (m : MatrixXd) (r c : Nat) (v : c_float)
    (hr : r < m.rows) (hc : c < m.cols) :
    m.assign (r : Int) (c : Int) v = .ok (m.put r c v) := by
  unfold MatrixXd.assign MatrixXd.put
  have h : (0 : Int) ≤ r ∧ (r : Int) < m.rows ∧ (0 : Int) ≤ c ∧ (c : Int) < m.cols := by
    omega
  rw [if_pos h]
  simp

theorem assign_at_lt (v : List c_float) (i : Nat) (x : c_float) (h : i < v.length) :
    assign_at v i x = .ok (v.set i x) := by
  unfold assign_at
  rw [if_pos h]

@[simp] theorem bind_ok {α β : Type} (a : α) (f : α → Except Fault β) :
    (Except.ok a : Except Fault α).bind f = f a := rfl

/-- A loop whose condition is `i < bound` keeps an invariant that every trip keeps, and
`bound - i + 1` trips of fuel are enough for it to end. -/
theorem forLoop_invariant {σ : Type} (cond : Nat → Bool) (body : Nat → σ → Except Fault σ)
    (bound : Nat) (I : Nat → σ → Prop) (hbound : bound < 2 ^ 64)
    (hcond : ∀ i, i < bound → cond i = true) (hstop : cond bound = false)
    (hbody : ∀ i s, i < bound → I i s → ∃ s', body i s = .ok s' ∧ I (i + 1) s') :
    ∀ fuel i s, i ≤ bound → bound - i < fuel → I i s →
      ∃ s', forLoop cond body fuel i s = .ok s' ∧ I bound s' := by
  intro fuel
  induction fuel with
  | zero => intro i s _ h; omega
  | succ fuel ih =>
    intro i s hi hfuel hI
    rcases Nat.lt_or_ge i bound with hlt | hge
    · obtain ⟨s1, hs1, hI1⟩ := hbody i s hlt hI
      have hstep : size_add i 1 = i + 1 := size_add_eq _ _ (by omega)
      simp only [forLoop, hcond i hlt, if_true, hs1, bind_ok, hstep]
      exact ih (i + 1) s1 (by omega) (by omega) hI1
    · have hib : i = bound := by omega
      subst hib
      exact ⟨s, by simp [forLoop, hstop], hI⟩

/-! ## The rows of `CalcualteAffineConstraint` one at a time -/

theorem built_emit (p : Fem1dExpandedQpProblem) (k : Nat) (s : AffineState)
    (g : Nat → c_float) (lo up : c_float) (hB : Built p k s) (hk : k < 6 * p.num_var_)
    (hg : ∀ c, g c = row_coeff p k c) (hlo : lo = row_lower p k) (hup : up = row_upper p k) :
    Built p (k + 1) (emit g lo up s) := by
  have hidx : s.constraint_index.toNat = k := by rw [hB.index]; simp
  constructor
  · simp [emit, hB.index]
  · exact hB.rows
  · exact hB.cols
  · simp [emit, hB.lower_length]
  · simp [emit, hB.upper_length]
  · intro r c hr
    simp only [emit, hidx]
    by_cases h : r = k
    · subst h; simp [hg]
    · rw [if_neg h]; exact hB.done r c (by omega)
  · intro r c hr
    simp only [emit, hidx]
    rw [if_neg (by omega)]
    exact hB.todo r c (by omega)
  · intro r hr
    simp only [emit, hidx]
    by_cases h : r = k
    · subst h
      rw [List.getElem?_set_self (by rw [hB.lower_length]; exact hk), hlo]
    · rw [List.getElem?_set_ne (fun e => h e.symm)]
      exact hB.lower_done r (by omega)
  · intro r hr
    simp only [emit, hidx]
    by_cases h : r = k
    · subst h
      rw [List.getElem?_set_self (by rw [hB.upper_length]; exact hk), hup]
    · rw [List.getElem?_set_ne (fun e => h e.symm)]
      exact hB.upper_done r (by omega)

theorem MatrixXd.eq_of_coeff (m m' : MatrixXd) (hr : m.rows = m'.rows)
    (hc : m.cols = m'.cols) (h : ∀ r c, m.coeff r c = m'.coeff r c) : m = m' := by
  cases m; cases m'
  simp only [MatrixXd.mk.injEq]
  exact ⟨hr, hc, funext fun r => funext fun c => h r c⟩

/-- A state built by assignments to row `k` alone is the state `emit` describes. -/
theorem emit_of_row (s : AffineState) (k : Nat) (m : MatrixXd) (g : Nat → c_float)
    (lo up : c_float) (hci : s.constraint_index = (k : Int))
    (hr : m.rows = s.affine_constraint.rows) (hc : m.cols = s.affine_constraint.cols)
    (h : ∀ r c, m.coeff r c = if r = k then g c else s.affine_constraint.coeff r c) :
    ({ affine_constraint := m, lower_bounds := s.lower_bounds.set k lo,
       upper_bounds := s.upper_bounds.set k up,
       constraint_index := ((k + 1 : Nat) : Int) } : AffineState) = emit g lo up s := by
  have hidx : s.constraint_index.toNat = k := by rw [hci]; simp
  unfold emit
  rw [hidx, hci]
  congr 1
  exact MatrixXd.eq_of_coeff _ _ hr hc h

theorem jerk_body_emit (p : Fem1dExpandedQpProblem) (hn : 6 * p.num_var_ < 2 ^ 31)
    (i k : Nat) (s : AffineState) (hB : Built p k s) (hi : i + 1 < p.num_var_)
    (hk : k < 6 * p.num_var_) :
    CalcualteAffineConstraint.jerk_body p ((2 * p.num_var_ : Nat) : Int) i s =
      .ok (emit (fun c => if c = 2 * p.num_var_ + i then -1
                  else if c = 2 * p.num_var_ + i + 1 then 1 else 0)
            (-p.max_x_third_order_derivative_ * p.delta_s_)
            (p.max_x_third_order_derivative_ * p.delta_s_) s) := by
  have hcol : to_int (size_add (to_size_t ((2 * p.num_var_ : Nat) : Int)) i) =
      ((2 * p.num_var_ + i : Nat) : Int) := by
    rw [to_size_t_natCast _ (by omega), size_add_eq _ _ (by omega), to_int_natCast _ (by omega)]
  have hcol1 : to_int (((2 * p.num_var_ + i : Nat) : Int) + 1) =
      ((2 * p.num_var_ + i + 1 : Nat) : Int) := by
    rw [← Nat.cast_succ, to_int_natCast _ (by omega)]
  have hci1 : to_int ((k : Int) + 1) = ((k + 1 : Nat) : Int) := by
    rw [← Nat.cast_succ, to_int_natCast _ (by omega)]
  unfold CalcualteAffineConstraint.jerk_body
  simp only [hB.index, hcol, hcol1, hci1]
  rw [MatrixXd.assign_natCast _ _ _ _ (by rw [hB.rows]; exact hk) (by rw [hB.cols]; omega)]
  simp only [bind_ok]
  rw [MatrixXd.assign_natCast _ _ _ _ (by simp [hB.rows]; exact hk) (by simp [hB.cols]; omega)]
  simp only [bind_ok]
  rw [to_size_t_natCast _ (by omega), assign_at_lt _ _ _ (by rw [hB.lower_length]; exact hk),
    assign_at_lt _ _ _ (by rw [hB.upper_length]; exact hk)]
  simp only [bind_ok]
  refine congrArg Except.ok (emit_of_row s k _ _ _ _ hB.index rfl rfl ?_)
  intro r c
  simp only [MatrixXd.put]
  by_cases hr : r = k
  · subst hr
    have hz := hB.todo r c (le_refl _)
    by_cases h1 : c = 2 * p.num_var_ + i + 1
    · subst h1; simp
    · by_cases h2 : c = 2 * p.num_var_ + i
      · subst h2; simp
      · simp [h1, h2, hz]
  · simp [hr]

theorem derivative_body_emit (p : Fem1dExpandedQpProblem) (hn : 6 * p.num_var_ < 2 ^ 31)
    (i k : Nat) (s : AffineState) (hB : Built p k s) (hi : i + 1 < p.num_var_)
    (hk : k < 6 * p.num_var_) :
    CalcualteAffineConstraint.derivative_body p ((p.num_var_ : Nat) : Int)
        ((2 * p.num_var_ : Nat) : Int) i s =
      .ok (emit (fun c => if c = p.num_var_ + i then -1
                  else if c = p.num_var_ + i + 1 then 1
                  else if c = 2 * p.num_var_ + i then -(1 / 2) * p.delta_s_
                  else if c = 2 * p.num_var_ + i + 1 then -(1 / 2) * p.delta_s_ else 0)
            0 0 s) := by
  have hc1 : to_Index (size_add (to_size_t ((p.num_var_ : Nat) : Int)) i) =
      ((p.num_var_ + i : Nat) : Int) := by
    rw [to_size_t_natCast _ (by omega), size_add_eq _ _ (by omega),
      to_Index_natCast _ (by omega)]
  have hc2 : to_Index (size_add (size_add (to_size_t ((p.num_var_ : Nat) : Int)) i) 1) =
      ((p.num_var_ + i + 1 : Nat) : Int) := by
    rw [to_size_t_natCast _ (by omega), size_add_eq p.num_var_ i (by omega),
      size_add_eq _ _ (by omega), to_Index_natCast _ (by omega)]
  have hc3 : to_Index (size_add (to_size_t ((2 * p.num_var_ : Nat) : Int)) i) =
      ((2 * p.num_var_ + i : Nat) : Int) := by
    rw [to_size_t_natCast _ (by omega), size_add_eq _ _ (by omega),
      to_Index_natCast _ (by omega)]
  have hc4 : to_Index (size_add (size_add (to_size_t ((2 * p.num_var_ : Nat) : Int)) i) 1) =
      ((2 * p.num_var_ + i + 1 : Nat) : Int) := by
    rw [to_size_t_natCast _ (by omega), size_add_eq (2 * p.num_var_) i (by omega),
      size_add_eq _ _ (by omega), to_Index_natCast _ (by omega)]
  have hci1 : to_int ((k : Int) + 1) = ((k + 1 : Nat) : Int) := by
    rw [← Nat.cast_succ, to_int_natCast _ (by omega)]
  have hrow : k < s.affine_constraint.rows := by rw [hB.rows]; exact hk
  have hcols := hB.cols
  unfold CalcualteAffineConstraint.derivative_body
  simp only [hB.index, hc1, hc2, hc3, hc4, hci1]
  rw [MatrixXd.assign_natCast _ _ _ _ hrow (by omega)]
  simp only [bind_ok]
  rw [MatrixXd.assign_natCast _ _ _ _ (by simpa using hrow) (by simp only [MatrixXd.put_cols]; omega)]
  simp only [bind_ok]
  rw [MatrixXd.assign_natCast _ _ _ _ (by simpa using hrow) (by simp only [MatrixXd.put_cols]; omega)]
  simp only [bind_ok]
  rw [MatrixXd.assign_natCast _ _ _ _ (by simpa using hrow) (by simp only [MatrixXd.put_cols]; omega)]
  simp only [bind_ok]
  rw [to_size_t_natCast _ (by omega), assign_at_lt _ _ _ (by rw [hB.lower_length]; exact hk),
    assign_at_lt _ _ _ (by rw [hB.upper_length]; exact hk)]
  simp only [bind_ok]
  refine congrArg Except.ok (emit_of_row s k _ _ _ _ hB.index rfl rfl ?_)
  intro r c
  simp only [MatrixXd.put]
  by_cases hr : r = k
  · subst hr
    have hz := hB.todo r c (le_refl _)
    simp only [true_and]
    split_ifs <;> first | rfl | omega | exact hz
  · simp [hr]

theorem position_body_emit (p : Fem1dExpandedQpProblem) (hn : 6 * p.num_var_ < 2 ^ 31)
    (i k : Nat) (s : AffineState) (hB : Built p k s) (hi : i + 1 < p.num_var_)
    (hk : k < 6 * p.num_var_) :
    CalcualteAffineConstraint.position_body p ((p.num_var_ : Nat) : Int)
        ((2 * p.num_var_ : Nat) : Int) i s =
      .ok (emit (fun c => if c = i then -1
                  else if c = i + 1 then 1
                  else if c = p.num_var_ + i then -p.delta_s_
                  else if c = 2 * p.num_var_ + i then -p.delta_s_ * p.delta_s_ / 3
                  else if c = 2 * p.num_var_ + i + 1 then -p.delta_s_ * p.delta_s_ / 6
                  else 0)
            0 0 s) := by
  have hc0 : to_Index ((i : Nat) : Int) = ((i : Nat) : Int) := to_Index_natCast _ (by omega)
  have hc1 : to_Index (size_add i 1) = ((i + 1 : Nat) : Int) := by
    rw [size_add_eq _ _ (by omega), to_Index_natCast _ (by omega)]
  have hc2 : to_Index (size_add (to_size_t ((p.num_var_ : Nat) : Int)) i) =
      ((p.num_var_ + i : Nat) : Int) := by
    rw [to_size_t_natCast _ (by omega), size_add_eq _ _ (by omega),
      to_Index_natCast _ (by omega)]
  have hc3 : to_Index (size_add (to_size_t ((2 * p.num_var_ : Nat) : Int)) i) =
      ((2 * p.num_var_ + i : Nat) : Int) := by
    rw [to_size_t_natCast _ (by omega), size_add_eq _ _ (by omega),
      to_Index_natCast _ (by omega)]
  have hc4 : to_Index (size_add (size_add (to_size_t ((2 * p.num_var_ : Nat) : Int)) i) 1) =
      ((2 * p.num_var_ + i + 1 : Nat) : Int) := by
    rw [to_size_t_natCast _ (by omega), size_add_eq (2 * p.num_var_) i (by omega),
      size_add_eq _ _ (by omega), to_Index_natCast _ (by omega)]
  have hci1 : to_int ((k : Int) + 1) = ((k + 1 : Nat) : Int) := by
    rw [← Nat.cast_succ, to_int_natCast _ (by omega)]
  have hrow : k < s.affine_constraint.rows := by rw [hB.rows]; exact hk
  have hcols := hB.cols
  unfold CalcualteAffineConstraint.position_body
  simp only [hB.index, hc0, hc1, hc2, hc3, hc4, hci1]
  rw [MatrixXd.assign_natCast _ _ _ _ hrow (by omega)]
  simp only [bind_ok]
  rw [MatrixXd.assign_natCast _ _ _ _ (by simpa using hrow)
    (by simp only [MatrixXd.put_cols]; omega)]
  simp only [bind_ok]
  rw [MatrixXd.assign_natCast _ _ _ _ (by simpa using hrow)
    (by simp only [MatrixXd.put_cols]; omega)]
  simp only [bind_ok]
  rw [MatrixXd.assign_natCast _ _ _ _ (by simpa using hrow)
    (by simp only [MatrixXd.put_cols]; omega)]
  simp only [bind_ok]
  rw [MatrixXd.assign_natCast _ _ _ _ (by simpa using hrow)
    (by simp only [MatrixXd.put_cols]; omega)]
  simp only [bind_ok]
  rw [to_size_t_natCast _ (by omega), assign_at_lt _ _ _ (by rw [hB.lower_length]; exact hk),
    assign_at_lt _ _ _ (by rw [hB.upper_length]; exact hk)]
  simp only [bind_ok]
  refine congrArg Except.ok (emit_of_row s k _ _ _ _ hB.index rfl rfl ?_)
  intro r c
  simp only [MatrixXd.put]
  by_cases hr : r = k
  · subst hr
    have hz := hB.todo r c (le_refl _)
    simp only [true_and]
    split_ifs <;> first | rfl | omega | exact hz
  · simp [hr]

theorem init_row_emit (p : Fem1dExpandedQpProblem) (hn : 6 * p.num_var_ < 2 ^ 31)
    (col : Nat) (j : Fin 3) (k : Nat) (s : AffineState) (hB : Built p k s)
    (hcol : col < 3 * p.num_var_) (hk : k < 6 * p.num_var_) :
    CalcualteAffineConstraint.init_row p ((col : Nat) : Int) j s =
      .ok (emit (fun c => if c = col then 1 else 0) (p.x_init_ j) (p.x_init_ j) s) := by
  have hci1 : to_int ((k : Int) + 1) = ((k + 1 : Nat) : Int) := by
    rw [← Nat.cast_succ, to_int_natCast _ (by omega)]
  have hrow : k < s.affine_constraint.rows := by rw [hB.rows]; exact hk
  have hcols := hB.cols
  unfold CalcualteAffineConstraint.init_row
  simp only [hB.index, hci1]
  rw [MatrixXd.assign_natCast _ _ _ _ hrow (by omega)]
  simp only [bind_ok]
  rw [to_size_t_natCast _ (by omega), assign_at_lt _ _ _ (by rw [hB.lower_length]; exact hk),
    assign_at_lt _ _ _ (by rw [hB.upper_length]; exact hk)]
  simp only [bind_ok]
  refine congrArg Except.ok (emit_of_row s k _ _ _ _ hB.index rfl rfl ?_)
  intro r c
  simp only [MatrixXd.put]
  by_cases hr : r = k
  · subst hr
    have hz := hB.todo r c (le_refl _)
    simp only [true_and]
    split_ifs <;> first | rfl | omega | exact hz
  · simp [hr]

theorem range_body_emit (p : Fem1dExpandedQpProblem) (hn : 6 * p.num_var_ < 2 ^ 31)
    (hlen : p.num_var_ = p.x_bounds_.length)
    (i k : Nat) (s : AffineState) (hB : Built p k s) (hi : i < 3 * p.num_var_)
    (hk : k < 6 * p.num_var_) :
    CalcualteAffineConstraint.range_body p i s =
      .ok (emit (fun c => if c = i then 1 else 0)
            (if i < p.num_var_ then (p.x_bounds_.getD i (0, 0)).1 else -LARGE_VALUE)
            (if i < p.num_var_ then (p.x_bounds_.getD i (0, 0)).2 else LARGE_VALUE) s) := by
  have hc0 : to_Index ((i : Nat) : Int) = ((i : Nat) : Int) := to_Index_natCast _ (by omega)
  have hci1 : to_int ((k : Int) + 1) = ((k + 1 : Nat) : Int) := by
    rw [← Nat.cast_succ, to_int_natCast _ (by omega)]
  have hrow : k < s.affine_constraint.rows := by rw [hB.rows]; exact hk
  have hcols := hB.cols
  have hsz : to_size_t ((k : Nat) : Int) = k := to_size_t_natCast _ (by omega)
  have hlo : k < s.lower_bounds.length := by rw [hB.lower_length]; exact hk
  have hup : k < s.upper_bounds.length := by rw [hB.upper_length]; exact hk
  unfold CalcualteAffineConstraint.range_body
  simp only [hB.index, hc0, hci1, hsz]
  rw [MatrixXd.assign_natCast _ _ _ _ hrow (by omega)]
  simp only [bind_ok]
  have hm : ∀ r c, (s.affine_constraint.put k i 1).coeff r c =
      if r = k then (fun c => if c = i then (1 : c_float) else 0) c
      else s.affine_constraint.coeff r c := by
    intro r c
    simp only [MatrixXd.put]
    by_cases hr : r = k
    · subst hr
      have hz := hB.todo r c (le_refl _)
      simp only [true_and]
      split_ifs <;> first | rfl | omega | exact hz
    · simp [hr]
  by_cases hin : i < p.num_var_
  · have hget : p.x_bounds_[i]? = some (p.x_bounds_.getD i (0, 0)) := by
      have hi' : i < p.x_bounds_.length := by omega
      simp [List.getD, List.getElem?_eq_getElem hi']
    simp only [if_pos hin, hget, assign_at_lt _ _ _ hlo, assign_at_lt _ _ _ hup, bind_ok]
    exact congrArg Except.ok (emit_of_row s k _ _ _ _ hB.index rfl rfl hm)
  · simp only [if_neg hin, assign_at_lt _ _ _ hlo, assign_at_lt _ _ _ hup, bind_ok]
    exact congrArg Except.ok (emit_of_row s k _ _ _ _ hB.index rfl rfl hm)

/-! ## The four loops and the three single rows keep the invariant -/

theorem jerk_body_built (p : Fem1dExpandedQpProblem) (hn : 6 * p.num_var_ < 2 ^ 31)
    (i : Nat) (s : AffineState) (hi : i < p.num_var_ - 1) (hB : Built p i s) :
    ∃ s', CalcualteAffineConstraint.jerk_body p ((2 * p.num_var_ : Nat) : Int) i s = .ok s' ∧
      Built p (i + 1) s' := by
  refine ⟨_, jerk_body_emit p hn i i s hB (by omega) (by omega), ?_⟩
  apply built_emit p i s _ _ _ hB (by omega)
  · intro c
    simp only [row_coeff, if_pos hi]
  · simp only [row_lower, if_pos hi]
  · simp only [row_upper, if_pos hi]

theorem derivative_body_built (p : Fem1dExpandedQpProblem) (hn : 6 * p.num_var_ < 2 ^ 31)
    (i : Nat) (s : AffineState) (hi : i < p.num_var_ - 1)
    (hB : Built p (p.num_var_ - 1 + i) s) :
    ∃ s', CalcualteAffineConstraint.derivative_body p ((p.num_var_ : Nat) : Int)
        ((2 * p.num_var_ : Nat) : Int) i s = .ok s' ∧
      Built p (p.num_var_ - 1 + (i + 1)) s' := by
  refine ⟨_, derivative_body_emit p hn i _ s hB (by omega) (by omega), ?_⟩
  have h1 : ¬ (p.num_var_ - 1 + i < p.num_var_ - 1) := by omega
  have h2 : p.num_var_ - 1 + i < 2 * (p.num_var_ - 1) := by omega
  have h3 : p.num_var_ - 1 + i < 3 * (p.num_var_ - 1) := by omega
  have e : p.num_var_ - 1 + i - (p.num_var_ - 1) = i := by omega
  apply built_emit p _ s _ _ _ hB (by omega)
  · intro c
    simp only [row_coeff, if_neg h1, if_pos h2, e]
  · simp only [row_lower, if_neg h1, if_pos h3]
  · simp only [row_upper, if_neg h1, if_pos h3]

theorem position_body_built (p : Fem1dExpandedQpProblem) (hn : 6 * p.num_var_ < 2 ^ 31)
    (i : Nat) (s : AffineState) (hi : i < p.num_var_ - 1)
    (hB : Built p (2 * (p.num_var_ - 1) + i) s) :
    ∃ s', CalcualteAffineConstraint.position_body p ((p.num_var_ : Nat) : Int)
        ((2 * p.num_var_ : Nat) : Int) i s = .ok s' ∧
      Built p (2 * (p.num_var_ - 1) + (i + 1)) s' := by
  refine ⟨_, position_body_emit p hn i _ s hB (by omega) (by omega), ?_⟩
  have h1 : ¬ (2 * (p.num_var_ - 1) + i < p.num_var_ - 1) := by omega
  have h2 : ¬ (2 * (p.num_var_ - 1) + i < 2 * (p.num_var_ - 1)) := by omega
  have h3 : 2 * (p.num_var_ - 1) + i < 3 * (p.num_var_ - 1) := by omega
  have e : 2 * (p.num_var_ - 1) + i - 2 * (p.num_var_ - 1) = i := by omega
  apply built_emit p _ s _ _ _ hB (by omega)
  · intro c
    simp only [row_coeff, if_neg h1, if_neg h2, if_pos h3, e]
  · simp only [row_lower, if_neg h1, if_pos h3]
  · simp only [row_upper, if_neg h1, if_pos h3]

theorem init_row_built (p : Fem1dExpandedQpProblem) (hn : 6 * p.num_var_ < 2 ^ 31)
    (h1 : 1 ≤ p.num_var_) (j : Fin 3) (s : AffineState)
    (hB : Built p (3 * (p.num_var_ - 1) + j.val) s) :
    ∃ s', CalcualteAffineConstraint.init_row p ((j.val * p.num_var_ : Nat) : Int) j s =
        .ok s' ∧ Built p (3 * (p.num_var_ - 1) + j.val + 1) s' := by
  have hj := j.isLt
  have hcol : j.val * p.num_var_ < 3 * p.num_var_ := by
    have : j.val * p.num_var_ ≤ 2 * p.num_var_ := Nat.mul_le_mul_right _ (by omega)
    omega
  refine ⟨_, init_row_emit p hn _ j _ s hB hcol (by omega), ?_⟩
  have g1 : ¬ (3 * (p.num_var_ - 1) + j.val < p.num_var_ - 1) := by omega
  have g2 : ¬ (3 * (p.num_var_ - 1) + j.val < 2 * (p.num_var_ - 1)) := by omega
  have g3 : ¬ (3 * (p.num_var_ - 1) + j.val < 3 * (p.num_var_ - 1)) := by omega
  apply built_emit p _ s _ _ _ hB (by omega)
  · intro c
    simp only [row_coeff, if_neg g1, if_neg g2, if_neg g3]
    match j with
    | ⟨0, _⟩ => simp
    | ⟨1, _⟩ => simp
    | ⟨2, _⟩ => simp
  · simp only [row_lower, if_neg g1, if_neg g3]
    match j with
    | ⟨0, _⟩ => simp
    | ⟨1, _⟩ => simp
    | ⟨2, _⟩ => simp
  · simp only [row_upper, if_neg g1, if_neg g3]
    match j with
    | ⟨0, _⟩ => simp
    | ⟨1, _⟩ => simp
    | ⟨2, _⟩ => simp

theorem range_body_built (p : Fem1dExpandedQpProblem) (hn : 6 * p.num_var_ < 2 ^ 31)
    (hlen : p.num_var_ = p.x_bounds_.length) (h1 : 1 ≤ p.num_var_)
    (i : Nat) (s : AffineState) (hi : i < 3 * p.num_var_)
    (hB : Built p (3 * p.num_var_ + i) s) :
    ∃ s', CalcualteAffineConstraint.range_body p i s = .ok s' ∧
      Built p (3 * p.num_var_ + (i + 1)) s' := by
  refine ⟨_, range_body_emit p hn hlen i _ s hB hi (by omega), ?_⟩
  have g1 : ¬ (3 * p.num_var_ + i < p.num_var_ - 1) := by omega
  have g2 : ¬ (3 * p.num_var_ + i < 2 * (p.num_var_ - 1)) := by omega
  have g3 : ¬ (3 * p.num_var_ + i < 3 * (p.num_var_ - 1)) := by omega
  have g4 : ¬ (3 * p.num_var_ + i = 3 * (p.num_var_ - 1)) := by omega
  have g5 : ¬ (3 * p.num_var_ + i = 3 * (p.num_var_ - 1) + 1) := by omega
  have g6 : ¬ (3 * p.num_var_ + i = 3 * (p.num_var_ - 1) + 2) := by omega
  have e : 3 * p.num_var_ + i - (3 * (p.num_var_ - 1) + 3) = i := by omega
  apply built_emit p _ s _ _ _ hB (by omega)
  · intro c
    simp only [row_coeff, if_neg g1, if_neg g2, if_neg g3, if_neg g4, if_neg g5, if_neg g6, e]
  · simp only [row_lower, if_neg g1, if_neg g3, if_neg g4, if_neg g5, if_neg g6, e]
  · simp only [row_upper, if_neg g1, if_neg g3, if_neg g4, if_neg g5, if_neg g6, e]

theorem length_resize (v : List c_float) (k : Nat) : (resize v k).length = k := by
  unfold resize
  simp only [List.length_append, List.length_take, List.length_replicate]
  omega

/-- Under `num_var_ = x_bounds_.size() = n`, `1 ≤ n` and `6 n < 2 ^ 31` the builder ends
without a fault, and its result is the closed form on all `6 n` rows. -/
theorem dense_built (p : Fem1dExpandedQpProblem) (hlen : p.num_var_ = p.x_bounds_.length)
    (h1 : 1 ≤ p.num_var_) (hn : 6 * p.num_var_ < 2 ^ 31) (lower_bounds upper_bounds : List c_float) :
    ∃ s, CalcualteAffineConstraint.dense p lower_bounds upper_bounds =
        .ok (s.affine_constraint, s.lower_bounds, s.upper_bounds) ∧
      Built p (6 * p.num_var_) s := by
  have hP : size_mul 3 p.x_bounds_.length = 3 * p.num_var_ := by
    rw [← hlen, size_mul_eq _ _ (by omega)]
  have hC : size_add (size_add (3 * p.num_var_) (size_mul 3 (size_sub p.num_var_ 1))) 3 =
      6 * p.num_var_ := by
    rw [size_sub_eq _ _ h1 (by omega), size_mul_eq _ _ (by omega),
      size_add_eq (3 * p.num_var_) _ (by omega), size_add_eq _ _ (by omega)]
    omega
  have hprime : to_int ((p.num_var_ : Nat) : Int) = ((1 * p.num_var_ : Nat) : Int) := by
    rw [to_int_natCast _ (by omega), Nat.one_mul]
  have hpprime : to_int ((size_mul 2 p.num_var_ : Nat) : Int) = ((2 * p.num_var_ : Nat) : Int) := by
    rw [size_mul_eq _ _ (by omega), to_int_natCast _ (by omega)]
  have hzero : MatrixXd.Zero (to_Index ((6 * p.num_var_ : Nat) : Int))
      (to_Index ((3 * p.num_var_ : Nat) : Int)) =
      .ok { rows := 6 * p.num_var_, cols := 3 * p.num_var_, coeff := fun _ _ => 0 } := by
    rw [to_Index_natCast _ (by omega), to_Index_natCast _ (by omega)]
    unfold MatrixXd.Zero
    rw [if_pos ⟨by omega, by omega⟩]
    simp only [Int.toNat_ofNat]
  have hcond : ∀ i, i < p.num_var_ - 1 → decide (size_add i 1 < p.num_var_) = true := by
    intro i hi
    rw [size_add_eq _ _ (by omega)]
    exact decide_eq_true (by omega)
  have hstop : decide (size_add (p.num_var_ - 1) 1 < p.num_var_) = false := by
    rw [size_add_eq _ _ (by omega)]
    exact decide_eq_false (by omega)
  have hcond4 : ∀ i, i < 3 * p.num_var_ → decide (i < 3 * p.num_var_) = true :=
    fun i hi => decide_eq_true hi
  have hstop4 : decide (3 * p.num_var_ < 3 * p.num_var_) = false :=
    decide_eq_false (by omega)
  -- the state before the first loop
  have hB0 : Built p 0
      { affine_constraint := { rows := 6 * p.num_var_, cols := 3 * p.num_var_,
                               coeff := fun _ _ => 0 },
        lower_bounds := resize lower_bounds (6 * p.num_var_),
        upper_bounds := resize upper_bounds (6 * p.num_var_),
        constraint_index := 0 } := by
    constructor
    · rfl
    · rfl
    · rfl
    · exact length_resize _ _
    · exact length_resize _ _
    · intro r c hr; omega
    · intro r c _; rfl
    · intro r hr; omega
    · intro r hr; omega
  obtain ⟨s1, e1, hB1⟩ := forLoop_invariant (fun i => decide (size_add i 1 < p.num_var_))
    (CalcualteAffineConstraint.jerk_body p ((2 * p.num_var_ : Nat) : Int)) (p.num_var_ - 1)
    (fun i s => Built p i s) (by omega) hcond hstop
    (fun i s hi hB => jerk_body_built p hn i s hi hB) (p.num_var_ + 1) 0 _
    (by omega) (by omega) hB0
  obtain ⟨s2, e2, hB2⟩ := forLoop_invariant (fun i => decide (size_add i 1 < p.num_var_))
    (CalcualteAffineConstraint.derivative_body p ((1 * p.num_var_ : Nat) : Int)
      ((2 * p.num_var_ : Nat) : Int)) (p.num_var_ - 1)
    (fun i s => Built p (p.num_var_ - 1 + i) s) (by omega) hcond hstop
    (fun i s hi hB => by
      rw [Nat.one_mul]
      exact derivative_body_built p hn i s hi hB) (p.num_var_ + 1) 0 s1
    (by omega) (by omega) hB1
  obtain ⟨s3, e3, hB3⟩ := forLoop_invariant (fun i => decide (size_add i 1 < p.num_var_))
    (CalcualteAffineConstraint.position_body p ((1 * p.num_var_ : Nat) : Int)
      ((2 * p.num_var_ : Nat) : Int)) (p.num_var_ - 1)
    (fun i s => Built p (2 * (p.num_var_ - 1) + i) s) (by omega) hcond hstop
    (fun i s hi hB => by
      rw [Nat.one_mul]
      exact position_body_built p hn i s hi hB) (p.num_var_ + 1) 0 s2
    (by omega) (by omega) (by
      have e : 2 * (p.num_var_ - 1) + 0 = p.num_var_ - 1 + (p.num_var_ - 1) := by omega
      show Built p (2 * (p.num_var_ - 1) + 0) s2
      rw [e]; exact hB2)
  obtain ⟨s4, e4, hB4⟩ := init_row_built p hn h1 0 s3 (by
    have e : 3 * (p.num_var_ - 1) + (0 : Fin 3).val =
        2 * (p.num_var_ - 1) + (p.num_var_ - 1) := by
      simp only [Fin.val_zero]; omega
    rw [e]; exact hB3)
  obtain ⟨s5, e5, hB5⟩ := init_row_built p hn h1 1 s4 hB4
  obtain ⟨s6, e6, hB6⟩ := init_row_built p hn h1 2 s5 hB5
  obtain ⟨s7, e7, hB7⟩ := forLoop_invariant (fun i => decide (i < 3 * p.num_var_))
    (CalcualteAffineConstraint.range_body p) (3 * p.num_var_)
    (fun i s => Built p (3 * p.num_var_ + i) s) (by omega) hcond4 hstop4
    (fun i s hi hB => range_body_built p hn hlen h1 i s hi hB) (3 * p.num_var_ + 1) 0 s6
    (by omega) (by omega) (by
      have e : 3 * p.num_var_ + 0 = 3 * (p.num_var_ - 1) + (2 : Fin 3).val + 1 := by
        simp only [Fin.val_two]; omega
      show Built p (3 * p.num_var_ + 0) s6
      rw [e]; exact hB6)
  have hB7' : Built p (6 * p.num_var_) s7 := by
    have e : 6 * p.num_var_ = 3 * p.num_var_ + 3 * p.num_var_ := by omega
    rw [e]; exact hB7
  refine ⟨s7, ?_, hB7'⟩
  simp only [Fin.val_zero, Fin.val_one, Fin.val_two, Nat.zero_mul, Nat.cast_zero] at e4 e5 e6
  unfold CalcualteAffineConstraint.dense
  simp only [hP, hC, hzero, bind_ok, hprime, hpprime, e1, e2, e3, e4, e5, e6, e7]
  rw [hB7'.index, to_size_t_natCast _ (by omega), if_pos rfl]

/-! ## Rows applied to a vector -/

theorem sparse_row_of_not_mem (es : List (Nat × c_float)) (a : Nat)
    (h : a ∉ es.map Prod.fst) : sparse_row es a = 0 := by
  induction es with
  | nil => rfl
  | cons e es ih =>
    simp only [List.map_cons, List.mem_cons, not_or] at h
    simp only [sparse_row, if_neg h.1]
    exact ih h.2

theorem sum_sparse_row (m : Nat) (f : Nat → c_float) (es : List (Nat × c_float))
    (hnd : (es.map Prod.fst).Nodup) (hlt : ∀ e ∈ es, e.1 < m) :
    ∑ c in Finset.range m, sparse_row es c * f c = (es.map fun e => e.2 * f e.1).sum := by
  induction es with
  | nil => simp [sparse_row]
  | cons e es ih =>
    simp only [List.map_cons, List.nodup_cons] at hnd
    have hz := sparse_row_of_not_mem es e.1 hnd.1
    have hpt : ∀ c, sparse_row (e :: es) c * f c =
        (if c = e.1 then e.2 * f e.1 else 0) + sparse_row es c * f c := by
      intro c
      by_cases hc : c = e.1
      · subst hc; simp [sparse_row, hz]
      · simp [sparse_row, hc]
    have hmem : e.1 ∈ Finset.range m := Finset.mem_range.mpr (hlt e (List.mem_cons_self _ _))
    simp only [hpt, Finset.sum_add_distrib, List.map_cons, List.sum_cons]
    rw [Finset.sum_ite_eq' (Finset.range m) e.1 (fun _ => e.2 * f e.1), if_pos hmem,
      ih hnd.2 (fun e' he' => hlt e' (List.mem_cons_of_mem _ he'))]

theorem row_value_sparse (A : MatrixXd) (x : List c_float) (r : Nat)
    (es : List (Nat × c_float)) (h : ∀ c, A.coeff r c = sparse_row es c)
    (hnd : (es.map Prod.fst).Nodup) (hlt : ∀ e ∈ es, e.1 < A.cols) :
    row_value A x r = (es.map fun e => e.2 * x.getD e.1 0).sum := by
  unfold row_value
  simp only [h]
  exact sum_sparse_row A.cols (fun c => x.getD c 0) es hnd hlt

theorem getD_of_getElem? (l : List c_float) (r : Nat) (v : c_float) (h : l[r]? = some v) :
    l.getD r 0 = v := by
  simp [List.getD, h]

/-! ## The constraint builder (claims C1 to C6) -/

/-- The result of `CalcualteAffineConstraint` in closed form. -/
theorem dense_closed_form (p : Fem1dExpandedQpProblem) (lower_bounds upper_bounds : List c_float)
    (hlen : p.num_var_ = p.x_bounds_.length) (h1 : 1 ≤ p.num_var_)
    (hn : 6 * p.num_var_ < 2 ^ 31) :
    ∃ A lower upper,
      CalcualteAffineConstraint.dense p lower_bounds upper_bounds = .ok (A, lower, upper) ∧
      A.rows = 6 * p.num_var_ ∧ A.cols = 3 * p.num_var_ ∧
      lower.length = 6 * p.num_var_ ∧ upper.length = 6 * p.num_var_ ∧
      (∀ r c, r < 6 * p.num_var_ → A.coeff r c = row_coeff p r c) ∧
      (∀ r, r < 6 * p.num_var_ → lower[r]? = some (row_lower p r)) ∧
      (∀ r, r < 6 * p.num_var_ → upper[r]? = some (row_upper p r)) := by
  obtain ⟨s, hs, hB⟩ := dense_built p hlen h1 hn lower_bounds upper_bounds
  exact ⟨_, _, _, hs, hB.rows, hB.cols, hB.lower_length, hB.upper_length, hB.done,
    hB.lower_done, hB.upper_done⟩

/-- C1, as amended : for `num_var_ = x_bounds_.size() = n` with `1 ≤ n` (and `6 n` in the range
of `int`), `CalcualteAffineConstraint` ends without a fault, its matrix has exactly `6 n` rows
(`3 (n - 1)` finite-difference rows, `3` initial-condition rows and `3 n` value-range rows) and
`3 n` columns, and both bound sequences have length `6 n`. -/
theorem affine_constraint_dimensions (p : Fem1dExpandedQpProblem)
    (lower_bounds upper_bounds : List c_float)
    (hlen : p.num_var_ = p.x_bounds_.length) (h1 : 1 ≤ p.num_var_)
    (hn : 6 * p.num_var_ < 2 ^ 31) :
    ∃ A lower upper,
      CalcualteAffineConstraint.dense p lower_bounds upper_bounds = .ok (A, lower, upper) ∧
      A.rows = 6 * p.num_var_ ∧ A.cols = 3 * p.num_var_ ∧
      lower.length = 6 * p.num_var_ ∧ upper.length = 6 * p.num_var_ := by
  obtain ⟨A, lower, upper, h, hr, hc, hl, hu, _⟩ :=
    dense_closed_form p lower_bounds upper_bounds hlen h1 hn
  exact ⟨A, lower, upper, h, hr, hc, hl, hu⟩

theorem affine_constraint_dimensions_witness :
    (scenario_problem.num_var_ = scenario_problem.x_bounds_.length ∧
      1 ≤ scenario_problem.num_var_ ∧ 6 * scenario_problem.num_var_ < 2 ^ 31) ∧
    ∃ A lower upper,
      CalcualteAffineConstraint.dense scenario_problem [] [] = .ok (A, lower, upper) ∧
      A.rows = 6 * scenario_problem.num_var_ ∧ A.cols = 3 * scenario_problem.num_var_ ∧
      lower.length = 6 * scenario_problem.num_var_ ∧
      upper.length = 6 * scenario_problem.num_var_ :=
  ⟨⟨by decide, by decide, by decide⟩,
    affine_constraint_dimensions scenario_problem [] [] (by decide) (by decide) (by decide)⟩

/-- C1, as stated, fails for a single sample : the matrix built has `6` rows and the bound
sequences have length `6`, not `4 * 1 - 1 = 3`. -/
theorem affine_constraint_rows_counterexample :
    ∃ A lower upper,
      CalcualteAffineConstraint.dense single_sample_problem [] [] = .ok (A, lower, upper) ∧
      A.rows = 6 ∧ lower.length = 6 ∧ upper.length = 6 ∧
      A.rows ≠ 4 * single_sample_problem.num_var_ - 1 ∧
      lower.length ≠ 4 * single_sample_problem.num_var_ - 1 ∧
      upper.length ≠ 4 * single_sample_problem.num_var_ - 1 := by
  obtain ⟨A, lower, upper, h, hr, _, hl, hu, _⟩ :=
    dense_closed_form single_sample_problem [] [] (by decide) (by decide) (by decide)
  have e : single_sample_problem.num_var_ = 1 := rfl
  rw [e] at hr hl hu
  refine ⟨A, lower, upper, h, hr, hl, hu, ?_, ?_, ?_⟩
  · rw [hr, e]; decide
  · rw [hl, e]; decide
  · rw [hu, e]; decide

/-- C2 : for `n ≥ 2` (with `6 n` in the range of `int`) and `i < n - 1`, row `2 (n - 1) + i` of
the constraint matrix has coefficient `-1` at column `i`, `1` at column `i + 1`, `-Δs` at column
`n + i`, `-Δs² / 3` at column `2 n + i`, `-Δs² / 6` at column `2 n + i + 1` and `0` in every
other column, both its bounds are `0`, and a vector `x` satisfies the row iff `p_{i+1} - p_i -
Δs v_i - (Δs² / 3) a_i - (Δs² / 6) a_{i+1} = 0`. -/
theorem position_continuity_row (p : Fem1dExpandedQpProblem)
    (lower_bounds upper_bounds : List c_float)
    (hlen : p.num_var_ = p.x_bounds_.length) (h2 : 2 ≤ p.num_var_)
    (hn : 6 * p.num_var_ < 2 ^ 31) (i : Nat) (hi : i < p.num_var_ - 1) :
    ∃ A lower upper,
      CalcualteAffineConstraint.dense p lower_bounds upper_bounds = .ok (A, lower, upper) ∧
      (∀ c, A.coeff (2 * (p.num_var_ - 1) + i) c =
        if c = i then -1
        else if c = i + 1 then 1
        else if c = p.num_var_ + i then -p.delta_s_
        else if c = 2 * p.num_var_ + i then -p.delta_s_ ^ 2 / 3
        else if c = 2 * p.num_var_ + i + 1 then -p.delta_s_ ^ 2 / 6
        else 0) ∧
      lower[2 * (p.num_var_ - 1) + i]? = some 0 ∧
      upper[2 * (p.num_var_ - 1) + i]? = some 0 ∧
      ∀ x : List c_float, RowHolds A lower upper x (2 * (p.num_var_ - 1) + i) ↔
        x.getD (i + 1) 0 - x.getD i 0 - p.delta_s_ * x.getD (p.num_var_ + i) 0
          - p.delta_s_ ^ 2 / 3 * x.getD (2 * p.num_var_ + i) 0
          - p.delta_s_ ^ 2 / 6 * x.getD (2 * p.num_var_ + i + 1) 0 = 0 := by
  obtain ⟨A, lower, upper, h, _, hc, _, _, hco, hlo, hup⟩ :=
    dense_closed_form p lower_bounds upper_bounds hlen (by omega) hn
  have hr : 2 * (p.num_var_ - 1) + i < 6 * p.num_var_ := by omega
  have g1 : ¬ (2 * (p.num_var_ - 1) + i < p.num_var_ - 1) := by omega
  have g2 : ¬ (2 * (p.num_var_ - 1) + i < 2 * (p.num_var_ - 1)) := by omega
  have g3 : 2 * (p.num_var_ - 1) + i < 3 * (p.num_var_ - 1) := by omega
  have e : 2 * (p.num_var_ - 1) + i - 2 * (p.num_var_ - 1) = i := by omega
  have e3 : -p.delta_s_ * p.delta_s_ / 3 = -p.delta_s_ ^ 2 / 3 := by ring
  have e6 : -p.delta_s_ * p.delta_s_ / 6 = -p.delta_s_ ^ 2 / 6 := by ring
  have hrow : ∀ c, A.coeff (2 * (p.num_var_ - 1) + i) c =
      sparse_row [(i, -1), (i + 1, 1), (p.num_var_ + i, -p.delta_s_),
        (2 * p.num_var_ + i, -p.delta_s_ ^ 2 / 3),
        (2 * p.num_var_ + i + 1, -p.delta_s_ ^ 2 / 6)] c := by
    intro c
    rw [hco _ c hr]
    simp only [row_coeff, if_neg g1, if_neg g2, if_pos g3, e, e3, e6, sparse_row]
  have hL := hlo _ hr
  have hU := hup _ hr
  simp only [row_lower, row_upper, if_neg g1, if_pos g3] at hL hU
  refine ⟨A, lower, upper, h, fun c => by rw [hrow c]; simp only [sparse_row], hL, hU, ?_⟩
  intro x
  have hv := row_value_sparse A x _ _ hrow
    (by simp only [List.map_cons, List.map_nil, List.nodup_cons, List.mem_cons,
          List.mem_singleton, List.not_mem_nil, List.nodup_nil, or_false, not_false_eq_true,
          and_true]
        omega)
    (by intro e he
        simp only [List.mem_cons, List.mem_singleton, List.not_mem_nil, or_false] at he
        rcases he with rfl | rfl | rfl | rfl | rfl <;> simp only [hc] <;> omega)
  simp only [List.map_cons, List.map_nil, List.sum_cons, List.sum_nil] at hv
  unfold RowHolds
  rw [hv, getD_of_getElem? _ _ _ hL, getD_of_getElem? _ _ _ hU]
  constructor
  · rintro ⟨ha, hb⟩
    linarith
  · intro hx
    constructor <;> linarith

theorem position_continuity_row_witness :
    (scenario_problem.num_var_ = scenario_problem.x_bounds_.length ∧
      2 ≤ scenario_problem.num_var_ ∧ 6 * scenario_problem.num_var_ < 2 ^ 31 ∧
      1 < scenario_problem.num_var_ - 1) ∧
    ∃ A lower upper,
      CalcualteAffineConstraint.dense scenario_problem [] [] = .ok (A, lower, upper) ∧
      (∀ c, A.coeff (2 * (scenario_problem.num_var_ - 1) + 1) c =
        if c = 1 then -1
        else if c = 1 + 1 then 1
        else if c = scenario_problem.num_var_ + 1 then -scenario_problem.delta_s_
        else if c = 2 * scenario_problem.num_var_ + 1 then -scenario_problem.delta_s_ ^ 2 / 3
        else if c = 2 * scenario_problem.num_var_ + 1 + 1 then
          -scenario_problem.delta_s_ ^ 2 / 6
        else 0) ∧
      lower[2 * (scenario_problem.num_var_ - 1) + 1]? = some 0 ∧
      upper[2 * (scenario_problem.num_var_ - 1) + 1]? = some 0 ∧
      ∀ x : List c_float,
        RowHolds A lower upper x (2 * (scenario_problem.num_var_ - 1) + 1) ↔
        x.getD (1 + 1) 0 - x.getD 1 0
          - scenario_problem.delta_s_ * x.getD (scenario_problem.num_var_ + 1) 0
          - scenario_problem.delta_s_ ^ 2 / 3 * x.getD (2 * scenario_problem.num_var_ + 1) 0
          - scenario_problem.delta_s_ ^ 2 / 6 *
              x.getD (2 * scenario_problem.num_var_ + 1 + 1) 0 = 0 :=
  ⟨⟨by decide, by decide, by decide, by decide⟩,
    position_continuity_row scenario_problem [] [] (by decide) (by decide) (by decide) 1
      (by decide)⟩

/-- C3 : for `n ≥ 2` (with `6 n` in the range of `int`) and `i < n - 1`, row `(n - 1) + i` of
the constraint matrix has coefficient `-1` at column `n + i`, `1` at column `n + i + 1`, `-0.5
Δs` at the columns `2 n + i` and `2 n + i + 1` and `0` in every other column, both its bounds
are `0`, and a vector `x` satisfies the row iff `v_{i+1} - v_i - 0.5 Δs (a_i + a_{i+1}) = 0`. -/
theorem derivative_continuity_row (p : Fem1dExpandedQpProblem)
    (lower_bounds upper_bounds : List c_float)
    (hlen : p.num_var_ = p.x_bounds_.length) (h2 : 2 ≤ p.num_var_)
    (hn : 6 * p.num_var_ < 2 ^ 31) (i : Nat) (hi : i < p.num_var_ - 1) :
    ∃ A lower upper,
      CalcualteAffineConstraint.dense p lower_bounds upper_bounds = .ok (A, lower, upper) ∧
      (∀ c, A.coeff (p.num_var_ - 1 + i) c =
        if c = p.num_var_ + i then -1
        else if c = p.num_var_ + i + 1 then 1
        else if c = 2 * p.num_var_ + i then -(1 / 2) * p.delta_s_
        else if c = 2 * p.num_var_ + i + 1 then -(1 / 2) * p.delta_s_
        else 0) ∧
      lower[p.num_var_ - 1 + i]? = some 0 ∧
      upper[p.num_var_ - 1 + i]? = some 0 ∧
      ∀ x : List c_float, RowHolds A lower upper x (p.num_var_ - 1 + i) ↔
        x.getD (p.num_var_ + i + 1) 0 - x.getD (p.num_var_ + i) 0
          - 1 / 2 * p.delta_s_ *
              (x.getD (2 * p.num_var_ + i) 0 + x.getD (2 * p.num_var_ + i + 1) 0) = 0 := by
  obtain ⟨A, lower, upper, h, _, hc, _, _, hco, hlo, hup⟩ :=
    dense_closed_form p lower_bounds upper_bounds hlen (by omega) hn
  have hr : p.num_var_ - 1 + i < 6 * p.num_var_ := by omega
  have g1 : ¬ (p.num_var_ - 1 + i < p.num_var_ - 1) := by omega
  have g2 : p.num_var_ - 1 + i < 2 * (p.num_var_ - 1) := by omega
  have g3 : p.num_var_ - 1 + i < 3 * (p.num_var_ - 1) := by omega
  have e : p.num_var_ - 1 + i - (p.num_var_ - 1) = i := by omega
  have hrow : ∀ c, A.coeff (p.num_var_ - 1 + i) c =
      sparse_row [(p.num_var_ + i, -1), (p.num_var_ + i + 1, 1),
        (2 * p.num_var_ + i, -(1 / 2) * p.delta_s_),
        (2 * p.num_var_ + i + 1, -(1 / 2) * p.delta_s_)] c := by
    intro c
    rw [hco _ c hr]
    simp only [row_coeff, if_neg g1, if_pos g2, e, sparse_row]
  have hL := hlo _ hr
  have hU := hup _ hr
  simp only [row_lower, row_upper, if_neg g1, if_pos g3] at hL hU
  refine ⟨A, lower, upper, h, fun c => by rw [hrow c]; simp only [sparse_row], hL, hU, ?_⟩
  intro x
  have hv := row_value_sparse A x _ _ hrow
    (by simp only [List.map_cons, List.map_nil, List.nodup_cons, List.mem_cons,
          List.mem_singleton, List.not_mem_nil, List.nodup_nil, or_false, not_false_eq_true,
          and_true]
        omega)
    (by intro e he
        simp only [List.mem_cons, List.mem_singleton, List.not_mem_nil, or_false] at he
        rcases he with rfl | rfl | rfl | rfl <;> simp only [hc] <;> omega)
  simp only [List.map_cons, List.map_nil, List.sum_cons, List.sum_nil] at hv
  unfold RowHolds
  rw [hv, getD_of_getElem? _ _ _ hL, getD_of_getElem? _ _ _ hU]
  constructor
  · rintro ⟨ha, hb⟩
    linarith
  · intro hx
    constructor <;> linarith

theorem derivative_continuity_row_witness :
    (scenario_problem.num_var_ = scenario_problem.x_bounds_.length ∧
      2 ≤ scenario_problem.num_var_ ∧ 6 * scenario_problem.num_var_ < 2 ^ 31 ∧
      1 < scenario_problem.num_var_ - 1) ∧
    ∃ A lower upper,
      CalcualteAffineConstraint.dense scenario_problem [] [] = .ok (A, lower, upper) ∧
      (∀ c, A.coeff (scenario_problem.num_var_ - 1 + 1) c =
        if c = scenario_problem.num_var_ + 1 then -1
        else if c = scenario_problem.num_var_ + 1 + 1 then 1
        else if c = 2 * scenario_problem.num_var_ + 1 then
          -(1 / 2) * scenario_problem.delta_s_
        else if c = 2 * scenario_problem.num_var_ + 1 + 1 then
          -(1 / 2) * scenario_problem.delta_s_
        else 0) ∧
      lower[scenario_problem.num_var_ - 1 + 1]? = some 0 ∧
      upper[scenario_problem.num_var_ - 1 + 1]? = some 0 ∧
      ∀ x : List c_float, RowHolds A lower upper x (scenario_problem.num_var_ - 1 + 1) ↔
        x.getD (scenario_problem.num_var_ + 1 + 1) 0 - x.getD (scenario_problem.num_var_ + 1) 0
          - 1 / 2 * scenario_problem.delta_s_ *
              (x.getD (2 * scenario_problem.num_var_ + 1) 0 +
                x.getD (2 * scenario_problem.num_var_ + 1 + 1) 0) = 0 :=
  ⟨⟨by decide, by decide, by decide, by decide⟩,
    derivative_continuity_row scenario_problem [] [] (by decide) (by decide) (by decide) 1
      (by decide)⟩

/-- C4 : for `n ≥ 2` (with `6 n` in the range of `int`) and `i < n - 1`, row `i` of the
constraint matrix has coefficient `-1` at column `2 n + i`, `1` at column `2 n + i + 1` and `0`
elsewhere, lower bound `-J Δs` and upper bound `J Δs`; hence every feasible vector has `|a_{i+1}
- a_i| ≤ J Δs` (for every jerk bound `J` and spacing `Δs`, so also for `J ≥ 0` and `Δs > 0`). -/
theorem jerk_rate_row (p : Fem1dExpandedQpProblem)
    (lower_bounds upper_bounds : List c_float)
    (hlen : p.num_var_ = p.x_bounds_.length) (h2 : 2 ≤ p.num_var_)
    (hn : 6 * p.num_var_ < 2 ^ 31) (i : Nat) (hi : i < p.num_var_ - 1) :
    ∃ A lower upper,
      CalcualteAffineConstraint.dense p lower_bounds upper_bounds = .ok (A, lower, upper) ∧
      (∀ c, A.coeff i c =
        if c = 2 * p.num_var_ + i then -1
        else if c = 2 * p.num_var_ + i + 1 then 1
        else 0) ∧
      lower[i]? = some (-p.max_x_third_order_derivative_ * p.delta_s_) ∧
      upper[i]? = some (p.max_x_third_order_derivative_ * p.delta_s_) ∧
      ∀ x : List c_float, Feasible A lower upper x →
        |x.getD (2 * p.num_var_ + i + 1) 0 - x.getD (2 * p.num_var_ + i) 0| ≤
          p.max_x_third_order_derivative_ * p.delta_s_ := by
  obtain ⟨A, lower, upper, h, hrows, hc, _, _, hco, hlo, hup⟩ :=
    dense_closed_form p lower_bounds upper_bounds hlen (by omega) hn
  have hr : i < 6 * p.num_var_ := by omega
  have hrow : ∀ c, A.coeff i c =
      sparse_row [(2 * p.num_var_ + i, -1), (2 * p.num_var_ + i + 1, 1)] c := by
    intro c
    rw [hco _ c hr]
    simp only [row_coeff, if_pos hi, sparse_row]
  have hL := hlo _ hr
  have hU := hup _ hr
  simp only [row_lower, row_upper, if_pos hi] at hL hU
  refine ⟨A, lower, upper, h, fun c => by rw [hrow c]; simp only [sparse_row], hL, hU, ?_⟩
  intro x hx
  have hv := row_value_sparse A x _ _ hrow
    (by simp only [List.map_cons, List.map_nil, List.nodup_cons, List.mem_cons,
          List.mem_singleton, List.not_mem_nil, List.nodup_nil, or_false, not_false_eq_true,
          and_true]
        omega)
    (by intro e he
        simp only [List.mem_cons, List.mem_singleton, List.not_mem_nil, or_false] at he
        rcases he with rfl | rfl <;> simp only [hc] <;> omega)
  simp only [List.map_cons, List.map_nil, List.sum_cons, List.sum_nil] at hv
  have hrowi := hx.2 i (by rw [hrows]; exact hr)
  unfold RowHolds at hrowi
  rw [hv, getD_of_getElem? _ _ _ hL, getD_of_getElem? _ _ _ hU] at hrowi
  rw [abs_le]
  constructor <;> linarith [hrowi.1, hrowi.2]

theorem jerk_rate_row_witness :
    (scenario_problem.num_var_ = scenario_problem.x_bounds_.length ∧
      2 ≤ scenario_problem.num_var_ ∧ 6 * scenario_problem.num_var_ < 2 ^ 31 ∧
      1 < scenario_problem.num_var_ - 1) ∧
    ∃ A lower upper,
      CalcualteAffineConstraint.dense scenario_problem [] [] = .ok (A, lower, upper) ∧
      (∀ c, A.coeff 1 c =
        if c = 2 * scenario_problem.num_var_ + 1 then -1
        else if c = 2 * scenario_problem.num_var_ + 1 + 1 then 1
        else 0) ∧
      lower[1]? = some (-scenario_problem.max_x_third_order_derivative_ *
        scenario_problem.delta_s_) ∧
      upper[1]? = some (scenario_problem.max_x_third_order_derivative_ *
        scenario_problem.delta_s_) ∧
      ∀ x : List c_float, Feasible A lower upper x →
        |x.getD (2 * scenario_problem.num_var_ + 1 + 1) 0 -
            x.getD (2 * scenario_problem.num_var_ + 1) 0| ≤
          scenario_problem.max_x_third_order_derivative_ * scenario_problem.delta_s_ :=
  ⟨⟨by decide, by decide, by decide, by decide⟩,
    jerk_rate_row scenario_problem [] [] (by decide) (by decide) (by decide) 1 (by decide)⟩

theorem getElem?_of_getD (l : List c_float) (i : Nat) (v : c_float) (h : i < l.length)
    (hv : l.getD i 0 = v) : l[i]? = some v := by
  rw [← hv, List.getD_eq_getElem _ _ h, List.getElem?_eq_getElem h]

/-- A row with the single coefficient `1` at column `a` takes the value `x[a]`. -/
theorem row_value_single (A : MatrixXd) (x : List c_float) (r a : Nat) (ha : a < A.cols)
    (h : ∀ c, A.coeff r c = if c = a then 1 else 0) : row_value A x r = x.getD a 0 := by
  have hrow : ∀ c, A.coeff r c = sparse_row [(a, 1)] c := by
    intro c; rw [h c]; simp only [sparse_row]
  have hv := row_value_sparse A x r _ hrow (by simp) (by simpa using ha)
  simpa using hv

/-- C5 : for `n ≥ 1` (with `6 n` in the range of `int`) the rows `3 (n - 1)`, `3 (n - 1) + 1`
and `3 (n - 1) + 2` have the single non-zero coefficient `1`, at column `0`, `n` and `2 n`, and
both bounds equal to `x_init_[0]`, `x_init_[1]` and `x_init_[2]`; hence every feasible vector
has `x[0] = x_init_[0]`, `x[n] = x_init_[1]` and `x[2 n] = x_init_[2]`. -/
theorem initial_condition_rows (p : Fem1dExpandedQpProblem)
    (lower_bounds upper_bounds : List c_float)
    (hlen : p.num_var_ = p.x_bounds_.length) (h1 : 1 ≤ p.num_var_)
    (hn : 6 * p.num_var_ < 2 ^ 31) :
    ∃ A lower upper,
      CalcualteAffineConstraint.dense p lower_bounds upper_bounds = .ok (A, lower, upper) ∧
      (∀ c, A.coeff (3 * (p.num_var_ - 1)) c = if c = 0 then 1 else 0) ∧
      (∀ c, A.coeff (3 * (p.num_var_ - 1) + 1) c = if c = p.num_var_ then 1 else 0) ∧
      (∀ c, A.coeff (3 * (p.num_var_ - 1) + 2) c = if c = 2 * p.num_var_ then 1 else 0) ∧
      lower[3 * (p.num_var_ - 1)]? = some (p.x_init_ 0) ∧
      upper[3 * (p.num_var_ - 1)]? = some (p.x_init_ 0) ∧
      lower[3 * (p.num_var_ - 1) + 1]? = some (p.x_init_ 1) ∧
      upper[3 * (p.num_var_ - 1) + 1]? = some (p.x_init_ 1) ∧
      lower[3 * (p.num_var_ - 1) + 2]? = some (p.x_init_ 2) ∧
      upper[3 * (p.num_var_ - 1) + 2]? = some (p.x_init_ 2) ∧
      ∀ x : List c_float, Feasible A lower upper x →
        x[0]? = some (p.x_init_ 0) ∧ x[p.num_var_]? = some (p.x_init_ 1) ∧
        x[2 * p.num_var_]? = some (p.x_init_ 2) := by
  obtain ⟨A, lower, upper, h, hrows, hc, _, _, hco, hlo, hup⟩ :=
    dense_closed_form p lower_bounds upper_bounds hlen h1 hn
  have hr0 : 3 * (p.num_var_ - 1) < 6 * p.num_var_ := by omega
  have hr1 : 3 * (p.num_var_ - 1) + 1 < 6 * p.num_var_ := by omega
  have hr2 : 3 * (p.num_var_ - 1) + 2 < 6 * p.num_var_ := by omega
  have a1 : ¬ (3 * (p.num_var_ - 1) < p.num_var_ - 1) := by omega
  have a2 : ¬ (3 * (p.num_var_ - 1) < 2 * (p.num_var_ - 1)) := by omega
  have a3 : ¬ (3 * (p.num_var_ - 1) < 3 * (p.num_var_ - 1)) := by omega
  have b1 : ¬ (3 * (p.num_var_ - 1) + 1 < p.num_var_ - 1) := by omega
  have b2 : ¬ (3 * (p.num_var_ - 1) + 1 < 2 * (p.num_var_ - 1)) := by omega
  have b3 : ¬ (3 * (p.num_var_ - 1) + 1 < 3 * (p.num_var_ - 1)) := by omega
  have b4 : ¬ (3 * (p.num_var_ - 1) + 1 = 3 * (p.num_var_ - 1)) := by omega
  have c1 : ¬ (3 * (p.num_var_ - 1) + 2 < p.num_var_ - 1) := by omega
  have c2 : ¬ (3 * (p.num_var_ - 1) + 2 < 2 * (p.num_var_ - 1)) := by omega
  have c3 : ¬ (3 * (p.num_var_ - 1) + 2 < 3 * (p.num_var_ - 1)) := by omega
  have c4 : ¬ (3 * (p.num_var_ - 1) + 2 = 3 * (p.num_var_ - 1)) := by omega
  have c5 : ¬ (3 * (p.num_var_ - 1) + 2 = 3 * (p.num_var_ - 1) + 1) := by omega
  have hA0 : ∀ c, A.coeff (3 * (p.num_var_ - 1)) c = if c = 0 then 1 else 0 := by
    intro c
    rw [hco _ c hr0]
    simp only [row_coeff, if_neg a1, if_neg a2, if_neg a3, if_true]
  have hA1 : ∀ c, A.coeff (3 * (p.num_var_ - 1) + 1) c = if c = p.num_var_ then 1 else 0 := by
    intro c
    rw [hco _ c hr1]
    simp only [row_coeff, if_neg b1, if_neg b2, if_neg b3, if_neg b4, if_true]
  have hA2 : ∀ c, A.coeff (3 * (p.num_var_ - 1) + 2) c =
      if c = 2 * p.num_var_ then 1 else 0 := by
    intro c
    rw [hco _ c hr2]
    simp only [row_coeff, if_neg c1, if_neg c2, if_neg c3, if_neg c4, if_neg c5, if_true]
  have hL0 := hlo _ hr0
  have hU0 := hup _ hr0
  have hL1 := hlo _ hr1
  have hU1 := hup _ hr1
  have hL2 := hlo _ hr2
  have hU2 := hup _ hr2
  simp only [row_lower, row_upper, if_neg a1, if_neg a3, if_true] at hL0 hU0
  simp only [row_lower, row_upper, if_neg b1, if_neg b3, if_neg b4, if_true] at hL1 hU1
  simp only [row_lower, row_upper, if_neg c1, if_neg c3, if_neg c4, if_neg c5, if_true]
    at hL2 hU2
  refine ⟨A, lower, upper, h, hA0, hA1, hA2, hL0, hU0, hL1, hU1, hL2, hU2, ?_⟩
  intro x hx
  have hxlen : x.length = 3 * p.num_var_ := by rw [hx.1, hc]
  have v0 := hx.2 _ (by rw [hrows]; exact hr0)
  have v1 := hx.2 _ (by rw [hrows]; exact hr1)
  have v2 := hx.2 _ (by rw [hrows]; exact hr2)
  unfold RowHolds at v0 v1 v2
  rw [row_value_single A x _ 0 (by omega) hA0, getD_of_getElem? _ _ _ hL0,
    getD_of_getElem? _ _ _ hU0] at v0
  rw [row_value_single A x _ p.num_var_ (by omega) hA1, getD_of_getElem? _ _ _ hL1,
    getD_of_getElem? _ _ _ hU1] at v1
  rw [row_value_single A x _ (2 * p.num_var_) (by omega) hA2, getD_of_getElem? _ _ _ hL2,
    getD_of_getElem? _ _ _ hU2] at v2
  exact ⟨getElem?_of_getD x _ _ (by omega) (le_antisymm v0.2 v0.1),
    getElem?_of_getD x _ _ (by omega) (le_antisymm v1.2 v1.1),
    getElem?_of_getD x _ _ (by omega) (le_antisymm v2.2 v2.1)⟩

theorem initial_condition_rows_witness :
    (scenario_problem.num_var_ = scenario_problem.x_bounds_.length ∧
      1 ≤ scenario_problem.num_var_ ∧ 6 * scenario_problem.num_var_ < 2 ^ 31) ∧
    ∃ A lower upper,
      CalcualteAffineConstraint.dense scenario_problem [] [] = .ok (A, lower, upper) ∧
      (∀ c, A.coeff (3 * (scenario_problem.num_var_ - 1)) c = if c = 0 then 1 else 0) ∧
      (∀ c, A.coeff (3 * (scenario_problem.num_var_ - 1) + 1) c =
        if c = scenario_problem.num_var_ then 1 else 0) ∧
      (∀ c, A.coeff (3 * (scenario_problem.num_var_ - 1) + 2) c =
        if c = 2 * scenario_problem.num_var_ then 1 else 0) ∧
      lower[3 * (scenario_problem.num_var_ - 1)]? = some (scenario_problem.x_init_ 0) ∧
      upper[3 * (scenario_problem.num_var_ - 1)]? = some (scenario_problem.x_init_ 0) ∧
      lower[3 * (scenario_problem.num_var_ - 1) + 1]? = some (scenario_problem.x_init_ 1) ∧
      upper[3 * (scenario_problem.num_var_ - 1) + 1]? = some (scenario_problem.x_init_ 1) ∧
      lower[3 * (scenario_problem.num_var_ - 1) + 2]? = some (scenario_problem.x_init_ 2) ∧
      upper[3 * (scenario_problem.num_var_ - 1) + 2]? = some (scenario_problem.x_init_ 2) ∧
      ∀ x : List c_float, Feasible A lower upper x →
        x[0]? = some (scenario_problem.x_init_ 0) ∧
        x[scenario_problem.num_var_]? = some (scenario_problem.x_init_ 1) ∧
        x[2 * scenario_problem.num_var_]? = some (scenario_problem.x_init_ 2) :=
  ⟨⟨by decide, by decide, by decide⟩,
    initial_condition_rows scenario_problem [] [] (by decide) (by decide) (by decide)⟩

/-- C6 : for `n ≥ 1` (with `6 n` in the range of `int`) and `i < n`, the `i`-th row after the
three initial-condition rows (row `3 (n - 1) + 3 + i`) has coefficient `1` at column `i` and `0`
in every other column, its lower bound is `x_bounds_[i].first` and its upper bound is
`x_bounds_[i].second`; hence every feasible vector has `x_bounds_[i].first ≤ p_i ≤
x_bounds_[i].second`. -/
theorem value_range_row (p : Fem1dExpandedQpProblem)
    (lower_bounds upper_bounds : List c_float)
    (hlen : p.num_var_ = p.x_bounds_.length) (h1 : 1 ≤ p.num_var_)
    (hn : 6 * p.num_var_ < 2 ^ 31) (i : Nat) (hi : i < p.num_var_) :
    ∃ A lower upper b,
      CalcualteAffineConstraint.dense p lower_bounds upper_bounds = .ok (A, lower, upper) ∧
      p.x_bounds_[i]? = some b ∧
      (∀ c, A.coeff (3 * (p.num_var_ - 1) + 3 + i) c = if c = i then 1 else 0) ∧
      lower[3 * (p.num_var_ - 1) + 3 + i]? = some b.1 ∧
      upper[3 * (p.num_var_ - 1) + 3 + i]? = some b.2 ∧
      ∀ x : List c_float, Feasible A lower upper x →
        b.1 ≤ x.getD i 0 ∧ x.getD i 0 ≤ b.2 := by
  obtain ⟨A, lower, upper, h, hrows, hc, _, _, hco, hlo, hup⟩ :=
    dense_closed_form p lower_bounds upper_bounds hlen h1 hn
  have hr : 3 * (p.num_var_ - 1) + 3 + i < 6 * p.num_var_ := by omega
  have g1 : ¬ (3 * (p.num_var_ - 1) + 3 + i < p.num_var_ - 1) := by omega
  have g2 : ¬ (3 * (p.num_var_ - 1) + 3 + i < 2 * (p.num_var_ - 1)) := by omega
  have g3 : ¬ (3 * (p.num_var_ - 1) + 3 + i < 3 * (p.num_var_ - 1)) := by omega
  have g4 : ¬ (3 * (p.num_var_ - 1) + 3 + i = 3 * (p.num_var_ - 1)) := by omega
  have g5 : ¬ (3 * (p.num_var_ - 1) + 3 + i = 3 * (p.num_var_ - 1) + 1) := by omega
  have g6 : ¬ (3 * (p.num_var_ - 1) + 3 + i = 3 * (p.num_var_ - 1) + 2) := by omega
  have e : 3 * (p.num_var_ - 1) + 3 + i - (3 * (p.num_var_ - 1) + 3) = i := by omega
  have hA : ∀ c, A.coeff (3 * (p.num_var_ - 1) + 3 + i) c = if c = i then 1 else 0 := by
    intro c
    rw [hco _ c hr]
    simp only [row_coeff, if_neg g1, if_neg g2, if_neg g3, if_neg g4, if_neg g5, if_neg g6, e]
  have hL := hlo _ hr
  have hU := hup _ hr
  simp only [row_lower, row_upper, if_neg g1, if_neg g3, if_neg g4, if_neg g5, if_neg g6, e,
    if_pos hi] at hL hU
  have hi' : i < p.x_bounds_.length := by omega
  have hb : p.x_bounds_[i]? = some (p.x_bounds_.getD i (0, 0)) := by
    rw [List.getD_eq_getElem _ _ hi', List.getElem?_eq_getElem hi']
  refine ⟨A, lower, upper, p.x_bounds_.getD i (0, 0), h, hb, hA, hL, hU, ?_⟩
  intro x hx
  have v := hx.2 _ (by rw [hrows]; exact hr)
  unfold RowHolds at v
  rw [row_value_single A x _ i (by omega) hA, getD_of_getElem? _ _ _ hL,
    getD_of_getElem? _ _ _ hU] at v
  exact v

theorem value_range_row_witness :
    (scenario_problem.num_var_ = scenario_problem.x_bounds_.length ∧
      1 ≤ scenario_problem.num_var_ ∧ 6 * scenario_problem.num_var_ < 2 ^ 31 ∧
      2 < scenario_problem.num_var_) ∧
    ∃ A lower upper b,
      CalcualteAffineConstraint.dense scenario_problem [] [] = .ok (A, lower, upper) ∧
      scenario_problem.x_bounds_[2]? = some b ∧
      (∀ c, A.coeff (3 * (scenario_problem.num_var_ - 1) + 3 + 2) c =
        if c = 2 then 1 else 0) ∧
      lower[3 * (scenario_problem.num_var_ - 1) + 3 + 2]? = some b.1 ∧
      upper[3 * (scenario_problem.num_var_ - 1) + 3 + 2]? = some b.2 ∧
      ∀ x : List c_float, Feasible A lower upper x →
        b.1 ≤ x.getD 2 0 ∧ x.getD 2 0 ≤ b.2 :=
  ⟨⟨by decide, by decide, by decide, by decide⟩,
    value_range_row scenario_problem [] [] (by decide) (by decide) (by decide) 2 (by decide)⟩

/-! ## The kernel and offset builders (claims C7 and C8) -/

theorem kernel_body_built (p : Fem1dExpandedQpProblem) (hsz : 3 * p.num_var_ < 2 ^ 63)
    (i : Nat) (m : MatrixXd) (hi : i < 3 * p.num_var_) (hK : KernelBuilt p i m) :
    ∃ m', CalcualteKernel.body p i m = .ok m' ∧ KernelBuilt p (i + 1) m' := by
  have hidx : to_Index ((i : Nat) : Int) = ((i : Nat) : Int) := to_Index_natCast _ (by omega)
  have h2 : size_mul 2 p.num_var_ = 2 * p.num_var_ := size_mul_eq _ _ (by omega)
  have hbody : CalcualteKernel.body p i m = .ok (m.put i i (kernel_diagonal p i)) := by
    have ha := fun v => MatrixXd.assign_natCast m i i v (by rw [hK.rows]; exact hi)
      (by rw [hK.cols]; exact hi)
    unfold CalcualteKernel.body kernel_diagonal
    simp only [hidx, h2, ha]
    split_ifs <;> rfl
  refine ⟨_, hbody, ⟨hK.rows, hK.cols, ?_⟩⟩
  intro r c
  simp only [MatrixXd.put, hK.coeff r c]
  by_cases h : r = i ∧ c = i
  · obtain ⟨rfl, rfl⟩ := h
    simp
  · rw [if_neg h]
    by_cases hrc : r = c
    · subst hrc
      have hne : r ≠ i := fun e => h ⟨e, e⟩
      have e1 : (r < i + 1) = (r < i) := by
        apply propext
        constructor <;> intro <;> omega
      simp only [true_and, e1]
    · simp [hrc]

theorem kernel_built (p : Fem1dExpandedQpProblem) (hlen : p.num_var_ = p.x_bounds_.length)
    (hsz : 3 * p.num_var_ < 2 ^ 63) :
    ∃ K, CalcualteKernel.kernel p = .ok K ∧ KernelBuilt p (3 * p.num_var_) K := by
  have hP : size_mul 3 p.x_bounds_.length = 3 * p.num_var_ := by
    rw [← hlen, size_mul_eq _ _ (by omega)]
  have hzero : MatrixXd.Zero (to_Index ((3 * p.num_var_ : Nat) : Int))
      (to_Index ((3 * p.num_var_ : Nat) : Int)) =
      .ok { rows := 3 * p.num_var_, cols := 3 * p.num_var_, coeff := fun _ _ => 0 } := by
    rw [to_Index_natCast _ (by omega)]
    unfold MatrixXd.Zero
    rw [if_pos ⟨by omega, by omega⟩]
    simp only [Int.toNat_ofNat]
  obtain ⟨K, hK, hB⟩ := forLoop_invariant (fun i => decide (i < 3 * p.num_var_))
    (CalcualteKernel.body p) (3 * p.num_var_) (fun i m => KernelBuilt p i m) (by omega)
    (fun i hi => decide_eq_true hi) (decide_eq_false (by omega))
    (fun i m hi hB => kernel_body_built p hsz i m hi hB) (3 * p.num_var_ + 1) 0
    { rows := 3 * p.num_var_, cols := 3 * p.num_var_, coeff := fun _ _ => 0 }
    (by omega) (by omega) ⟨rfl, rfl, fun r c => by simp⟩
  refine ⟨K, ?_, hB⟩
  unfold CalcualteKernel.kernel
  simp only [hP, hzero, bind_ok, hK]

/-- C7 : for `num_var_ = x_bounds_.size() = n` (every `n` with `3 n` in the range of the matrix
index type, so every such `n ≥ 1`) and all weights, the dense kernel of `CalcualteKernel` is a
`3 n × 3 n` matrix, zero off the diagonal, with diagonal entry `2 (x_w + x_mid_line_w)` for `i <
n`, `2 x_derivative_w` for `n ≤ i < 2 n` and `2 x_second_order_derivative_w` for `2 n ≤ i < 3
n`; the diagonal entries are `≥ 0` when all weights are `≥ 0`. -/
theorem kernel_is_diagonal (p : Fem1dExpandedQpProblem)
    (hlen : p.num_var_ = p.x_bounds_.length) (hsz : 3 * p.num_var_ < 2 ^ 63) :
    ∃ K, CalcualteKernel.kernel p = .ok K ∧
      K.rows = 3 * p.num_var_ ∧ K.cols = 3 * p.num_var_ ∧
      (∀ i j, i ≠ j → K.coeff i j = 0) ∧
      (∀ i, i < p.num_var_ → K.coeff i i = 2 * (p.weight_.x_w + p.weight_.x_mid_line_w)) ∧
      (∀ i, p.num_var_ ≤ i → i < 2 * p.num_var_ →
        K.coeff i i = 2 * p.weight_.x_derivative_w) ∧
      (∀ i, 2 * p.num_var_ ≤ i → i < 3 * p.num_var_ →
        K.coeff i i = 2 * p.weight_.x_second_order_derivative_w) ∧
      (0 ≤ p.weight_.x_w → 0 ≤ p.weight_.x_mid_line_w → 0 ≤ p.weight_.x_derivative_w →
        0 ≤ p.weight_.x_second_order_derivative_w →
        ∀ i, i < 3 * p.num_var_ → 0 ≤ K.coeff i i) := by
  obtain ⟨K, hK, hB⟩ := kernel_built p hlen hsz
  have hd : ∀ i, i < 3 * p.num_var_ → K.coeff i i = kernel_diagonal p i := by
    intro i hi
    rw [hB.coeff i i, if_pos ⟨rfl, hi⟩]
  refine ⟨K, hK, hB.rows, hB.cols, ?_, ?_, ?_, ?_, ?_⟩
  · intro i j hij
    rw [hB.coeff i j, if_neg (fun h => hij h.1)]
  · intro i hi
    rw [hd i (by omega)]
    simp only [kernel_diagonal, if_pos hi]
    ring
  · intro i hi1 hi2
    rw [hd i (by omega)]
    simp only [kernel_diagonal, if_neg (show ¬ i < p.num_var_ by omega), if_pos hi2]
  · intro i hi1 hi2
    rw [hd i hi2]
    simp only [kernel_diagonal, if_neg (show ¬ i < p.num_var_ by omega),
      if_neg (show ¬ i < 2 * p.num_var_ by omega)]
  · intro w1 w2 w3 w4 i hi
    rw [hd i hi]
    unfold kernel_diagonal
    split_ifs <;> linarith

theorem kernel_is_diagonal_witness :
    (scenario_problem.num_var_ = scenario_problem.x_bounds_.length ∧
      3 * scenario_problem.num_var_ < 2 ^ 63) ∧
    ∃ K, CalcualteKernel.kernel scenario_problem = .ok K ∧
      K.rows = 3 * scenario_problem.num_var_ ∧ K.cols = 3 * scenario_problem.num_var_ ∧
      (∀ i j, i ≠ j → K.coeff i j = 0) ∧
      (∀ i, i < scenario_problem.num_var_ →
        K.coeff i i =
          2 * (scenario_problem.weight_.x_w + scenario_problem.weight_.x_mid_line_w)) ∧
      (∀ i, scenario_problem.num_var_ ≤ i → i < 2 * scenario_problem.num_var_ →
        K.coeff i i = 2 * scenario_problem.weight_.x_derivative_w) ∧
      (∀ i, 2 * scenario_problem.num_var_ ≤ i → i < 3 * scenario_problem.num_var_ →
        K.coeff i i = 2 * scenario_problem.weight_.x_second_order_derivative_w) ∧
      (0 ≤ scenario_problem.weight_.x_w → 0 ≤ scenario_problem.weight_.x_mid_line_w →
        0 ≤ scenario_problem.weight_.x_derivative_w →
        0 ≤ scenario_problem.weight_.x_second_order_derivative_w →
        ∀ i, i < 3 * scenario_problem.num_var_ → 0 ≤ K.coeff i i) :=
  ⟨⟨by decide, by decide⟩, kernel_is_diagonal scenario_problem (by decide) (by decide)⟩

theorem offset_body_built (p : Fem1dExpandedQpProblem) (i : Nat) (q : List c_float)
    (hi : i < 3 * p.x_bounds_.length) (hQ : OffsetBuilt p i q) :
    ∃ q', CalcualteOffset.body p i q = .ok q' ∧ OffsetBuilt p (i + 1) q' := by
  have hq : i < q.length := by rw [hQ.length]; exact hi
  have hbody : CalcualteOffset.body p i q = .ok (q.set i (offset_entry p i)) := by
    unfold CalcualteOffset.body offset_entry
    by_cases hin : i < p.x_bounds_.length
    · have hget : p.x_bounds_[i]? = some (p.x_bounds_.getD i (0, 0)) := by
        rw [List.getD_eq_getElem _ _ hin, List.getElem?_eq_getElem hin]
      simp only [if_pos hin, hget, assign_at_lt _ _ _ hq]
    · simp only [if_neg hin, assign_at_lt _ _ _ hq]
  refine ⟨_, hbody, ⟨by simp [hQ.length], ?_⟩⟩
  intro j hj
  by_cases h : j = i
  · subst h
    rw [List.getElem?_set_self hq]
  · rw [List.getElem?_set_ne (fun e => h e.symm)]
    exact hQ.done j (by omega)

theorem offset_built (p : Fem1dExpandedQpProblem) (q : List c_float)
    (hsz : 3 * p.x_bounds_.length < 2 ^ 64) :
    ∃ q', CalcualteOffset p q = .ok q' ∧ OffsetBuilt p (3 * p.x_bounds_.length) q' := by
  have hP : size_mul 3 p.x_bounds_.length = 3 * p.x_bounds_.length := size_mul_eq _ _ hsz
  obtain ⟨q', hq', hB⟩ := forLoop_invariant (fun i => decide (i < 3 * p.x_bounds_.length))
    (CalcualteOffset.body p) (3 * p.x_bounds_.length) (fun i q => OffsetBuilt p i q) hsz
    (fun i hi => decide_eq_true hi) (decide_eq_false (by omega))
    (fun i q hi hB => offset_body_built p i q hi hB) (3 * p.x_bounds_.length + 1) 0
    (resize q (3 * p.x_bounds_.length))
    (by omega) (by omega) ⟨length_resize _ _, fun j hj => by omega⟩
  refine ⟨q', ?_, hB⟩
  unfold CalcualteOffset
  simp only [hP, hq']

/-- C8 : for every list of `n` bound pairs (with `3 n` in the range of `size_t`) and every
midpoint weight `w`, `CalcualteOffset` produces a vector `q` of length `3 n` with `q[i] = -2 w
(lower_i + upper_i)` for `i < n` and `q[i] = 0` for `n ≤ i < 3 n` (whatever the sequence passed
in held before). -/
theorem offset_vector (p : Fem1dExpandedQpProblem) (q0 : List c_float)
    (hsz : 3 * p.x_bounds_.length < 2 ^ 64) :
    ∃ q, CalcualteOffset p q0 = .ok q ∧
      q.length = 3 * p.x_bounds_.length ∧
      (∀ (i : Nat) (b : c_float × c_float), p.x_bounds_[i]? = some b →
        q[i]? = some (-2 * p.weight_.x_mid_line_w * (b.1 + b.2))) ∧
      (∀ i, p.x_bounds_.length ≤ i → i < 3 * p.x_bounds_.length → q[i]? = some 0) := by
  obtain ⟨q, hq, hB⟩ := offset_built p q0 hsz
  refine ⟨q, hq, hB.length, ?_, ?_⟩
  · intro i b hb
    obtain ⟨hi, hbi⟩ := List.getElem?_eq_some.mp hb
    rw [hB.done i (by omega)]
    simp only [offset_entry, if_pos hi, List.getD_eq_getElem _ _ hi, hbi]
  · intro i hi1 hi2
    rw [hB.done i hi2]
    simp only [offset_entry, if_neg (show ¬ i < p.x_bounds_.length by omega)]

theorem offset_vector_witness :
    3 * single_sample_problem.x_bounds_.length < 2 ^ 64 ∧
    ∃ q, CalcualteOffset single_sample_problem [7, 7] = .ok q ∧
      q.length = 3 * single_sample_problem.x_bounds_.length ∧
      (∀ (i : Nat) (b : c_float × c_float), single_sample_problem.x_bounds_[i]? = some b →
        q[i]? = some (-2 * single_sample_problem.weight_.x_mid_line_w * (b.1 + b.2))) ∧
      (∀ i, single_sample_problem.x_bounds_.length ≤ i →
        i < 3 * single_sample_problem.x_bounds_.length → q[i]? = some 0) :=
  ⟨by decide, offset_vector single_sample_problem [7, 7] (by decide)⟩

/-! ## `Optimize` (claims C9 to C11) -/

theorem some_getD (x : List c_float) (i : Nat) (h : i < x.length) :
    some (x.getD i 0) = x[i]? := by
  rw [List.getD_eq_getElem _ _ h, List.getElem?_eq_getElem h]

theorem read_array_lt (x : List c_float) (i : Nat) (h : i < x.length) :
    read_array x i = .ok (x.getD i 0) := by
  unfold read_array
  rw [← some_getD x i h]

theorem optimize_body_decoded (n : Nat) (sol : List c_float) (hsol : sol.length = 3 * n)
    (hn : 3 * n < 2 ^ 64) (i : Nat) (s : Fem1dExpandedQpProblem) (hi : i < n)
    (hD : Decoded n sol i s) :
    ∃ s', Optimize.body sol i s = .ok s' ∧ Decoded n sol (i + 1) s' := by
  have e1 : size_add i s.num_var_ = n + i := by
    rw [hD.num_var, size_add_eq _ _ (by omega)]; omega
  have e2 : size_add i (size_mul 2 s.num_var_) = 2 * n + i := by
    rw [hD.num_var, size_mul_eq _ _ (by omega), size_add_eq _ _ (by omega)]; omega
  have hbody : Optimize.body sol i s =
      .ok { s with x_ := s.x_.set i (sol.getD i 0),
                   x_derivative_ := s.x_derivative_.set i (sol.getD (n + i) 0),
                   x_second_order_derivative_ :=
                     s.x_second_order_derivative_.set i (sol.getD (2 * n + i) 0) } := by
    unfold Optimize.body
    rw [e1, e2, read_array_lt sol i (by omega), read_array_lt sol (n + i) (by omega),
      read_array_lt sol (2 * n + i) (by omega)]
    simp only [bind_ok]
    rw [assign_at_lt _ _ _ (by rw [hD.x_length]; exact hi),
      assign_at_lt _ _ _ (by rw [hD.x_derivative_length]; exact hi),
      assign_at_lt _ _ _ (by rw [hD.x_second_order_derivative_length]; exact hi)]
    simp only [bind_ok]
  refine ⟨_, hbody, ⟨hD.num_var, ?_, ?_, ?_, ?_, ?_, ?_⟩⟩
  · simp [hD.x_length]
  · simp [hD.x_derivative_length]
  · simp [hD.x_second_order_derivative_length]
  · intro j hj
    by_cases h : j = i
    · subst h
      simp only []
      rw [List.getElem?_set_self (by rw [hD.x_length]; exact hi),
        some_getD _ _ (by omega)]
    · simp only []
      rw [List.getElem?_set_ne (fun e => h e.symm)]
      exact hD.x_done j (by omega)
  · intro j hj
    by_cases h : j = i
    · subst h
      simp only []
      rw [List.getElem?_set_self (by rw [hD.x_derivative_length]; exact hi),
        some_getD _ _ (by omega)]
    · simp only []
      rw [List.getElem?_set_ne (fun e => h e.symm)]
      exact hD.x_derivative_done j (by omega)
  · intro j hj
    by_cases h : j = i
    · subst h
      simp only []
      rw [List.getElem?_set_self (by rw [hD.x_second_order_derivative_length]; exact hi),
        some_getD _ _ (by omega)]
    · simp only []
      rw [List.getElem?_set_ne (fun e => h e.symm)]
      exact hD.x_second_order_derivative_done j (by omega)

theorem resize_resize (v : List c_float) (k : Nat) : resize (resize v k) k = resize v k := by
  have h := length_resize v k
  unfold resize at h ⊢
  rw [h, Nat.sub_self, List.replicate_zero, List.append_nil, List.take_of_length_le (by omega)]

theorem assign_back_pos (v : List c_float) (x : c_float) (h : 0 < v.length) :
    assign_back v x = .ok (v.set (v.length - 1) x) := by
  unfold assign_back
  rw [if_neg (by omega)]

/-- `Optimize` ends without a fault, returns `true`, and has decoded the vector the solver
left behind : all of the first block, and the other two blocks up to their last entry,
which is zero. -/
theorem optimize_decodes (DenseToCSCMatrix : MatrixXd → CSCMatrix)
    (OptimizeWithOsqp : Nat → Nat → CSCMatrix → CSCMatrix → List c_float → List c_float →
      List c_float → OsqpOutcome)
    (p : Fem1dExpandedQpProblem) (hlen : p.num_var_ = p.x_bounds_.length)
    (h1 : 1 ≤ p.num_var_) (hn : 6 * p.num_var_ < 2 ^ 31) (s : List c_float)
    (hs : s.length = 3 * p.num_var_)
    (hsol : ∀ P A lower upper q, CalcualteKernel DenseToCSCMatrix p = .ok P →
      CalcualteAffineConstraint DenseToCSCMatrix p [] [] = .ok (A, lower, upper) →
      CalcualteOffset p [] = .ok q →
      (OptimizeWithOsqp (3 * p.num_var_) lower.length P A lower upper q).solution_x = s) :
    ∃ p', Optimize DenseToCSCMatrix OptimizeWithOsqp p = .ok (true, p') ∧
      p'.x_.length = p.num_var_ ∧ p'.x_derivative_.length = p.num_var_ ∧
      p'.x_second_order_derivative_.length = p.num_var_ ∧
      (∀ i, i < p.num_var_ → p'.x_[i]? = s[i]?) ∧
      (∀ i, i < p.num_var_ - 1 → p'.x_derivative_[i]? = s[p.num_var_ + i]?) ∧
      (∀ i, i < p.num_var_ - 1 →
        p'.x_second_order_derivative_[i]? = s[2 * p.num_var_ + i]?) ∧
      p'.x_derivative_[p.num_var_ - 1]? = some 0 ∧
      p'.x_second_order_derivative_[p.num_var_ - 1]? = some 0 := by
  obtain ⟨K, hK, _⟩ := kernel_built p hlen (by omega)
  obtain ⟨A, lower, upper, hA, _⟩ := dense_closed_form p [] [] hlen h1 hn
  obtain ⟨q, hq, _⟩ := offset_built p [] (by omega)
  have hP : CalcualteKernel DenseToCSCMatrix p = .ok (DenseToCSCMatrix K) := by
    unfold CalcualteKernel; rw [hK]; rfl
  have hC : CalcualteAffineConstraint DenseToCSCMatrix p [] [] =
      .ok (DenseToCSCMatrix A, lower, upper) := by
    unfold CalcualteAffineConstraint; rw [hA]; rfl
  have hwork := hsol _ _ _ _ _ hP hC hq
  have h3 : size_mul 3 p.num_var_ = 3 * p.num_var_ := size_mul_eq _ _ (by omega)
  obtain ⟨s1, hs1, hD⟩ := forLoop_invariant (fun i => decide (i < p.x_bounds_.length))
    (Optimize.body s) p.num_var_ (fun i t => Decoded p.num_var_ s i t) (by omega)
    (fun i hi => decide_eq_true (by omega)) (decide_eq_false (by omega))
    (fun i t hi hD => optimize_body_decoded p.num_var_ s hs (by omega) i t hi hD)
    (p.x_bounds_.length + 1) 0
    { p with x_ := resize p.x_ p.num_var_,
             x_derivative_ := resize p.x_derivative_ p.num_var_,
             x_second_order_derivative_ := resize p.x_second_order_derivative_ p.num_var_ }
    (by omega) (by omega)
    ⟨rfl, length_resize _ _, length_resize _ _, length_resize _ _,
      fun j hj => by omega, fun j hj => by omega, fun j hj => by omega⟩
  have hopt : Optimize DenseToCSCMatrix OptimizeWithOsqp p =
      .ok (true, { s1 with
        x_derivative_ := s1.x_derivative_.set (s1.x_derivative_.length - 1) 0,
        x_second_order_derivative_ :=
          s1.x_second_order_derivative_.set (s1.x_second_order_derivative_.length - 1) 0 }) := by
    unfold Optimize
    simp only [hP, hC, hq, bind_ok, h3, hwork, resize_resize, hs1]
    rw [assign_back_pos _ _ (by rw [hD.x_derivative_length]; omega),
      assign_back_pos _ _ (by rw [hD.x_second_order_derivative_length]; omega)]
    rfl
  refine ⟨_, hopt, hD.x_length, ?_, ?_, hD.x_done, ?_, ?_, ?_, ?_⟩
  · simp [hD.x_derivative_length]
  · simp [hD.x_second_order_derivative_length]
  · intro i hi
    simp only [hD.x_derivative_length]
    rw [List.getElem?_set_ne (by omega)]
    exact hD.x_derivative_done i (by omega)
  · intro i hi
    simp only [hD.x_second_order_derivative_length]
    rw [List.getElem?_set_ne (by omega)]
    exact hD.x_second_order_derivative_done i (by omega)
  · simp only [hD.x_derivative_length]
    rw [List.getElem?_set_self (by rw [hD.x_derivative_length]; omega)]
  · simp only [hD.x_second_order_derivative_length]
    rw [List.getElem?_set_self (by rw [hD.x_second_order_derivative_length]; omega)]

theorem bind_eq_ok {α β : Type} (x : Except Fault α) (f : α → Except Fault β) (b : β)
    (h : x.bind f = .ok b) : ∃ a, x = .ok a ∧ f a = .ok b := by
  cases x with
  | error e => exact absurd h (by simp [Except.bind])
  | ok a => exact ⟨a, rfl, h⟩

/-- No run of `Optimize` returns `false`. -/
theorem optimize_flag (DenseToCSCMatrix : MatrixXd → CSCMatrix)
    (OptimizeWithOsqp : Nat → Nat → CSCMatrix → CSCMatrix → List c_float → List c_float →
      List c_float → OsqpOutcome)
    (p : Fem1dExpandedQpProblem) (r : Bool × Fem1dExpandedQpProblem)
    (h : Optimize DenseToCSCMatrix OptimizeWithOsqp p = .ok r) : r.1 = true := by
  unfold Optimize at h
  obtain ⟨_, _, h⟩ := bind_eq_ok _ _ _ h
  obtain ⟨_, _, h⟩ := bind_eq_ok _ _ _ h
  obtain ⟨_, _, h⟩ := bind_eq_ok _ _ _ h
  obtain ⟨_, _, h⟩ := bind_eq_ok _ _ _ h
  obtain ⟨_, _, h⟩ := bind_eq_ok _ _ _ h
  obtain ⟨_, _, h⟩ := bind_eq_ok _ _ _ h
  simp only [Except.ok.injEq] at h
  rw [← h]

/-- C9, as stated, fails : on the single-sample problem with bound `(-1, 1)` and initial value
`5`, with a solver call that reports failure, `Optimize` returns `true` and not `false`. -/
theorem Optimize_solver_failure_counterexample :
    (∀ k m P A lower upper q, (failing_osqp k m P A lower upper q).returned = false) ∧
    (∃ p', Optimize dense_to_csc failing_osqp single_sample_problem = .ok (true, p')) ∧
    ¬ ∃ p', Optimize dense_to_csc failing_osqp single_sample_problem = .ok (false, p') := by
  refine ⟨fun _ _ _ _ _ _ _ => rfl, ?_, ?_⟩
  · obtain ⟨p', h, _⟩ := optimize_decodes dense_to_csc failing_osqp single_sample_problem
      (by decide) (by decide) (by decide) (List.replicate 3 0) (by decide)
      (fun _ _ _ _ _ _ _ _ => rfl)
    exact ⟨p', h⟩
  · rintro ⟨p', h⟩
    exact Bool.false_ne_true (optimize_flag _ _ _ _ h)

/-- C9, as amended : `Optimize` does not read what the solver call reports. For `n ≥ 1` (with `6
n` in the range of `int`) and every solver call that leaves `3 n` entries in its solution array,
whether it reports success or failure, `Optimize` ends and returns `true`; and no run of
`Optimize` returns `false`. -/
theorem Optimize_returns_true (DenseToCSCMatrix : MatrixXd → CSCMatrix)
    (OptimizeWithOsqp : Nat → Nat → CSCMatrix → CSCMatrix → List c_float → List c_float →
      List c_float → OsqpOutcome)
    (p : Fem1dExpandedQpProblem) (hlen : p.num_var_ = p.x_bounds_.length)
    (h1 : 1 ≤ p.num_var_) (hn : 6 * p.num_var_ < 2 ^ 31)
    (hsol : ∀ P A lower upper q,
      (OptimizeWithOsqp (3 * p.num_var_) lower.length P A lower upper q).solution_x.length =
        3 * p.num_var_) :
    (∃ p', Optimize DenseToCSCMatrix OptimizeWithOsqp p = .ok (true, p')) ∧
    ∀ r, Optimize DenseToCSCMatrix OptimizeWithOsqp p = .ok r → r.1 = true := by
  refine ⟨?_, fun r h => optimize_flag _ _ _ r h⟩
  obtain ⟨K, hK, _⟩ := kernel_built p hlen (by omega)
  obtain ⟨A, lower, upper, hA, _⟩ := dense_closed_form p [] [] hlen h1 hn
  obtain ⟨q, hq, _⟩ := offset_built p [] (by omega)
  have hP : CalcualteKernel DenseToCSCMatrix p = .ok (DenseToCSCMatrix K) := by
    unfold CalcualteKernel; rw [hK]; rfl
  have hC : CalcualteAffineConstraint DenseToCSCMatrix p [] [] =
      .ok (DenseToCSCMatrix A, lower, upper) := by
    unfold CalcualteAffineConstraint; rw [hA]; rfl
  obtain ⟨p', h, _⟩ := optimize_decodes DenseToCSCMatrix OptimizeWithOsqp p hlen h1 hn
    (OptimizeWithOsqp (3 * p.num_var_) lower.length (DenseToCSCMatrix K) (DenseToCSCMatrix A)
      lower upper q).solution_x (hsol _ _ _ _ _)
    (by
      intro P A' lower' upper' q' e1 e2 e3
      rw [hP] at e1
      rw [hC] at e2
      rw [hq] at e3
      simp only [Except.ok.injEq, Prod.mk.injEq] at e1 e2 e3
      obtain ⟨rfl, rfl, rfl⟩ := e2
      subst e1 e3
      rfl)
  exact ⟨p', h⟩

theorem Optimize_returns_true_witness :
    (scenario_problem.num_var_ = scenario_problem.x_bounds_.length ∧
      1 ≤ scenario_problem.num_var_ ∧ 6 * scenario_problem.num_var_ < 2 ^ 31 ∧
      ∀ P A lower upper q,
        (failing_osqp (3 * scenario_problem.num_var_) lower.length P A lower upper
          q).solution_x.length = 3 * scenario_problem.num_var_) ∧
    (∃ p', Optimize dense_to_csc failing_osqp scenario_problem = .ok (true, p')) ∧
    ∀ r, Optimize dense_to_csc failing_osqp scenario_problem = .ok r → r.1 = true :=
  ⟨⟨by decide, by decide, by decide, fun _ _ _ _ _ => List.length_replicate _ _⟩,
    Optimize_returns_true dense_to_csc failing_osqp scenario_problem (by decide) (by decide)
      (by decide) (fun _ _ _ _ _ => List.length_replicate _ _)⟩

/-- C10 : for `n ≥ 1` (with `6 n` in the range of `int`) and a solver solution vector `s` of
length `3 n`, `Optimize` ends with `true`, the three output sequences have length `n`, `x_[i] =
s[i]` for `i < n`, and `x_derivative_[i] = s[n + i]` and `x_second_order_derivative_[i] = s[2 n
+ i]` for `i < n - 1`. -/
theorem Optimize_decodes_solution (DenseToCSCMatrix : MatrixXd → CSCMatrix)
    (OptimizeWithOsqp : Nat → Nat → CSCMatrix → CSCMatrix → List c_float → List c_float →
      List c_float → OsqpOutcome)
    (p : Fem1dExpandedQpProblem) (hlen : p.num_var_ = p.x_bounds_.length)
    (h1 : 1 ≤ p.num_var_) (hn : 6 * p.num_var_ < 2 ^ 31) (s : List c_float)
    (hs : s.length = 3 * p.num_var_)
    (hsol : ∀ P A lower upper q, CalcualteKernel DenseToCSCMatrix p = .ok P →
      CalcualteAffineConstraint DenseToCSCMatrix p [] [] = .ok (A, lower, upper) →
      CalcualteOffset p [] = .ok q →
      (OptimizeWithOsqp (3 * p.num_var_) lower.length P A lower upper q).solution_x = s) :
    ∃ p', Optimize DenseToCSCMatrix OptimizeWithOsqp p = .ok (true, p') ∧
      p'.x_.length = p.num_var_ ∧ p'.x_derivative_.length = p.num_var_ ∧
      p'.x_second_order_derivative_.length = p.num_var_ ∧
      (∀ i, i < p.num_var_ → p'.x_[i]? = s[i]?) ∧
      (∀ i, i < p.num_var_ - 1 → p'.x_derivative_[i]? = s[p.num_var_ + i]?) ∧
      (∀ i, i < p.num_var_ - 1 →
        p'.x_second_order_derivative_[i]? = s[2 * p.num_var_ + i]?) := by
  obtain ⟨p', h, a, b, c, d, e, f, _⟩ :=
    optimize_decodes DenseToCSCMatrix OptimizeWithOsqp p hlen h1 hn s hs hsol
  exact ⟨p', h, a, b, c, d, e, f⟩

theorem Optimize_decodes_solution_witness :
    (scenario_problem.num_var_ = scenario_problem.x_bounds_.length ∧
      1 ≤ scenario_problem.num_var_ ∧ 6 * scenario_problem.num_var_ < 2 ^ 31 ∧
      [1, 2, 3, 4, 5, 6, 7, 8, (9 : c_float)].length = 3 * scenario_problem.num_var_ ∧
      ∀ P A lower upper q, CalcualteKernel dense_to_csc scenario_problem = .ok P →
        CalcualteAffineConstraint dense_to_csc scenario_problem [] [] =
          .ok (A, lower, upper) →
        CalcualteOffset scenario_problem [] = .ok q →
        (constant_osqp [1, 2, 3, 4, 5, 6, 7, 8, 9] (3 * scenario_problem.num_var_)
          lower.length P A lower upper q).solution_x = [1, 2, 3, 4, 5, 6, 7, 8, 9]) ∧
    ∃ p', Optimize dense_to_csc (constant_osqp [1, 2, 3, 4, 5, 6, 7, 8, 9]) scenario_problem =
        .ok (true, p') ∧
      p'.x_.length = scenario_problem.num_var_ ∧
      p'.x_derivative_.length = scenario_problem.num_var_ ∧
      p'.x_second_order_derivative_.length = scenario_problem.num_var_ ∧
      (∀ i, i < scenario_problem.num_var_ →
        p'.x_[i]? = [1, 2, 3, 4, 5, 6, 7, 8, (9 : c_float)][i]?) ∧
      (∀ i, i < scenario_problem.num_var_ - 1 →
        p'.x_derivative_[i]? =
          [1, 2, 3, 4, 5, 6, 7, 8, (9 : c_float)][scenario_problem.num_var_ + i]?) ∧
      (∀ i, i < scenario_problem.num_var_ - 1 →
        p'.x_second_order_derivative_[i]? =
          [1, 2, 3, 4, 5, 6, 7, 8, (9 : c_float)][2 * scenario_problem.num_var_ + i]?) :=
  ⟨⟨by decide, by decide, by decide, by decide, fun _ _ _ _ _ _ _ _ => rfl⟩,
    Optimize_decodes_solution dense_to_csc (constant_osqp [1, 2, 3, 4, 5, 6, 7, 8, 9])
      scenario_problem (by decide) (by decide) (by decide) [1, 2, 3, 4, 5, 6, 7, 8, 9]
      (by decide) (fun _ _ _ _ _ _ _ _ => rfl)⟩

/-- C11 : for `n ≥ 1` (with `6 n` in the range of `int`) and a solver solution vector `s` of
length `3 n`, whatever its entries, `Optimize` ends with `true`, the last entry of
`x_derivative_` and the last entry of `x_second_order_derivative_` are `0`, and the last entry
of `x_` is `s[n - 1]`. -/
theorem Optimize_zeroes_last_entries (DenseToCSCMatrix : MatrixXd → CSCMatrix)
    (OptimizeWithOsqp : Nat → Nat → CSCMatrix → CSCMatrix → List c_float → List c_float →
      List c_float → OsqpOutcome)
    (p : Fem1dExpandedQpProblem) (hlen : p.num_var_ = p.x_bounds_.length)
    (h1 : 1 ≤ p.num_var_) (hn : 6 * p.num_var_ < 2 ^ 31) (s : List c_float)
    (hs : s.length = 3 * p.num_var_)
    (hsol : ∀ P A lower upper q, CalcualteKernel DenseToCSCMatrix p = .ok P →
      CalcualteAffineConstraint DenseToCSCMatrix p [] [] = .ok (A, lower, upper) →
      CalcualteOffset p [] = .ok q →
      (OptimizeWithOsqp (3 * p.num_var_) lower.length P A lower upper q).solution_x = s) :
    ∃ p', Optimize DenseToCSCMatrix OptimizeWithOsqp p = .ok (true, p') ∧
      p'.x_derivative_.length = p.num_var_ ∧
      p'.x_second_order_derivative_.length = p.num_var_ ∧
      p'.x_.length = p.num_var_ ∧
      p'.x_derivative_.getLast? = some 0 ∧
      p'.x_second_order_derivative_.getLast? = some 0 ∧
      p'.x_.getLast? = s[p.num_var_ - 1]? := by
  obtain ⟨p', h, lx, ld, ldd, hx, _, _, hd, hdd⟩ :=
    optimize_decodes DenseToCSCMatrix OptimizeWithOsqp p hlen h1 hn s hs hsol
  refine ⟨p', h, ld, ldd, lx, ?_, ?_, ?_⟩
  · rw [List.getLast?_eq_getElem?, ld]; exact hd
  · rw [List.getLast?_eq_getElem?, ldd]; exact hdd
  · rw [List.getLast?_eq_getElem?, lx]; exact hx _ (by omega)

theorem Optimize_zeroes_last_entries_witness :
    (scenario_problem.num_var_ = scenario_problem.x_bounds_.length ∧
      1 ≤ scenario_problem.num_var_ ∧ 6 * scenario_problem.num_var_ < 2 ^ 31 ∧
      [1, 2, 3, 4, 5, 6, 7, 8, (9 : c_float)].length = 3 * scenario_problem.num_var_ ∧
      ∀ P A lower upper q, CalcualteKernel dense_to_csc scenario_problem = .ok P →
        CalcualteAffineConstraint dense_to_csc scenario_problem [] [] =
          .ok (A, lower, upper) →
        CalcualteOffset scenario_problem [] = .ok q →
        (constant_osqp [1, 2, 3, 4, 5, 6, 7, 8, 9] (3 * scenario_problem.num_var_)
          lower.length P A lower upper q).solution_x = [1, 2, 3, 4, 5, 6, 7, 8, 9]) ∧
    ∃ p', Optimize dense_to_csc (constant_osqp [1, 2, 3, 4, 5, 6, 7, 8, 9]) scenario_problem =
        .ok (true, p') ∧
      p'.x_derivative_.length = scenario_problem.num_var_ ∧
      p'.x_second_order_derivative_.length = scenario_problem.num_var_ ∧
      p'.x_.length = scenario_problem.num_var_ ∧
      p'.x_derivative_.getLast? = some 0 ∧
      p'.x_second_order_derivative_.getLast? = some 0 ∧
      p'.x_.getLast? =
        [1, 2, 3, 4, 5, 6, 7, 8, (9 : c_float)][scenario_problem.num_var_ - 1]? :=
  ⟨⟨by decide, by decide, by decide, by decide, fun _ _ _ _ _ _ _ _ => rfl⟩,
    Optimize_zeroes_last_entries dense_to_csc (constant_osqp [1, 2, 3, 4, 5, 6, 7, 8, 9])
      scenario_problem (by decide) (by decide) (by decide) [1, 2, 3, 4, 5, 6, 7, 8, 9]
      (by decide) (fun _ _ _ _ _ _ _ _ => rfl)⟩

/-! ## Consequences of the closed form (claims C12, C13 and C16) -/

theorem dense_closed (p : Fem1dExpandedQpProblem) (lower_bounds upper_bounds : List c_float)
    (hlen : p.num_var_ = p.x_bounds_.length) (h1 : 1 ≤ p.num_var_)
    (hn : 6 * p.num_var_ < 2 ^ 31) :
    ∃ A lower upper,
      CalcualteAffineConstraint.dense p lower_bounds upper_bounds = .ok (A, lower, upper) ∧
      ClosedForm p A lower upper := by
  obtain ⟨A, lower, upper, h, a, b, c, d, e, f, g⟩ :=
    dense_closed_form p lower_bounds upper_bounds hlen h1 hn
  exact ⟨A, lower, upper, h, ⟨a, b, c, d, e, f, g⟩⟩

/-- The initial-condition row `k` (`k = 0, 1, 2`) in closed form. -/
theorem closed_init_row (p : Fem1dExpandedQpProblem) (A : MatrixXd) (lower upper : List c_float)
    (h : ClosedForm p A lower upper) (h1 : 1 ≤ p.num_var_) (k : Fin 3) :
    (∀ c, A.coeff (3 * (p.num_var_ - 1) + k.val) c = if c = k.val * p.num_var_ then 1 else 0) ∧
    lower[3 * (p.num_var_ - 1) + k.val]? = some (p.x_init_ k) ∧
    upper[3 * (p.num_var_ - 1) + k.val]? = some (p.x_init_ k) := by
  have hk := k.isLt
  have hr : 3 * (p.num_var_ - 1) + k.val < 6 * p.num_var_ := by omega
  have g1 : ¬ (3 * (p.num_var_ - 1) + k.val < p.num_var_ - 1) := by omega
  have g2 : ¬ (3 * (p.num_var_ - 1) + k.val < 2 * (p.num_var_ - 1)) := by omega
  have g3 : ¬ (3 * (p.num_var_ - 1) + k.val < 3 * (p.num_var_ - 1)) := by omega
  have hL := h.lower_eq _ hr
  have hU := h.upper_eq _ hr
  have hC := fun c => h.coeff _ c hr
  simp only [row_lower, row_upper, if_neg g1, if_neg g3] at hL hU
  simp only [row_coeff, if_neg g1, if_neg g2, if_neg g3] at hC
  match k with
  | ⟨0, _⟩ => exact ⟨fun c => by simpa using hC c, by simpa using hL, by simpa using hU⟩
  | ⟨1, _⟩ => exact ⟨fun c => by simpa using hC c, by simpa using hL, by simpa using hU⟩
  | ⟨2, _⟩ => exact ⟨fun c => by simpa using hC c, by simpa using hL, by simpa using hU⟩

/-- The value-range row of coordinate `j` (row `3 n + j`) in closed form. -/
theorem closed_range_row (p : Fem1dExpandedQpProblem) (A : MatrixXd) (lower upper : List c_float)
    (h : ClosedForm p A lower upper) (h1 : 1 ≤ p.num_var_) (j : Nat)
    (hj : j < 3 * p.num_var_) :
    (∀ c, A.coeff (3 * p.num_var_ + j) c = if c = j then 1 else 0) ∧
    lower[3 * p.num_var_ + j]? =
      some (if j < p.num_var_ then (p.x_bounds_.getD j (0, 0)).1 else -LARGE_VALUE) ∧
    upper[3 * p.num_var_ + j]? =
      some (if j < p.num_var_ then (p.x_bounds_.getD j (0, 0)).2 else LARGE_VALUE) := by
  have hr : 3 * p.num_var_ + j < 6 * p.num_var_ := by omega
  have g1 : ¬ (3 * p.num_var_ + j < p.num_var_ - 1) := by omega
  have g2 : ¬ (3 * p.num_var_ + j < 2 * (p.num_var_ - 1)) := by omega
  have g3 : ¬ (3 * p.num_var_ + j < 3 * (p.num_var_ - 1)) := by omega
  have g4 : ¬ (3 * p.num_var_ + j = 3 * (p.num_var_ - 1)) := by omega
  have g5 : ¬ (3 * p.num_var_ + j = 3 * (p.num_var_ - 1) + 1) := by omega
  have g6 : ¬ (3 * p.num_var_ + j = 3 * (p.num_var_ - 1) + 2) := by omega
  have e : 3 * p.num_var_ + j - (3 * (p.num_var_ - 1) + 3) = j := by omega
  have hL := h.lower_eq _ hr
  have hU := h.upper_eq _ hr
  have hC := fun c => h.coeff _ c hr
  simp only [row_lower, row_upper, if_neg g1, if_neg g3, if_neg g4, if_neg g5, if_neg g6, e]
    at hL hU
  simp only [row_coeff, if_neg g1, if_neg g2, if_neg g3, if_neg g4, if_neg g5, if_neg g6, e]
    at hC
  exact ⟨hC, hL, hU⟩

/-- A feasible vector meets the initial condition `k` with equality. -/
theorem feasible_init (p : Fem1dExpandedQpProblem) (A : MatrixXd) (lower upper : List c_float)
    (h : ClosedForm p A lower upper) (h1 : 1 ≤ p.num_var_) (x : List c_float)
    (hx : Feasible A lower upper x) (k : Fin 3) :
    x.getD (k.val * p.num_var_) 0 = p.x_init_ k := by
  have hk := k.isLt
  obtain ⟨hC, hL, hU⟩ := closed_init_row p A lower upper h h1 k
  have hcol : k.val * p.num_var_ < A.cols := by
    rw [h.cols]
    have : k.val * p.num_var_ ≤ 2 * p.num_var_ := Nat.mul_le_mul_right _ (by omega)
    omega
  have v := hx.2 (3 * (p.num_var_ - 1) + k.val) (by rw [h.rows]; omega)
  unfold RowHolds at v
  rw [row_value_single A x _ _ hcol hC, getD_of_getElem? _ _ _ hL, getD_of_getElem? _ _ _ hU]
    at v
  exact le_antisymm v.2 v.1

/-- A feasible vector keeps coordinate `j` inside the bounds of its value-range row. -/
theorem feasible_range (p : Fem1dExpandedQpProblem) (A : MatrixXd) (lower upper : List c_float)
    (h : ClosedForm p A lower upper) (h1 : 1 ≤ p.num_var_) (x : List c_float)
    (hx : Feasible A lower upper x) (j : Nat) (hj : j < 3 * p.num_var_) :
    (if j < p.num_var_ then (p.x_bounds_.getD j (0, 0)).1 else -LARGE_VALUE) ≤ x.getD j 0 ∧
    x.getD j 0 ≤ (if j < p.num_var_ then (p.x_bounds_.getD j (0, 0)).2 else LARGE_VALUE) := by
  obtain ⟨hC, hL, hU⟩ := closed_range_row p A lower upper h h1 j hj
  have v := hx.2 (3 * p.num_var_ + j) (by rw [h.rows]; omega)
  unfold RowHolds at v
  rw [row_value_single A x _ j (by rw [h.cols]; exact hj) hC, getD_of_getElem? _ _ _ hL,
    getD_of_getElem? _ _ _ hU] at v
  exact v

/-- C12, as amended : for `n = 1` the three finite-difference loops make no trip, so no
jerk-rate or continuity row is produced, and the constraint matrix has `6` rows and `3`
columns: the `3` initial-condition rows (rows `0, 1, 2`) and `3` value-range rows (rows
`3, 4, 5`, one per coordinate: the position with the caller's bound pair, the derivative and
the second derivative with `-LARGE_VALUE` and `LARGE_VALUE`). -/
theorem single_sample_rows (p : Fem1dExpandedQpProblem)
    (lower_bounds upper_bounds : List c_float) (b : c_float × c_float)
    (hn1 : p.num_var_ = 1) (hb : p.x_bounds_ = [b]) :
    ∃ A lower upper,
      CalcualteAffineConstraint.dense p lower_bounds upper_bounds = .ok (A, lower, upper) ∧
      A.rows = 6 ∧ A.cols = 3 ∧ lower.length = 6 ∧ upper.length = 6 ∧
      (∀ (body : Nat → AffineState → Except Fault AffineState) (s : AffineState),
        forLoop (fun i => decide (size_add i 1 < p.num_var_)) body (p.num_var_ + 1) 0 s =
          .ok s) ∧
      (∀ k : Fin 3, (∀ c, A.coeff k.val c = if c = k.val then 1 else 0) ∧
        lower[k.val]? = some (p.x_init_ k) ∧ upper[k.val]? = some (p.x_init_ k)) ∧
      ((∀ c, A.coeff 3 c = if c = 0 then 1 else 0) ∧
        lower[3]? = some b.1 ∧ upper[3]? = some b.2) ∧
      (∀ j, 1 ≤ j → j < 3 → (∀ c, A.coeff (3 + j) c = if c = j then 1 else 0) ∧
        lower[3 + j]? = some (-LARGE_VALUE) ∧ upper[3 + j]? = some LARGE_VALUE) := by
  have hlen : p.num_var_ = p.x_bounds_.length := by rw [hn1, hb]; rfl
  obtain ⟨A, lower, upper, h, hcf⟩ :=
    dense_closed p lower_bounds upper_bounds hlen (by omega) (by rw [hn1]; decide)
  have hr := hcf.rows
  have hc := hcf.cols
  have hl := hcf.lower_length
  have hu := hcf.upper_length
  rw [hn1] at hr hc hl hu
  refine ⟨A, lower, upper, h, hr, hc, hl, hu, ?_, ?_, ?_, ?_⟩
  · intro body s
    rw [hn1]
    rfl
  · intro k
    have hk := closed_init_row p A lower upper hcf (by omega) k
    simp only [hn1, Nat.sub_self, Nat.mul_zero, Nat.zero_add, Nat.mul_one] at hk
    exact hk
  · have h0 := closed_range_row p A lower upper hcf (by omega) 0 (by omega)
    simp only [hn1, Nat.mul_one, Nat.add_zero, Nat.lt_one_iff, if_true, hb,
      List.getD_cons_zero] at h0
    exact h0
  · intro j hj1 hj3
    have hjr := closed_range_row p A lower upper hcf (by omega) j (by omega)
    have hnot : ¬ (j < 1) := by omega
    simp only [hn1, Nat.mul_one, if_neg hnot] at hjr
    exact hjr

theorem single_sample_rows_witness :
    (single_sample_problem.num_var_ = 1 ∧ single_sample_problem.x_bounds_ = [(-1, 1)]) ∧
    ∃ A lower upper,
      CalcualteAffineConstraint.dense single_sample_problem [] [] = .ok (A, lower, upper) ∧
      A.rows = 6 ∧ A.cols = 3 ∧ lower.length = 6 ∧ upper.length = 6 ∧
      (∀ (body : Nat → AffineState → Except Fault AffineState) (s : AffineState),
        forLoop (fun i => decide (size_add i 1 < single_sample_problem.num_var_)) body
          (single_sample_problem.num_var_ + 1) 0 s = .ok s) ∧
      (∀ k : Fin 3, (∀ c, A.coeff k.val c = if c = k.val then 1 else 0) ∧
        lower[k.val]? = some (single_sample_problem.x_init_ k) ∧
        upper[k.val]? = some (single_sample_problem.x_init_ k)) ∧
      ((∀ c, A.coeff 3 c = if c = 0 then 1 else 0) ∧
        lower[3]? = some ((-1, 1) : c_float × c_float).1 ∧
        upper[3]? = some ((-1, 1) : c_float × c_float).2) ∧
      (∀ j, 1 ≤ j → j < 3 → (∀ c, A.coeff (3 + j) c = if c = j then 1 else 0) ∧
        lower[3 + j]? = some (-LARGE_VALUE) ∧ upper[3 + j]? = some LARGE_VALUE) :=
  ⟨⟨rfl, rfl⟩, single_sample_rows single_sample_problem [] [] (-1, 1) rfl rfl⟩

/-- C12, as stated, fails : for the single-sample problem the matrix has `6` rows, not
`3 + 1`, and the rows `4` and `5` are value-range rows too (coefficient `1` at the columns
`1` and `2`, bounds `-2` and `2`). -/
theorem single_sample_rows_counterexample :
    ∃ A lower upper,
      CalcualteAffineConstraint.dense single_sample_problem [] [] = .ok (A, lower, upper) ∧
      A.rows = 6 ∧ A.rows ≠ 3 + 1 ∧
      A.coeff 4 1 = 1 ∧ lower[4]? = some (-2 : c_float) ∧ upper[4]? = some (2 : c_float) ∧
      A.coeff 5 2 = 1 ∧ lower[5]? = some (-2 : c_float) ∧ upper[5]? = some (2 : c_float) := by
  obtain ⟨A, lower, upper, h, hcf⟩ :=
    dense_closed single_sample_problem [] [] (by decide) (by decide) (by decide)
  have hr : A.rows = 6 := hcf.rows
  obtain ⟨c4, l4, u4⟩ := closed_range_row single_sample_problem A lower upper hcf
    (by decide) 1 (by decide)
  obtain ⟨c5, l5, u5⟩ := closed_range_row single_sample_problem A lower upper hcf
    (by decide) 2 (by decide)
  have e4 : 3 * single_sample_problem.num_var_ + 1 = 4 := rfl
  have e5 : 3 * single_sample_problem.num_var_ + 2 = 5 := rfl
  have n1 : ¬ (1 < single_sample_problem.num_var_) := by decide
  have n2 : ¬ (2 < single_sample_problem.num_var_) := by decide
  rw [e4, if_neg n1] at l4 u4
  rw [e5, if_neg n2] at l5 u5
  rw [e4] at c4
  rw [e5] at c5
  refine ⟨A, lower, upper, h, hr, by rw [hr]; decide, ?_, l4, u4, ?_, l5, u5⟩
  · rw [c4 1, if_pos rfl]
  · rw [c5 2, if_pos rfl]

/-- C13 : for `n ≥ 1` (with `6 n` in the range of `int`), when the initial value `x_init_[0]`
lies outside the bound pair of sample `0`, the constraint system built by
`CalcualteAffineConstraint` is infeasible : no vector satisfies `lower ≤ A · x ≤ upper`. -/
theorem initial_value_outside_bound_infeasible (p : Fem1dExpandedQpProblem)
    (lower_bounds upper_bounds : List c_float)
    (hlen : p.num_var_ = p.x_bounds_.length) (h1 : 1 ≤ p.num_var_)
    (hn : 6 * p.num_var_ < 2 ^ 31) (b : c_float × c_float)
    (hb : p.x_bounds_[0]? = some b) (hout : p.x_init_ 0 < b.1 ∨ b.2 < p.x_init_ 0) :
    ∃ A lower upper,
      CalcualteAffineConstraint.dense p lower_bounds upper_bounds = .ok (A, lower, upper) ∧
      ∀ x : List c_float, ¬ Feasible A lower upper x := by
  obtain ⟨A, lower, upper, h, hcf⟩ := dense_closed p lower_bounds upper_bounds hlen h1 hn
  refine ⟨A, lower, upper, h, ?_⟩
  intro x hx
  have hi := feasible_init p A lower upper hcf h1 x hx 0
  have hr := feasible_range p A lower upper hcf h1 x hx 0 (by omega)
  have hpos : 0 < p.num_var_ := by omega
  have hbd : p.x_bounds_.getD 0 (0, 0) = b := by
    simp [List.getD, hb]
  simp only [Fin.val_zero, Nat.zero_mul] at hi
  rw [if_pos hpos, if_pos hpos, hbd, hi] at hr
  rcases hout with ho | ho
  · exact absurd hr.1 (not_le.mpr ho)
  · exact absurd hr.2 (not_le.mpr ho)

theorem initial_value_outside_bound_infeasible_witness :
    (single_sample_problem.num_var_ = single_sample_problem.x_bounds_.length ∧
      1 ≤ single_sample_problem.num_var_ ∧ 6 * single_sample_problem.num_var_ < 2 ^ 31 ∧
      single_sample_problem.x_bounds_[0]? = some ((-1, 1) : c_float × c_float) ∧
      (single_sample_problem.x_init_ 0 < ((-1, 1) : c_float × c_float).1 ∨
        ((-1, 1) : c_float × c_float).2 < single_sample_problem.x_init_ 0)) ∧
    ∃ A lower upper,
      CalcualteAffineConstraint.dense single_sample_problem [] [] = .ok (A, lower, upper) ∧
      ∀ x : List c_float, ¬ Feasible A lower upper x :=
  ⟨⟨by decide, by decide, by decide, rfl, Or.inr (by norm_num [single_sample_problem])⟩,
    initial_value_outside_bound_infeasible single_sample_problem [] [] (by decide) (by decide)
      (by decide) (-1, 1) rfl (Or.inr (by norm_num [single_sample_problem]))⟩

/-- C16 : for `n ≥ 1` (with `6 n` in the range of `int`) and `n ≤ j < 3 n`, row `3 n + j`
selects coordinate `j` with the bounds `-LARGE_VALUE` and `LARGE_VALUE`, where
`LARGE_VALUE = 2`; hence every feasible vector has `-2 ≤ x[j] ≤ 2` for these `j`, and a
configuration whose initial derivative or initial second derivative has magnitude greater
than `2` has no feasible vector. -/
theorem derivative_coordinates_bounded (p : Fem1dExpandedQpProblem)
    (lower_bounds upper_bounds : List c_float)
    (hlen : p.num_var_ = p.x_bounds_.length) (h1 : 1 ≤ p.num_var_)
    (hn : 6 * p.num_var_ < 2 ^ 31) :
    ∃ A lower upper,
      CalcualteAffineConstraint.dense p lower_bounds upper_bounds = .ok (A, lower, upper) ∧
      LARGE_VALUE = 2 ∧
      (∀ j, p.num_var_ ≤ j → j < 3 * p.num_var_ →
        (∀ c, A.coeff (3 * p.num_var_ + j) c = if c = j then 1 else 0) ∧
        lower[3 * p.num_var_ + j]? = some (-LARGE_VALUE) ∧
        upper[3 * p.num_var_ + j]? = some LARGE_VALUE) ∧
      (∀ x : List c_float, Feasible A lower upper x →
        ∀ j, p.num_var_ ≤ j → j < 3 * p.num_var_ → -2 ≤ x.getD j 0 ∧ x.getD j 0 ≤ 2) ∧
      ((2 < |p.x_init_ 1| ∨ 2 < |p.x_init_ 2|) →
        ∀ x : List c_float, ¬ Feasible A lower upper x) := by
  obtain ⟨A, lower, upper, h, hcf⟩ := dense_closed p lower_bounds upper_bounds hlen h1 hn
  have hbound : ∀ x : List c_float, Feasible A lower upper x →
      ∀ j, p.num_var_ ≤ j → j < 3 * p.num_var_ → -2 ≤ x.getD j 0 ∧ x.getD j 0 ≤ 2 := by
    intro x hx j hj1 hj2
    have hr := feasible_range p A lower upper hcf h1 x hx j hj2
    rw [if_neg (by omega), if_neg (by omega)] at hr
    exact hr
  refine ⟨A, lower, upper, h, rfl, ?_, hbound, ?_⟩
  · intro j hj1 hj2
    have hr := closed_range_row p A lower upper hcf h1 j hj2
    rw [if_neg (by omega), if_neg (by omega)] at hr
    exact hr
  · intro hbig x hx
    have i1 := feasible_init p A lower upper hcf h1 x hx 1
    have i2 := feasible_init p A lower upper hcf h1 x hx 2
    simp only [Fin.val_one, Fin.val_two, Nat.one_mul] at i1 i2
    have b1 := hbound x hx p.num_var_ (le_refl _) (by omega)
    have b2 := hbound x hx (2 * p.num_var_) (by omega) (by omega)
    rw [i1] at b1
    rw [i2] at b2
    rcases hbig with hb | hb
    · exact absurd (abs_le.mpr b1) (not_le.mpr hb)
    · exact absurd (abs_le.mpr b2) (not_le.mpr hb)

theorem derivative_coordinates_bounded_witness :
    (scenario_problem.num_var_ = scenario_problem.x_bounds_.length ∧
      1 ≤ scenario_problem.num_var_ ∧ 6 * scenario_problem.num_var_ < 2 ^ 31) ∧
    ∃ A lower upper,
      CalcualteAffineConstraint.dense scenario_problem [] [] = .ok (A, lower, upper) ∧
      LARGE_VALUE = 2 ∧
      (∀ j, scenario_problem.num_var_ ≤ j → j < 3 * scenario_problem.num_var_ →
        (∀ c, A.coeff (3 * scenario_problem.num_var_ + j) c = if c = j then 1 else 0) ∧
        lower[3 * scenario_problem.num_var_ + j]? = some (-LARGE_VALUE) ∧
        upper[3 * scenario_problem.num_var_ + j]? = some LARGE_VALUE) ∧
      (∀ x : List c_float, Feasible A lower upper x →
        ∀ j, scenario_problem.num_var_ ≤ j → j < 3 * scenario_problem.num_var_ →
          -2 ≤ x.getD j 0 ∧ x.getD j 0 ≤ 2) ∧
      ((2 < |scenario_problem.x_init_ 1| ∨ 2 < |scenario_problem.x_init_ 2|) →
        ∀ x : List c_float, ¬ Feasible A lower upper x) :=
  ⟨⟨by decide, by decide, by decide⟩,
    derivative_coordinates_bounded scenario_problem [] [] (by decide) (by decide) (by decide)⟩

/-! ## The empty problem (claim C17) -/

/-- For `n = 0` the builder stops at the matrix assignment of the first initial-condition
row. -/
theorem dense_empty (p : Fem1dExpandedQpProblem) (lower_bounds upper_bounds : List c_float)
    (hn0 : p.num_var_ = 0) (hb : p.x_bounds_ = []) :
    CalcualteAffineConstraint.dense p lower_bounds upper_bounds = .error .eigen_assert := by
  unfold CalcualteAffineConstraint.dense
  rw [hn0, hb]
  rfl

/-- C17, as stated, fails : for the problem without samples the builder stops at the
assignment `affine_constraint(0, 0) = 1.0` of line 176, outside the empty matrix; the fault
is not the `at(0)` of a bound sequence, which the run does not reach. -/
theorem empty_problem_counterexample :
    CalcualteAffineConstraint.dense empty_problem [] [] = .error .eigen_assert ∧
    CalcualteAffineConstraint.dense empty_problem [] [] ≠ .error .out_of_range := by
  have h := dense_empty empty_problem [] [] rfl rfl
  refine ⟨h, ?_⟩
  rw [h]
  intro e
  cases e

/-- C17, as amended : for `n = 0` (`num_var_ = 0`, no bound pair) the builder does not return
an empty problem. The subtraction `num_var_ - 1` wraps to `2 ^ 64 - 1`, so that
`kNumConstraint = 0`; the matrix is `0 × 0` and the bound sequences are empty; the three
finite-difference loops make no trip; the first initial-condition row then assigns
`affine_constraint(0, 0)` outside the empty matrix (line 176), where the run stops; the
`at(0)` of line 177 is outside the empty bound sequences as well. -/
theorem empty_problem_faults (p : Fem1dExpandedQpProblem)
    (lower_bounds upper_bounds : List c_float) (hn0 : p.num_var_ = 0) (hb : p.x_bounds_ = []) :
    size_sub p.num_var_ 1 = 2 ^ 64 - 1 ∧
    size_add (size_add (size_mul 3 p.x_bounds_.length) (size_mul 3 (size_sub p.num_var_ 1))) 3
      = 0 ∧
    (∃ m, MatrixXd.Zero (to_Index ((0 : Nat) : Int)) (to_Index ((0 : Nat) : Int)) = .ok m ∧
      m.rows = 0 ∧ m.cols = 0) ∧
    resize lower_bounds 0 = [] ∧ resize upper_bounds 0 = [] ∧
    (∀ (body : Nat → AffineState → Except Fault AffineState) (s : AffineState),
      forLoop (fun i => decide (size_add i 1 < p.num_var_)) body (p.num_var_ + 1) 0 s =
        .ok s) ∧
    (∀ s : AffineState, s.affine_constraint.rows = 0 →
      CalcualteAffineConstraint.init_row p 0 0 s = .error .eigen_assert) ∧
    (∀ v : c_float, assign_at [] (to_size_t 0) v = .error .out_of_range) ∧
    CalcualteAffineConstraint.dense p lower_bounds upper_bounds = .error .eigen_assert := by
  refine ⟨?_, ?_, ⟨_, rfl, rfl, rfl⟩, ?_, ?_, ?_, ?_, ?_,
    dense_empty p lower_bounds upper_bounds hn0 hb⟩
  · rw [hn0]; rfl
  · rw [hn0, hb]; rfl
  · simp [resize]
  · simp [resize]
  · intro body s
    rw [hn0]
    rfl
  · intro s hs
    have hno : ¬ (0 ≤ s.constraint_index ∧
        s.constraint_index < (s.affine_constraint.rows : Int) ∧ (0 : Int) ≤ 0 ∧
        (0 : Int) < (s.affine_constraint.cols : Int)) := by
      rw [hs]; omega
    unfold CalcualteAffineConstraint.init_row MatrixXd.assign
    simp only [if_neg hno]
    rfl
  · intro v
    rfl

theorem empty_problem_faults_witness :
    (empty_problem.num_var_ = 0 ∧ empty_problem.x_bounds_ = []) ∧
    size_sub empty_problem.num_var_ 1 = 2 ^ 64 - 1 ∧
    size_add (size_add (size_mul 3 empty_problem.x_bounds_.length)
      (size_mul 3 (size_sub empty_problem.num_var_ 1))) 3 = 0 ∧
    (∃ m, MatrixXd.Zero (to_Index ((0 : Nat) : Int)) (to_Index ((0 : Nat) : Int)) = .ok m ∧
      m.rows = 0 ∧ m.cols = 0) ∧
    resize [3] 0 = [] ∧ resize [4, 5] 0 = [] ∧
    (∀ (body : Nat → AffineState → Except Fault AffineState) (s : AffineState),
      forLoop (fun i => decide (size_add i 1 < empty_problem.num_var_)) body
        (empty_problem.num_var_ + 1) 0 s = .ok s) ∧
    (∀ s : AffineState, s.affine_constraint.rows = 0 →
      CalcualteAffineConstraint.init_row empty_problem 0 0 s = .error .eigen_assert) ∧
    (∀ v : c_float, assign_at [] (to_size_t 0) v = .error .out_of_range) ∧
    CalcualteAffineConstraint.dense empty_problem [3] [4, 5] = .error .eigen_assert :=
  ⟨⟨rfl, rfl⟩, empty_problem_faults empty_problem [3] [4, 5] rfl rfl⟩

/-! ## Index safety of the constraint builder (claim C15) -/

theorem forLoop_trace_invariant {σ α : Type} (cond : Nat → Bool)
    (body : Nat → σ → Except Fault σ) (obs : σ → α) (f : Nat → α)
    (bound : Nat) (I : Nat → σ → Prop) (hbound : bound < 2 ^ 64)
    (hcond : ∀ i, i < bound → cond i = true) (hstop : cond bound = false)
    (hbody : ∀ i s, i < bound → I i s → ∃ s', body i s = .ok s' ∧ I (i + 1) s')
    (hobs : ∀ i s, i < bound → I i s → obs s = f i) :
    ∀ fuel i s, i ≤ bound → bound - i < fuel → I i s →
      forLoop_trace cond body obs fuel i s = (List.range' i (bound - i)).map f := by
  intro fuel
  induction fuel with
  | zero => intro i s _ h; omega
  | succ fuel ih =>
    intro i s hi hfuel hI
    rcases Nat.lt_or_ge i bound with hlt | hge
    · obtain ⟨s1, hs1, hI1⟩ := hbody i s hlt hI
      have hstep : size_add i 1 = i + 1 := size_add_eq _ _ (by omega)
      have hlen : bound - i = (bound - (i + 1)) + 1 := by omega
      simp only [forLoop_trace, hcond i hlt, if_true, hs1, hstep]
      rw [ih (i + 1) s1 (by omega) (by omega) hI1, hlen, List.range'_succ, List.map_cons,
        hobs i s hlt hI]
    · have hib : i = bound := by omega
      subst hib
      simp [forLoop_trace, hstop]

theorem assign_ok (m m' : MatrixXd) (r c : Int) (v : c_float) (h : m.assign r c v = .ok m') :
    (0 ≤ r ∧ r < (m.rows : Int) ∧ 0 ≤ c ∧ c < (m.cols : Int)) ∧ SameOffRow r.toNat m m' := by
  unfold MatrixXd.assign at h
  by_cases hc : 0 ≤ r ∧ r < (m.rows : Int) ∧ 0 ≤ c ∧ c < (m.cols : Int)
  · rw [if_pos hc] at h
    simp only [Except.ok.injEq] at h
    subst h
    refine ⟨hc, rfl, rfl, ?_⟩
    intro r' c' hr
    simp [hr]
  · rw [if_neg hc] at h
    cases h

theorem assign_at_ok (v v' : List c_float) (i : Nat) (x : c_float)
    (h : assign_at v i x = .ok v') :
    i < v.length ∧ v'.length = v.length ∧ ∀ j, j ≠ i → v'[j]? = v[j]? := by
  unfold assign_at at h
  by_cases hc : i < v.length
  · rw [if_pos hc] at h
    simp only [Except.ok.injEq] at h
    subst h
    refine ⟨hc, by simp, ?_⟩
    intro j hj
    rw [List.getElem?_set_ne (fun e => hj e.symm)]
  · rw [if_neg hc] at h
    cases h

theorem SameOffRow.trans {k : Nat} {m m1 m2 : MatrixXd} (h1 : SameOffRow k m m1)
    (h2 : SameOffRow k m1 m2) : SameOffRow k m m2 :=
  ⟨h2.1.trans h1.1, h2.2.1.trans h1.2.1, fun r c hr => (h2.2.2 r c hr).trans (h1.2.2 r c hr)⟩

theorem writes_own_row_mk (s : AffineState) (m : MatrixXd) (lo up : List c_float)
    (vlo vup : c_float)
    (hrow : 0 ≤ s.constraint_index ∧ s.constraint_index < (s.affine_constraint.rows : Int))
    (hm : SameOffRow s.constraint_index.toNat s.affine_constraint m)
    (hlo : assign_at s.lower_bounds (to_size_t s.constraint_index) vlo = .ok lo)
    (hup : assign_at s.upper_bounds (to_size_t s.constraint_index) vup = .ok up) :
    WritesOwnRow s { affine_constraint := m, lower_bounds := lo, upper_bounds := up,
                     constraint_index := to_int (s.constraint_index + 1) } := by
  obtain ⟨l1, l2, l3⟩ := assign_at_ok _ _ _ _ hlo
  obtain ⟨u1, u2, u3⟩ := assign_at_ok _ _ _ _ hup
  exact ⟨hrow.1, hrow.2, l1, u1, hm, l2, u2, rfl, l3, u3⟩

theorem jerk_body_writes_own_row (p : Fem1dExpandedQpProblem) (pprime_offset : Int) (i : Nat)
    (s s' : AffineState)
    (h : CalcualteAffineConstraint.jerk_body p pprime_offset i s = .ok s') :
    WritesOwnRow s s' := by
  unfold CalcualteAffineConstraint.jerk_body at h
  simp only [] at h
  obtain ⟨m1, h1, h⟩ := bind_eq_ok _ _ _ h
  obtain ⟨m2, h2, h⟩ := bind_eq_ok _ _ _ h
  obtain ⟨lo, h3, h⟩ := bind_eq_ok _ _ _ h
  obtain ⟨up, h4, h⟩ := bind_eq_ok _ _ _ h
  simp only [Except.ok.injEq] at h
  subst h
  obtain ⟨r1, o1⟩ := assign_ok _ _ _ _ _ h1
  obtain ⟨_, o2⟩ := assign_ok _ _ _ _ _ h2
  exact writes_own_row_mk s m2 lo up _ _ ⟨r1.1, r1.2.1⟩ (o1.trans o2) h3 h4

theorem derivative_body_writes_own_row (p : Fem1dExpandedQpProblem)
    (prime_offset pprime_offset : Int) (i : Nat) (s s' : AffineState)
    (h : CalcualteAffineConstraint.derivative_body p prime_offset pprime_offset i s = .ok s') :
    WritesOwnRow s s' := by
  unfold CalcualteAffineConstraint.derivative_body at h
  simp only [] at h
  obtain ⟨m1, h1, h⟩ := bind_eq_ok _ _ _ h
  obtain ⟨m2, h2, h⟩ := bind_eq_ok _ _ _ h
  obtain ⟨m3, h3, h⟩ := bind_eq_ok _ _ _ h
  obtain ⟨m4, h4, h⟩ := bind_eq_ok _ _ _ h
  obtain ⟨lo, h5, h⟩ := bind_eq_ok _ _ _ h
  obtain ⟨up, h6, h⟩ := bind_eq_ok _ _ _ h
  simp only [Except.ok.injEq] at h
  subst h
  obtain ⟨r1, o1⟩ := assign_ok _ _ _ _ _ h1
  obtain ⟨_, o2⟩ := assign_ok _ _ _ _ _ h2
  obtain ⟨_, o3⟩ := assign_ok _ _ _ _ _ h3
  obtain ⟨_, o4⟩ := assign_ok _ _ _ _ _ h4
  exact writes_own_row_mk s m4 lo up _ _ ⟨r1.1, r1.2.1⟩
    (((o1.trans o2).trans o3).trans o4) h5 h6

theorem position_body_writes_own_row (p : Fem1dExpandedQpProblem)
    (prime_offset pprime_offset : Int) (i : Nat) (s s' : AffineState)
    (h : CalcualteAffineConstraint.position_body p prime_offset pprime_offset i s = .ok s') :
    WritesOwnRow s s' := by
  unfold CalcualteAffineConstraint.position_body at h
  simp only [] at h
  obtain ⟨m1, h1, h⟩ := bind_eq_ok _ _ _ h
  obtain ⟨m2, h2, h⟩ := bind_eq_ok _ _ _ h
  obtain ⟨m3, h3, h⟩ := bind_eq_ok _ _ _ h
  obtain ⟨m4, h4, h⟩ := bind_eq_ok _ _ _ h
  obtain ⟨m5, h5, h⟩ := bind_eq_ok _ _ _ h
  obtain ⟨lo, h6, h⟩ := bind_eq_ok _ _ _ h
  obtain ⟨up, h7, h⟩ := bind_eq_ok _ _ _ h
  simp only [Except.ok.injEq] at h
  subst h
  obtain ⟨r1, o1⟩ := assign_ok _ _ _ _ _ h1
  obtain ⟨_, o2⟩ := assign_ok _ _ _ _ _ h2
  obtain ⟨_, o3⟩ := assign_ok _ _ _ _ _ h3
  obtain ⟨_, o4⟩ := assign_ok _ _ _ _ _ h4
  obtain ⟨_, o5⟩ := assign_ok _ _ _ _ _ h5
  exact writes_own_row_mk s m5 lo up _ _ ⟨r1.1, r1.2.1⟩
    ((((o1.trans o2).trans o3).trans o4).trans o5) h6 h7

theorem init_row_writes_own_row (p : Fem1dExpandedQpProblem) (col : Int) (k : Fin 3)
    (s s' : AffineState) (h : CalcualteAffineConstraint.init_row p col k s = .ok s') :
    WritesOwnRow s s' := by
  unfold CalcualteAffineConstraint.init_row at h
  simp only [] at h
  obtain ⟨m1, h1, h⟩ := bind_eq_ok _ _ _ h
  obtain ⟨lo, h2, h⟩ := bind_eq_ok _ _ _ h
  obtain ⟨up, h3, h⟩ := bind_eq_ok _ _ _ h
  simp only [Except.ok.injEq] at h
  subst h
  obtain ⟨r1, o1⟩ := assign_ok _ _ _ _ _ h1
  exact writes_own_row_mk s m1 lo up _ _ ⟨r1.1, r1.2.1⟩ o1 h2 h3

theorem range_body_writes_own_row (p : Fem1dExpandedQpProblem) (i : Nat)
    (s s' : AffineState) (h : CalcualteAffineConstraint.range_body p i s = .ok s') :
    WritesOwnRow s s' := by
  unfold CalcualteAffineConstraint.range_body at h
  simp only [] at h
  obtain ⟨m1, h1, h⟩ := bind_eq_ok _ _ _ h
  obtain ⟨b, h2, h⟩ := bind_eq_ok _ _ _ h
  simp only [Except.ok.injEq] at h
  subst h
  obtain ⟨r1, o1⟩ := assign_ok _ _ _ _ _ h1
  by_cases hi : i < p.num_var_
  · rw [if_pos hi] at h2
    cases hb : p.x_bounds_[i]? with
    | none => rw [hb] at h2; cases h2
    | some bd =>
      rw [hb] at h2
      simp only [] at h2
      obtain ⟨lo, h3, h2⟩ := bind_eq_ok _ _ _ h2
      obtain ⟨up, h4, h2⟩ := bind_eq_ok _ _ _ h2
      simp only [Except.ok.injEq] at h2
      subst h2
      exact writes_own_row_mk s m1 lo up _ _ ⟨r1.1, r1.2.1⟩ o1 h3 h4
  · rw [if_neg hi] at h2
    obtain ⟨lo, h3, h2⟩ := bind_eq_ok _ _ _ h2
    obtain ⟨up, h4, h2⟩ := bind_eq_ok _ _ _ h2
    simp only [Except.ok.injEq] at h2
    subst h2
    exact writes_own_row_mk s m1 lo up _ _ ⟨r1.1, r1.2.1⟩ o1 h3 h4

theorem row_groups_join (a n : Nat) (h : 3 * a + 3 = 3 * n) :
    List.range' 0 a ++ List.range' a a ++ List.range' (2 * a) a ++ [3 * a, 3 * a + 1, 3 * a + 2]
      ++ List.range' (3 * n) (3 * n) = List.range (6 * n) := by
  have e1 : List.range' 0 a ++ List.range' a a = List.range' 0 (2 * a) := by
    have := List.range'_append_1 0 a a
    rw [Nat.zero_add] at this
    rw [this]
    congr 1
    omega
  have e2 : List.range' 0 (2 * a) ++ List.range' (2 * a) a = List.range' 0 (3 * a) := by
    have := List.range'_append_1 0 (2 * a) a
    rw [Nat.zero_add] at this
    rw [this]
    congr 1
    omega
  have e3 : [3 * a, 3 * a + 1, 3 * a + 2] = List.range' (3 * a) 3 := by
    simp [List.range']
  have e4 : List.range' 0 (3 * a) ++ List.range' (3 * a) 3 = List.range' 0 (3 * n) := by
    have := List.range'_append_1 0 (3 * a) 3
    rw [Nat.zero_add] at this
    rw [this]
    congr 1
    omega
  have e5 : List.range' 0 (3 * n) ++ List.range' (3 * n) (3 * n) = List.range' 0 (6 * n) := by
    have := List.range'_append_1 0 (3 * n) (3 * n)
    rw [Nat.zero_add] at this
    rw [this]
    congr 1
    omega
  rw [e1, e2, e3, e4, e5, List.range_eq_range']

theorem trace_group (b a : Nat) :
    List.map (fun i => ((b + i : Nat) : Int)) (List.range' 0 a) =
      List.map Int.ofNat (List.range' b a) := by
  have h := List.map_add_range' b 0 a 1
  rw [Nat.add_zero] at h
  rw [← h, List.map_map]
  rfl

theorem trace_group_zero (a : Nat) :
    List.map (fun i => ((i : Nat) : Int)) (List.range' 0 a) =
      List.map Int.ofNat (List.range' 0 a) := rfl

/-- C15 : for `num_var_ = x_bounds_.size() = n` with `n ≥ 1` (and `6 n` in the range of
`int`) the builder runs to its end without a fault. The sizes are `kNumParam = 3 n` and
`kNumConstraint = 6 n`; the three finite-difference loops, the three initial-condition rows
and the value-range loop end in the states `s1` to `s7`; the values of `constraint_index`
at which the row groups write, taken in order, are exactly `0, 1, ..., 6 n - 1`, each once;
every step writes in row `constraint_index` only (`WritesOwnRow`), an assignment that does
not fault is inside the dimensions, and the final `constraint_index` equals
`kNumConstraint`, so that the `CHECK_EQ` holds and the call returns. -/
theorem affine_constraint_indices_in_range (p : Fem1dExpandedQpProblem)
    (lower_bounds upper_bounds : List c_float)
    (hlen : p.num_var_ = p.x_bounds_.length) (h1 : 1 ≤ p.num_var_)
    (hn : 6 * p.num_var_ < 2 ^ 31) :
    ∃ s1 s2 s3 s4 s5 s6 s7 : AffineState,
      size_mul 3 p.x_bounds_.length = 3 * p.num_var_ ∧
      size_add (size_add (size_mul 3 p.x_bounds_.length) (size_mul 3 (size_sub p.num_var_ 1)))
        3 = 6 * p.num_var_ ∧
      to_int ((p.num_var_ : Nat) : Int) = ((p.num_var_ : Nat) : Int) ∧
      to_int ((size_mul 2 p.num_var_ : Nat) : Int) = ((2 * p.num_var_ : Nat) : Int) ∧
      forLoop (fun i => decide (size_add i 1 < p.num_var_))
        (CalcualteAffineConstraint.jerk_body p ((2 * p.num_var_ : Nat) : Int))
        (p.num_var_ + 1) 0
        { affine_constraint := { rows := 6 * p.num_var_, cols := 3 * p.num_var_,
                                 coeff := fun _ _ => 0 },
          lower_bounds := resize lower_bounds (6 * p.num_var_),
          upper_bounds := resize upper_bounds (6 * p.num_var_),
          constraint_index := 0 } = .ok s1 ∧
      forLoop (fun i => decide (size_add i 1 < p.num_var_))
        (CalcualteAffineConstraint.derivative_body p ((p.num_var_ : Nat) : Int)
          ((2 * p.num_var_ : Nat) : Int)) (p.num_var_ + 1) 0 s1 = .ok s2 ∧
      forLoop (fun i => decide (size_add i 1 < p.num_var_))
        (CalcualteAffineConstraint.position_body p ((p.num_var_ : Nat) : Int)
          ((2 * p.num_var_ : Nat) : Int)) (p.num_var_ + 1) 0 s2 = .ok s3 ∧
      CalcualteAffineConstraint.init_row p 0 0 s3 = .ok s4 ∧
      CalcualteAffineConstraint.init_row p ((p.num_var_ : Nat) : Int) 1 s4 = .ok s5 ∧
      CalcualteAffineConstraint.init_row p ((2 * p.num_var_ : Nat) : Int) 2 s5 = .ok s6 ∧
      forLoop (fun i => decide (i < 3 * p.num_var_)) (CalcualteAffineConstraint.range_body p)
        (3 * p.num_var_ + 1) 0 s6 = .ok s7 ∧
      to_size_t s7.constraint_index = 6 * p.num_var_ ∧
      CalcualteAffineConstraint.dense p lower_bounds upper_bounds =
        .ok (s7.affine_constraint, s7.lower_bounds, s7.upper_bounds) ∧
      s7.affine_constraint.rows = 6 * p.num_var_ ∧
      s7.affine_constraint.cols = 3 * p.num_var_ ∧
      s7.lower_bounds.length = 6 * p.num_var_ ∧ s7.upper_bounds.length = 6 * p.num_var_ ∧
      forLoop_trace (fun i => decide (size_add i 1 < p.num_var_))
          (CalcualteAffineConstraint.jerk_body p ((2 * p.num_var_ : Nat) : Int))
          (fun s => s.constraint_index) (p.num_var_ + 1) 0
          { affine_constraint := { rows := 6 * p.num_var_, cols := 3 * p.num_var_,
                                   coeff := fun _ _ => 0 },
            lower_bounds := resize lower_bounds (6 * p.num_var_),
            upper_bounds := resize upper_bounds (6 * p.num_var_),
            constraint_index := 0 } ++
        forLoop_trace (fun i => decide (size_add i 1 < p.num_var_))
          (CalcualteAffineConstraint.derivative_body p ((p.num_var_ : Nat) : Int)
            ((2 * p.num_var_ : Nat) : Int))
          (fun s => s.constraint_index) (p.num_var_ + 1) 0 s1 ++
        forLoop_trace (fun i => decide (size_add i 1 < p.num_var_))
          (CalcualteAffineConstraint.position_body p ((p.num_var_ : Nat) : Int)
            ((2 * p.num_var_ : Nat) : Int))
          (fun s => s.constraint_index) (p.num_var_ + 1) 0 s2 ++
        [s3.constraint_index, s4.constraint_index, s5.constraint_index] ++
        forLoop_trace (fun i => decide (i < 3 * p.num_var_))
          (CalcualteAffineConstraint.range_body p)
          (fun s => s.constraint_index) (3 * p.num_var_ + 1) 0 s6 =
        (List.range (6 * p.num_var_)).map Int.ofNat ∧
      (∀ pprime_offset i s s',
        CalcualteAffineConstraint.jerk_body p pprime_offset i s = .ok s' →
          WritesOwnRow s s') ∧
      (∀ prime_offset pprime_offset i s s',
        CalcualteAffineConstraint.derivative_body p prime_offset pprime_offset i s = .ok s' →
          WritesOwnRow s s') ∧
      (∀ prime_offset pprime_offset i s s',
        CalcualteAffineConstraint.position_body p prime_offset pprime_offset i s = .ok s' →
          WritesOwnRow s s') ∧
      (∀ col k s s', CalcualteAffineConstraint.init_row p col k s = .ok s' →
        WritesOwnRow s s') ∧
      (∀ i s s', CalcualteAffineConstraint.range_body p i s = .ok s' → WritesOwnRow s s') ∧
      (∀ (m m' : MatrixXd) (r c : Int) (v : c_float), m.assign r c v = .ok m' →
        0 ≤ r ∧ r < (m.rows : Int) ∧ 0 ≤ c ∧ c < (m.cols : Int)) ∧
      (∀ (v v' : List c_float) (i : Nat) (x : c_float), assign_at v i x = .ok v' →
        i < v.length) := by
  have hP : size_mul 3 p.x_bounds_.length = 3 * p.num_var_ := by
    rw [← hlen, size_mul_eq _ _ (by omega)]
  have hC : size_add (size_add (3 * p.num_var_) (size_mul 3 (size_sub p.num_var_ 1))) 3 =
      6 * p.num_var_ := by
    rw [size_sub_eq _ _ h1 (by omega), size_mul_eq _ _ (by omega),
      size_add_eq (3 * p.num_var_) _ (by omega), size_add_eq _ _ (by omega)]
    omega
  have hprime : to_int ((p.num_var_ : Nat) : Int) = ((p.num_var_ : Nat) : Int) :=
    to_int_natCast _ (by omega)
  have hpprime : to_int ((size_mul 2 p.num_var_ : Nat) : Int) =
      ((2 * p.num_var_ : Nat) : Int) := by
    rw [size_mul_eq _ _ (by omega), to_int_natCast _ (by omega)]
  have hzero : MatrixXd.Zero (to_Index ((6 * p.num_var_ : Nat) : Int))
      (to_Index ((3 * p.num_var_ : Nat) : Int)) =
      .ok { rows := 6 * p.num_var_, cols := 3 * p.num_var_, coeff := fun _ _ => 0 } := by
    rw [to_Index_natCast _ (by omega), to_Index_natCast _ (by omega)]
    unfold MatrixXd.Zero
    rw [if_pos ⟨by omega, by omega⟩]
    simp only [Int.toNat_ofNat]
  have hcond : ∀ i, i < p.num_var_ - 1 → decide (size_add i 1 < p.num_var_) = true := by
    intro i hi
    rw [size_add_eq _ _ (by omega)]
    exact decide_eq_true (by omega)
  have hstop : decide (size_add (p.num_var_ - 1) 1 < p.num_var_) = false := by
    rw [size_add_eq _ _ (by omega)]
    exact decide_eq_false (by omega)
  have hcond4 : ∀ i, i < 3 * p.num_var_ → decide (i < 3 * p.num_var_) = true :=
    fun i hi => decide_eq_true hi
  have hstop4 : decide (3 * p.num_var_ < 3 * p.num_var_) = false :=
    decide_eq_false (by omega)
  have hB0 : Built p 0
      { affine_constraint := { rows := 6 * p.num_var_, cols := 3 * p.num_var_,
                               coeff := fun _ _ => 0 },
        lower_bounds := resize lower_bounds (6 * p.num_var_),
        upper_bounds := resize upper_bounds (6 * p.num_var_),
        constraint_index := 0 } :=
    ⟨rfl, rfl, rfl, length_resize _ _, length_resize _ _, fun r c hr => by omega,
      fun r c _ => rfl, fun r hr => by omega, fun r hr => by omega⟩
  -- the first loop
  have hb1 := fun i s (hi : i < p.num_var_ - 1) (hB : Built p i s) =>
    jerk_body_built p hn i s hi hB
  obtain ⟨s1, e1, hB1⟩ := forLoop_invariant _ _ (p.num_var_ - 1)
    (fun i s => Built p i s) (by omega) hcond hstop hb1 (p.num_var_ + 1) 0 _
    (by omega) (by omega) hB0
  have t1 := forLoop_trace_invariant _ _ (fun s : AffineState => s.constraint_index)
    (fun i => (i : Int)) (p.num_var_ - 1) (fun i s => Built p i s) (by omega) hcond hstop hb1
    (fun i s _ hB => hB.index) (p.num_var_ + 1) 0 _ (by omega) (by omega) hB0
  -- the second loop
  have hb2 := fun i s (hi : i < p.num_var_ - 1) (hB : Built p (p.num_var_ - 1 + i) s) =>
    derivative_body_built p hn i s hi hB
  obtain ⟨s2, e2, hB2⟩ := forLoop_invariant _ _ (p.num_var_ - 1)
    (fun i s => Built p (p.num_var_ - 1 + i) s) (by omega) hcond hstop hb2
    (p.num_var_ + 1) 0 s1 (by omega) (by omega) hB1
  have t2 := forLoop_trace_invariant _ _ (fun s : AffineState => s.constraint_index)
    (fun i => ((p.num_var_ - 1 + i : Nat) : Int)) (p.num_var_ - 1)
    (fun i s => Built p (p.num_var_ - 1 + i) s) (by omega) hcond hstop hb2
    (fun i s _ hB => hB.index) (p.num_var_ + 1) 0 s1 (by omega) (by omega) hB1
  -- the third loop
  have hB2' : Built p (2 * (p.num_var_ - 1) + 0) s2 := by
    have e : 2 * (p.num_var_ - 1) + 0 = p.num_var_ - 1 + (p.num_var_ - 1) := by omega
    rw [e]; exact hB2
  have hb3 := fun i s (hi : i < p.num_var_ - 1) (hB : Built p (2 * (p.num_var_ - 1) + i) s) =>
    position_body_built p hn i s hi hB
  obtain ⟨s3, e3, hB3⟩ := forLoop_invariant _ _ (p.num_var_ - 1)
    (fun i s => Built p (2 * (p.num_var_ - 1) + i) s) (by omega) hcond hstop hb3
    (p.num_var_ + 1) 0 s2 (by omega) (by omega) hB2'
  have t3 := forLoop_trace_invariant _ _ (fun s : AffineState => s.constraint_index)
    (fun i => ((2 * (p.num_var_ - 1) + i : Nat) : Int)) (p.num_var_ - 1)
    (fun i s => Built p (2 * (p.num_var_ - 1) + i) s) (by omega) hcond hstop hb3
    (fun i s _ hB => hB.index) (p.num_var_ + 1) 0 s2 (by omega) (by omega) hB2'
  -- the three initial-condition rows
  have hB3' : Built p (3 * (p.num_var_ - 1) + (0 : Fin 3).val) s3 := by
    have e : 3 * (p.num_var_ - 1) + (0 : Fin 3).val =
        2 * (p.num_var_ - 1) + (p.num_var_ - 1) := by
      simp only [Fin.val_zero]; omega
    rw [e]; exact hB3
  obtain ⟨s4, e4, hB4⟩ := init_row_built p hn h1 0 s3 hB3'
  obtain ⟨s5, e5, hB5⟩ := init_row_built p hn h1 1 s4 hB4
  obtain ⟨s6, e6, hB6⟩ := init_row_built p hn h1 2 s5 hB5
  simp only [Fin.val_zero, Fin.val_one, Fin.val_two, Nat.zero_mul, Nat.one_mul, Nat.cast_zero]
    at e4 e5 e6
  -- the last loop
  have hB6' : Built p (3 * p.num_var_ + 0) s6 := by
    have e : 3 * p.num_var_ + 0 = 3 * (p.num_var_ - 1) + (2 : Fin 3).val + 1 := by
      simp only [Fin.val_two]; omega
    rw [e]; exact hB6
  have hb7 := fun i s (hi : i < 3 * p.num_var_) (hB : Built p (3 * p.num_var_ + i) s) =>
    range_body_built p hn hlen h1 i s hi hB
  obtain ⟨s7, e7, hB7⟩ := forLoop_invariant _ _ (3 * p.num_var_)
    (fun i s => Built p (3 * p.num_var_ + i) s) (by omega) hcond4 hstop4 hb7
    (3 * p.num_var_ + 1) 0 s6 (by omega) (by omega) hB6'
  have t7 := forLoop_trace_invariant _ _ (fun s : AffineState => s.constraint_index)
    (fun i => ((3 * p.num_var_ + i : Nat) : Int)) (3 * p.num_var_)
    (fun i s => Built p (3 * p.num_var_ + i) s) (by omega) hcond4 hstop4 hb7
    (fun i s _ hB => hB.index) (3 * p.num_var_ + 1) 0 s6 (by omega) (by omega) hB6'
  have hci7 : to_size_t s7.constraint_index = 6 * p.num_var_ := by
    rw [hB7.index, to_size_t_natCast _ (by omega)]
    omega
  have hdense : CalcualteAffineConstraint.dense p lower_bounds upper_bounds =
      .ok (s7.affine_constraint, s7.lower_bounds, s7.upper_bounds) := by
    unfold CalcualteAffineConstraint.dense
    simp only [hP, hC, hzero, bind_ok, hprime, hpprime, e1, e2, e3, e4, e5, e6, e7]
    rw [hci7, if_pos rfl]
  refine ⟨s1, s2, s3, s4, s5, s6, s7, hP, by rw [hP]; exact hC, hprime, hpprime, e1, e2, e3,
    e4, e5, e6, e7, hci7, hdense, hB7.rows, hB7.cols, hB7.lower_length, hB7.upper_length, ?_,
    fun pp i s s' h => jerk_body_writes_own_row p pp i s s' h,
    fun a b i s s' h => derivative_body_writes_own_row p a b i s s' h,
    fun a b i s s' h => position_body_writes_own_row p a b i s s' h,
    fun c k s s' h => init_row_writes_own_row p c k s s' h,
    fun i s s' h => range_body_writes_own_row p i s s' h,
    fun m m' r c v h => (assign_ok m m' r c v h).1,
    fun v v' i x h => (assign_at_ok v v' i x h).1⟩
  rw [t1, t2, t3, t7, hB3'.index, hB4.index, hB5.index,
    ← row_groups_join (p.num_var_ - 1) p.num_var_ (by omega)]
  simp only [List.map_append, Nat.sub_zero, Fin.val_zero, Fin.val_one, Nat.add_zero]
  rw [trace_group (p.num_var_ - 1), trace_group (2 * (p.num_var_ - 1)),
    trace_group (3 * p.num_var_), trace_group_zero]
  rfl

theorem affine_constraint_indices_in_range_witness :
    (scenario_problem.num_var_ = scenario_problem.x_bounds_.length ∧
      1 ≤ scenario_problem.num_var_ ∧ 6 * scenario_problem.num_var_ < 2 ^ 31) ∧
    ∃ s1 s2 s3 s4 s5 s6 s7 : AffineState,
      size_mul 3 scenario_problem.x_bounds_.length = 3 * scenario_problem.num_var_ ∧
      size_add (size_add (size_mul 3 scenario_problem.x_bounds_.length) (size_mul 3 (size_sub
          scenario_problem.num_var_ 1)))
        3 = 6 * scenario_problem.num_var_ ∧
      to_int ((scenario_problem.num_var_ : Nat) : Int) = ((scenario_problem.num_var_ : Nat) :
          Int) ∧
      to_int ((size_mul 2 scenario_problem.num_var_ : Nat) : Int) = ((2 *
          scenario_problem.num_var_ : Nat) : Int) ∧
      forLoop (fun i => decide (size_add i 1 < scenario_problem.num_var_))
        (CalcualteAffineConstraint.jerk_body scenario_problem ((2 * scenario_problem.num_var_ :
            Nat) : Int))
        (scenario_problem.num_var_ + 1) 0
        { affine_constraint := { rows := 6 * scenario_problem.num_var_, cols := 3 *
            scenario_problem.num_var_,
                                 coeff := fun _ _ => 0 },
          lower_bounds := resize [] (6 * scenario_problem.num_var_),
          upper_bounds := resize [] (6 * scenario_problem.num_var_),
          constraint_index := 0 } = .ok s1 ∧
      forLoop (fun i => decide (size_add i 1 < scenario_problem.num_var_))
        (CalcualteAffineConstraint.derivative_body scenario_problem ((scenario_problem.num_var_ :
            Nat) : Int)
          ((2 * scenario_problem.num_var_ : Nat) : Int)) (scenario_problem.num_var_ + 1) 0 s1 =
              .ok s2 ∧
      forLoop (fun i => decide (size_add i 1 < scenario_problem.num_var_))
        (CalcualteAffineConstraint.position_body scenario_problem ((scenario_problem.num_var_ :
            Nat) : Int)
          ((2 * scenario_problem.num_var_ : Nat) : Int)) (scenario_problem.num_var_ + 1) 0 s2 =
              .ok s3 ∧
      CalcualteAffineConstraint.init_row scenario_problem 0 0 s3 = .ok s4 ∧
      CalcualteAffineConstraint.init_row scenario_problem ((scenario_problem.num_var_ : Nat) :
          Int) 1 s4 = .ok s5 ∧
      CalcualteAffineConstraint.init_row scenario_problem ((2 * scenario_problem.num_var_ : Nat)
          : Int) 2 s5 = .ok s6 ∧
      forLoop (fun i => decide (i < 3 * scenario_problem.num_var_))
          (CalcualteAffineConstraint.range_body scenario_problem)
        (3 * scenario_problem.num_var_ + 1) 0 s6 = .ok s7 ∧
      to_size_t s7.constraint_index = 6 * scenario_problem.num_var_ ∧
      CalcualteAffineConstraint.dense scenario_problem [] [] =
        .ok (s7.affine_constraint, s7.lower_bounds, s7.upper_bounds) ∧
      s7.affine_constraint.rows = 6 * scenario_problem.num_var_ ∧
      s7.affine_constraint.cols = 3 * scenario_problem.num_var_ ∧
      s7.lower_bounds.length = 6 * scenario_problem.num_var_ ∧ s7.upper_bounds.length = 6 *
          scenario_problem.num_var_ ∧
      forLoop_trace (fun i => decide (size_add i 1 < scenario_problem.num_var_))
          (CalcualteAffineConstraint.jerk_body scenario_problem ((2 * scenario_problem.num_var_ :
              Nat) : Int))
          (fun s => s.constraint_index) (scenario_problem.num_var_ + 1) 0
          { affine_constraint := { rows := 6 * scenario_problem.num_var_, cols := 3 *
              scenario_problem.num_var_,
                                   coeff := fun _ _ => 0 },
            lower_bounds := resize [] (6 * scenario_problem.num_var_),
            upper_bounds := resize [] (6 * scenario_problem.num_var_),
            constraint_index := 0 } ++
        forLoop_trace (fun i => decide (size_add i 1 < scenario_problem.num_var_))
          (CalcualteAffineConstraint.derivative_body scenario_problem ((scenario_problem.num_var_
              : Nat) : Int)
            ((2 * scenario_problem.num_var_ : Nat) : Int))
          (fun s => s.constraint_index) (scenario_problem.num_var_ + 1) 0 s1 ++
        forLoop_trace (fun i => decide (size_add i 1 < scenario_problem.num_var_))
          (CalcualteAffineConstraint.position_body scenario_problem ((scenario_problem.num_var_ :
              Nat) : Int)
            ((2 * scenario_problem.num_var_ : Nat) : Int))
          (fun s => s.constraint_index) (scenario_problem.num_var_ + 1) 0 s2 ++
        [s3.constraint_index, s4.constraint_index, s5.constraint_index] ++
        forLoop_trace (fun i => decide (i < 3 * scenario_problem.num_var_))
          (CalcualteAffineConstraint.range_body scenario_problem)
          (fun s => s.constraint_index) (3 * scenario_problem.num_var_ + 1) 0 s6 =
        (List.range (6 * scenario_problem.num_var_)).map Int.ofNat ∧
      (∀ pprime_offset i s s',
        CalcualteAffineConstraint.jerk_body scenario_problem pprime_offset i s = .ok s' →
          WritesOwnRow s s') ∧
      (∀ prime_offset pprime_offset i s s',
        CalcualteAffineConstraint.derivative_body scenario_problem prime_offset pprime_offset i s
            = .ok s' →
          WritesOwnRow s s') ∧
      (∀ prime_offset pprime_offset i s s',
        CalcualteAffineConstraint.position_body scenario_problem prime_offset pprime_offset i s =
            .ok s' →
          WritesOwnRow s s') ∧
      (∀ col k s s', CalcualteAffineConstraint.init_row scenario_problem col k s = .ok s' →
        WritesOwnRow s s') ∧
      (∀ i s s', CalcualteAffineConstraint.range_body scenario_problem i s = .ok s' →
          WritesOwnRow s s') ∧
      (∀ (m m' : MatrixXd) (r c : Int) (v : c_float), m.assign r c v = .ok m' →
        0 ≤ r ∧ r < (m.rows : Int) ∧ 0 ≤ c ∧ c < (m.cols : Int)) ∧
      (∀ (v v' : List c_float) (i : Nat) (x : c_float), assign_at v i x = .ok v' →
        i < v.length) :=
  ⟨⟨by decide, by decide, by decide⟩,
    affine_constraint_indices_in_range scenario_problem [] [] (by decide) (by decide)
      (by decide)⟩

/-! ## The end-to-end scenario (claim C14) -/

theorem getD_replicate_zero (m i : Nat) : (List.replicate m (0 : c_float)).getD i 0 = 0 := by
  by_cases h : i < m
  · rw [List.getD_eq_getElem _ _ (by simpa using h)]
    simp
  · rw [List.getD_eq_default _ _ (by simpa using h)]

theorem row_value_zero (A : MatrixXd) (m r : Nat) :
    row_value A (List.replicate m 0) r = 0 := by
  unfold row_value
  apply Finset.sum_eq_zero
  intro c _
  rw [getD_replicate_zero, mul_zero]

theorem eq_replicate_zero (l : List c_float) (n : Nat) (hl : l.length = n)
    (h : ∀ i, i < n → l[i]? = some 0) : l = List.replicate n 0 := by
  apply List.ext_getElem?
  intro i
  by_cases hi : i < n
  · rw [h i hi, List.getElem?_replicate, if_pos hi]
  · rw [List.getElem?_eq_none (by omega), List.getElem?_replicate, if_neg hi]

/-- The quadratic form of the kernel is the sum of its diagonal entries times the squares. -/
theorem quadratic_form_diagonal (p : Fem1dExpandedQpProblem) (K : MatrixXd)
    (hK : KernelBuilt p (3 * p.num_var_) K) (x : List c_float) :
    (∑ i in Finset.range K.rows, ∑ j in Finset.range K.cols,
      x.getD i 0 * K.coeff i j * x.getD j 0) =
    ∑ i in Finset.range (3 * p.num_var_), kernel_diagonal p i * x.getD i 0 ^ 2 := by
  rw [hK.rows, hK.cols]
  apply Finset.sum_congr rfl
  intro i hi
  have hi' : i < 3 * p.num_var_ := Finset.mem_range.mp hi
  rw [Finset.sum_eq_single i]
  · rw [hK.coeff i i, if_pos ⟨rfl, hi'⟩]
    ring
  · intro j _ hji
    rw [hK.coeff i j, if_neg (fun h => hji h.1.symm)]
    ring
  · intro h
    exact absurd hi h

theorem objective_zero_offset (p : Fem1dExpandedQpProblem) (K : MatrixXd)
    (hK : KernelBuilt p (3 * p.num_var_) K) (m : Nat) (x : List c_float) :
    objective K (List.replicate m 0) x =
      1 / 2 * ∑ i in Finset.range (3 * p.num_var_), kernel_diagonal p i * x.getD i 0 ^ 2 := by
  unfold objective
  rw [quadratic_form_diagonal p K hK x]
  have h0 : ∑ i in Finset.range (List.replicate m (0 : c_float)).length,
      (List.replicate m (0 : c_float)).getD i 0 * x.getD i 0 = 0 := by
    apply Finset.sum_eq_zero
    intro i _
    rw [getD_replicate_zero, zero_mul]
  rw [h0, add_zero]

theorem scenario_diagonal_pos (J : c_float) (i : Nat) :
    0 < kernel_diagonal (scenario_with_jerk_bound J) i := by
  unfold kernel_diagonal
  split_ifs <;> norm_num [scenario_with_jerk_bound, scenario_problem]

theorem scenario_row_bounds (J : c_float) (hJ : 0 ≤ J) (r : Nat) (hr : r < 18) :
    row_lower (scenario_with_jerk_bound J) r ≤ 0 ∧
    0 ≤ row_upper (scenario_with_jerk_bound J) r := by
  have hnv : (scenario_with_jerk_bound J).num_var_ = 3 := rfl
  have hds : (scenario_with_jerk_bound J).delta_s_ = 1 := rfl
  have hmax : (scenario_with_jerk_bound J).max_x_third_order_derivative_ = J := rfl
  have hb : (scenario_with_jerk_bound J).x_bounds_ = [(-1, 1), (-1, 1), (-1, 1)] := rfl
  have hi : ∀ k, (scenario_with_jerk_bound J).x_init_ k = 0 := by
    intro k
    match k with
    | ⟨0, _⟩ => rfl
    | ⟨1, _⟩ => rfl
    | ⟨2, _⟩ => rfl
  unfold row_lower row_upper
  rw [hnv, hds, hmax, hb]
  simp only [hi]
  interval_cases r <;> norm_num [LARGE_VALUE, hJ]

theorem scenario_offset_entry (J : c_float) (i : Nat) :
    offset_entry (scenario_with_jerk_bound J) i = 0 := by
  have hb : (scenario_with_jerk_bound J).x_bounds_ = [(-1, 1), (-1, 1), (-1, 1)] := rfl
  have hw : (scenario_with_jerk_bound J).weight_.x_mid_line_w = 1 := rfl
  unfold offset_entry
  rw [hb, hw]
  by_cases h : i < 3
  · interval_cases i <;> norm_num
  · rw [if_neg (by simpa using h)]

/-- With a positive diagonal and a zero offset the objective is `≥ 0`, and it is `≤ 0` only
at vectors whose first `3 n` coordinates are zero. -/
theorem objective_nonneg (p : Fem1dExpandedQpProblem) (K : MatrixXd)
    (hK : KernelBuilt p (3 * p.num_var_) K) (hd : ∀ i, 0 < kernel_diagonal p i) (m : Nat)
    (x : List c_float) :
    0 ≤ objective K (List.replicate m 0) x ∧
    (objective K (List.replicate m 0) x ≤ 0 → ∀ i, i < 3 * p.num_var_ → x.getD i 0 = 0) := by
  rw [objective_zero_offset p K hK m x]
  have hterm : ∀ i ∈ Finset.range (3 * p.num_var_),
      0 ≤ kernel_diagonal p i * x.getD i 0 ^ 2 :=
    fun i _ => mul_nonneg (le_of_lt (hd i)) (sq_nonneg _)
  have hsum := Finset.sum_nonneg hterm
  refine ⟨by linarith, ?_⟩
  intro hle i hi
  have hzero : ∑ i in Finset.range (3 * p.num_var_), kernel_diagonal p i * x.getD i 0 ^ 2 = 0 :=
    le_antisymm (by linarith) hsum
  have hi0 := (Finset.sum_eq_zero_iff_of_nonneg hterm).mp hzero i (Finset.mem_range.mpr hi)
  rcases mul_eq_zero.mp hi0 with h | h
  · exact absurd h (ne_of_gt (hd i))
  · exact pow_eq_zero_iff (by norm_num) |>.mp h

/-- C14 : in the end-to-end scenario (`n = 3`, bounds `(-1, 1)`, `Δs = 1`, initial triple
`(0, 0, 0)`, all weights `1`) with any jerk bound `J ≥ 0`, the builders end without a fault,
the offset vector is all zero, the all-zero vector of length `9` is feasible, and it is the
unique minimiser of `(1/2) xᵀ P x + qᵀ x` over the feasible set; hence with a solver call
that leaves a minimiser over the feasible set, `Optimize` returns `true` with all three
output sequences equal to `[0, 0, 0]`. -/
theorem scenario_minimiser (J : c_float) (hJ : 0 ≤ J) :
    ∃ K A lower upper q,
      CalcualteKernel.kernel (scenario_with_jerk_bound J) = .ok K ∧
      CalcualteAffineConstraint.dense (scenario_with_jerk_bound J) [] [] =
        .ok (A, lower, upper) ∧
      CalcualteOffset (scenario_with_jerk_bound J) [] = .ok q ∧
      q = List.replicate 9 0 ∧
      Feasible A lower upper (List.replicate 9 0) ∧
      (∀ x : List c_float, Feasible A lower upper x →
        objective K q (List.replicate 9 0) ≤ objective K q x ∧
        (objective K q x ≤ objective K q (List.replicate 9 0) → x = List.replicate 9 0)) ∧
      (∀ (DenseToCSCMatrix : MatrixXd → CSCMatrix)
          (OptimizeWithOsqp : Nat → Nat → CSCMatrix → CSCMatrix → List c_float →
            List c_float → List c_float → OsqpOutcome),
        (Feasible A lower upper
            (OptimizeWithOsqp 9 lower.length (DenseToCSCMatrix K) (DenseToCSCMatrix A)
              lower upper q).solution_x ∧
          ∀ y : List c_float, Feasible A lower upper y →
            objective K q
              (OptimizeWithOsqp 9 lower.length (DenseToCSCMatrix K) (DenseToCSCMatrix A)
                lower upper q).solution_x ≤ objective K q y) →
        ∃ p', Optimize DenseToCSCMatrix OptimizeWithOsqp (scenario_with_jerk_bound J) =
            .ok (true, p') ∧
          p'.x_ = [0, 0, 0] ∧ p'.x_derivative_ = [0, 0, 0] ∧
          p'.x_second_order_derivative_ = [0, 0, 0]) := by
  have hnv : (scenario_with_jerk_bound J).num_var_ = 3 := rfl
  have hlen : (scenario_with_jerk_bound J).num_var_ =
      (scenario_with_jerk_bound J).x_bounds_.length := rfl
  have h1 : 1 ≤ (scenario_with_jerk_bound J).num_var_ := by rw [hnv]; norm_num
  have hn : 6 * (scenario_with_jerk_bound J).num_var_ < 2 ^ 31 := by rw [hnv]; norm_num
  obtain ⟨K, hK, hKB⟩ := kernel_built (scenario_with_jerk_bound J) hlen (by rw [hnv]; norm_num)
  obtain ⟨A, lower, upper, hA, hcf⟩ := dense_closed (scenario_with_jerk_bound J) [] [] hlen h1 hn
  obtain ⟨q, hq, hQB⟩ := offset_built (scenario_with_jerk_bound J) []
    (by rw [← hlen, hnv]; norm_num)
  have hq0 : q = List.replicate 9 0 := by
    apply eq_replicate_zero q 9 hQB.length
    intro i hi
    rw [hQB.done i hi, scenario_offset_entry]
  subst hq0
  have hzero_feasible : Feasible A lower upper (List.replicate 9 0) := by
    refine ⟨by rw [hcf.cols, hnv]; rfl, ?_⟩
    intro r hr
    have hr18 : r < 18 := by rw [hcf.rows, hnv] at hr; exact hr
    have hr' : r < 6 * (scenario_with_jerk_bound J).num_var_ := by rw [hnv]; exact hr18
    obtain ⟨b1, b2⟩ := scenario_row_bounds J hJ r hr18
    unfold RowHolds
    rw [row_value_zero, getD_of_getElem? _ _ _ (hcf.lower_eq r hr'),
      getD_of_getElem? _ _ _ (hcf.upper_eq r hr')]
    exact ⟨b1, b2⟩
  have hobj0 : objective K (List.replicate 9 0) (List.replicate 9 0) = 0 := by
    rw [objective_zero_offset (scenario_with_jerk_bound J) K hKB]
    have : ∑ i in Finset.range (3 * (scenario_with_jerk_bound J).num_var_),
        kernel_diagonal (scenario_with_jerk_bound J) i *
          (List.replicate 9 (0 : c_float)).getD i 0 ^ 2 = 0 := by
      apply Finset.sum_eq_zero
      intro i _
      rw [getD_replicate_zero]
      ring
    rw [this, mul_zero]
  have hunique : ∀ x : List c_float, Feasible A lower upper x →
      objective K (List.replicate 9 0) (List.replicate 9 0) ≤
        objective K (List.replicate 9 0) x ∧
      (objective K (List.replicate 9 0) x ≤
          objective K (List.replicate 9 0) (List.replicate 9 0) →
        x = List.replicate 9 0) := by
    intro x hx
    obtain ⟨hnn, hz⟩ := objective_nonneg (scenario_with_jerk_bound J) K hKB
      (scenario_diagonal_pos J) 9 x
    rw [hobj0]
    refine ⟨hnn, fun hle => ?_⟩
    have hxl : x.length = 9 := by rw [hx.1, hcf.cols, hnv]
    apply eq_replicate_zero x 9 hxl
    intro i hi
    exact getElem?_of_getD x i 0 (by omega) (hz hle i (by rw [hnv]; omega))
  refine ⟨K, A, lower, upper, List.replicate 9 0, hK, hA, hq, rfl, hzero_feasible, hunique, ?_⟩
  intro csc osqp hex
  obtain ⟨hsf, hsmin⟩ := hex
  have hs0 := (hunique _ hsf).2 (hsmin _ hzero_feasible)
  have hP : CalcualteKernel csc (scenario_with_jerk_bound J) = .ok (csc K) := by
    unfold CalcualteKernel; rw [hK]; rfl
  have hC : CalcualteAffineConstraint csc (scenario_with_jerk_bound J) [] [] =
      .ok (csc A, lower, upper) := by
    unfold CalcualteAffineConstraint; rw [hA]; rfl
  obtain ⟨p', hopt, lx, ld, ldd, hx, hd, hdd, hdl, hddl⟩ :=
    optimize_decodes csc osqp (scenario_with_jerk_bound J) hlen h1 hn (List.replicate 9 0)
      (by rw [hnv]; rfl)
      (by
        intro P A' lower' upper' q' e1 e2 e3
        rw [hP] at e1
        rw [hC] at e2
        rw [hq] at e3
        simp only [Except.ok.injEq, Prod.mk.injEq] at e1 e2 e3
        obtain ⟨rfl, rfl, rfl⟩ := e2
        subst e1 e3
        exact hs0)
  rw [hnv] at lx ld ldd hx hd hdd hdl hddl
  have hrep : ∀ i, i < 9 → (List.replicate 9 (0 : c_float))[i]? = some 0 := by
    intro i hi
    rw [List.getElem?_replicate, if_pos hi]
  refine ⟨p', hopt, ?_, ?_, ?_⟩
  · apply eq_replicate_zero p'.x_ 3 lx
    intro i hi
    rw [hx i hi, hrep i (by omega)]
  · apply eq_replicate_zero p'.x_derivative_ 3 ld
    intro i hi
    by_cases h2 : i < 2
    · rw [hd i (by omega), hrep _ (by omega)]
    · have e : i = 3 - 1 := by omega
      rw [e]; exact hdl
  · apply eq_replicate_zero p'.x_second_order_derivative_ 3 ldd
    intro i hi
    by_cases h2 : i < 2
    · rw [hdd i (by omega), hrep _ (by omega)]
    · have e : i = 3 - 1 := by omega
      rw [e]; exact hddl

theorem scenario_minimiser_witness :
    (0 : c_float) ≤ 10 ∧
    (∃ K A lower upper q,
      CalcualteKernel.kernel (scenario_with_jerk_bound 10) = .ok K ∧
      CalcualteAffineConstraint.dense (scenario_with_jerk_bound 10) [] [] =
        .ok (A, lower, upper) ∧
      CalcualteOffset (scenario_with_jerk_bound 10) [] = .ok q ∧
      q = List.replicate 9 0 ∧
      Feasible A lower upper (List.replicate 9 0) ∧
      (∀ x : List c_float, Feasible A lower upper x →
        objective K q (List.replicate 9 0) ≤ objective K q x ∧
        (objective K q x ≤ objective K q (List.replicate 9 0) → x = List.replicate 9 0)) ∧
      (∀ (DenseToCSCMatrix : MatrixXd → CSCMatrix)
          (OptimizeWithOsqp : Nat → Nat → CSCMatrix → CSCMatrix → List c_float →
            List c_float → List c_float → OsqpOutcome),
        (Feasible A lower upper
            (OptimizeWithOsqp 9 lower.length (DenseToCSCMatrix K) (DenseToCSCMatrix A)
              lower upper q).solution_x ∧
          ∀ y : List c_float, Feasible A lower upper y →
            objective K q
              (OptimizeWithOsqp 9 lower.length (DenseToCSCMatrix K) (DenseToCSCMatrix A)
                lower upper q).solution_x ≤ objective K q y) →
        ∃ p', Optimize DenseToCSCMatrix OptimizeWithOsqp (scenario_with_jerk_bound 10) =
            .ok (true, p') ∧
          p'.x_ = [0, 0, 0] ∧ p'.x_derivative_ = [0, 0, 0] ∧
          p'.x_second_order_derivative_ = [0, 0, 0])) ∧
    ∃ p', Optimize dense_to_csc (constant_osqp (List.replicate 9 0))
        (scenario_with_jerk_bound 10) = .ok (true, p') ∧
      p'.x_ = [0, 0, 0] ∧ p'.x_derivative_ = [0, 0, 0] ∧
      p'.x_second_order_derivative_ = [0, 0, 0] := by
  have h := scenario_minimiser 10 (by norm_num)
  refine ⟨by norm_num, h, ?_⟩
  obtain ⟨K, A, lower, upper, q, _, _, _, _, hf, hu, hE⟩ := h
  exact hE dense_to_csc (constant_osqp (List.replicate 9 0)) ⟨hf, fun y hy => (hu y hy).1⟩

end planning
end apollo
